import Mathlib

/-!
# SVM40 driver (paulvha/svm40): the SHDLC stream-frame codec

Shallow embedding of the UART routines of `src/svm40.cpp`
(`SHDLC_ByteStuff`, `SHDLC_ByteUnStuff`, `SHDLC_fill_buffer`, `SHDLC_calc_CRC`,
`SHDLC_SendToSerial`, `SHDLC_ReadFromSerial`, `SHDLC_SerialToBuffer`) and of the
constants of `src/svm40.h` they use.

Conventions of the embedding
* a `uint8_t` is a `Nat`; a store into a `uint8_t` array keeps the value modulo 256;
* the two buffers are lists (`_Receive_BUF` has `MAXRECVBUFLENGTH` = 50 cells,
  `_Send_BUF` has 20); a store outside the array is not given a meaning: it is
  reported (`none`, respectively `RxResult.overrun`);
* the stream device and the clock are what the read loop observes of them: one
  `Poll` per turn of the `while (true)` loop, holding the value of `millis()` and
  the byte `_serial->read()` delivers when `_serial->available()` is non-zero.
-/

namespace SVM40

/-! ## Constants of `svm40.h` -/

abbrev ERR_OK : Nat := 0x00
abbrev ERR_DATALENGTH : Nat := 0x01
abbrev ERR_PARAMETER : Nat := 0x04
abbrev ERR_CMDSTATE : Nat := 0x43
abbrev ERR_TIMEOUT : Nat := 0x50
abbrev ERR_PROTOCOL : Nat := 0x51

abbrev RX_DELAY_MS : Nat := 100
abbrev MAXRECVBUFLENGTH : Nat := 50

abbrev SVM40_SHDLC_RESET : Nat := 0xD3
abbrev SVM40_SHDLC_BASELINE_ALG : Nat := 0x60
abbrev SVM40_SHDLC_SET_TEMP_OFFSET : Nat := 0x81
abbrev SVM40_SHDLC_STORE_NVRAM : Nat := 0x80
abbrev SVM40_SHDLC_BASELINE_STATE : Nat := 0x61
abbrev SVM40_SHDLC_SET_VOC_STATE : Nat := 0x88
abbrev SVM40_SHDLC_NO_BASE_VALUE : Nat := 0xff

abbrev SHDLC_IND : Nat := 0x7e
abbrev TIME_OUT : Nat := 5000

/-- Declared size of `_Send_BUF` (`uint8_t _Send_BUF[20]`). -/
abbrev SENDBUFLENGTH : Nat := 20

/-! ## The driver object -/

/-- The `enum svm40_comms_port` of `svm40.h`. -/
inductive svm40_comms_port
  | I2C_COMMS
  | SERIAL_COMMS
  | NONE
deriving DecidableEq, Repr

/-- The private members of `class SVM40` the codecs and the public operations read or
write, with observation fields: `serialOut`, the bytes handed to `_serial->write` (oldest
first), `waited`, the milliseconds spent in `delay`, `wireOut`, the byte sequences handed
to `_i2cPort->write` (one per `beginTransmission`, oldest first), and `wireBegins`, the
number of calls of `_i2cPort->begin()`. -/
structure State where
  _Receive_BUF : List Nat
  _Send_BUF : List Nat
  _Receive_BUF_Length : Nat
  _Send_BUF_Length : Nat
  _RespDelay : Nat
  serialOut : List Nat
  waited : Nat
  _Sensor_Comms : svm40_comms_port := .SERIAL_COMMS
  _started : Bool := false
  _FW_major : Nat := 0
  _FW_minor : Nat := 0
  wireOut : List (List Nat) := []
  wireBegins : Nat := 0
deriving DecidableEq, Repr

/-- Store `buf[i] = v` into a `uint8_t` array: `none` when `i` is outside the array. -/
def store (buf : List Nat) (i v : Nat) : Option (List Nat) :=
  if i < buf.length then some (buf.set i (v % 256)) else none

/-! ## Byte stuffing -/

/-- The `switch` of `SHDLC_ByteStuff`: the escape code `x` chosen for `b`
(0 when `b` needs no stuffing). -/
def stuffCode (b : Nat) : Nat :=
  if b = 0x11 then 0x31
  else if b = 0x13 then 0x33
  else if b = 0x7d then 0x5d
  else if b = 0x7e then 0x5e
  else 0

/-- `SVM40::SHDLC_ByteStuff(b, off)`: stores `b`, or `0x7D` and its escape code, in
`_Send_BUF` from `off` on, and returns the new offset. -/
def SHDLC_ByteStuff (_Send_BUF : List Nat) (b off : Nat) : Option (List Nat × Nat) :=
  let x := stuffCode b
  if x = 0 then do
    let buf ← store _Send_BUF off b
    pure (buf, off + 1)
  else do
    let buf ← store _Send_BUF off 0x7D
    let buf ← store buf (off + 1) x
    pure (buf, off + 2)

/-- `SVM40::SHDLC_ByteUnStuff(b)`: the byte an escape code stands for, zero on error. -/
def SHDLC_ByteUnStuff (b : Nat) : Nat :=
  if b = 0x31 then 0x11
  else if b = 0x33 then 0x13
  else if b = 0x5d then 0x7d
  else if b = 0x5e then 0x7e
  else 0

/-- The bytes `SHDLC_ByteStuff` emits for `b`: what it stores, from offset 0 up to the
offset it returns, in a buffer with room for two bytes. -/
def stuffedBytes (b : Nat) : List Nat :=
  match SHDLC_ByteStuff [0, 0] b 0 with
  | some (buf, off) => buf.take off
  | none => []

/-- A body sent byte by byte through `SHDLC_ByteStuff`. -/
def stuffAll : List Nat → List Nat
  | [] => []
  | b :: bs => stuffedBytes b ++ stuffAll bs

/-! ## Checksum -/

/-- `SVM40::SHDLC_calc_CRC(buf, first, last)`: `ret` is a `uint32_t` accumulator over
`buf[first..last]` (both included), the result is `~(ret & 0xff)` as a `uint8_t`.
(The loop counter is a `uint8_t`, so the source needs `last < 255` to leave the loop;
every caller passes an index of a buffer of at most 50 cells.) -/
def SHDLC_calc_CRC (buf : List Nat) (first last : Nat) : Nat :=
  let ret := (List.range' first (last + 1 - first)).foldl
    (fun ret i => (ret + buf.getD i 0) % 4294967296) 0
  255 - ret % 256

/-! ## Building a frame -/

/-- The loop `for(tmp=0; tmp < len ; tmp++) _Send_BUF[i++] = par[tmp];` of
`SHDLC_fill_buffer`, from the current `tmp` on (`fuel` bounds the remaining turns; it
is started with `fuel = len`, which is enough for the loop to run to its end). `par` is
the list of the bytes the pointer gives access to; the callers pass at least `len` of
them, and a read behind the last one is taken to give 0. -/
def copyPar (par : List Nat) (len : Nat) : Nat → List Nat → Nat → Nat → Option (List Nat × Nat)
  | 0, buf, _, i => some (buf, i)
  | fuel + 1, buf, tmp, i =>
    if tmp < len then do
      let buf ← store buf i (par.getD tmp 0)
      copyPar par len fuel buf (tmp + 1) (i + 1)
    else some (buf, i)

/-- First part of `SVM40::SHDLC_fill_buffer(lead, command, len, par)`, down to the
comment `add CRC and check for byte stuffing`: clears `_Send_BUF`, stores the header,
the address and the command bytes, and yields the buffer and the index `i` reached.
The result is `none` when an index falls outside `_Send_BUF`. -/
def fillCommand (lead command len : Nat) (par : List Nat) : Option (List Nat × Nat) := do
  -- memset(_Send_BUF,0x0,sizeof(_Send_BUF)); _Send_BUF_Length = 0;
  let buf := List.replicate SENDBUFLENGTH 0
  let buf ← store buf 0 SHDLC_IND
  let buf ← store buf 1 0x0
  let i := 2
  if lead ≠ SVM40_SHDLC_NO_BASE_VALUE then do
    let buf ← store buf i lead
    let buf ← store buf (i + 1) 1
    let buf ← store buf (i + 2) (command % 256)
    let i := i + 3
    if lead = SVM40_SHDLC_BASELINE_STATE ∧ command = SVM40_SHDLC_SET_VOC_STATE then do
      let (buf, i) ← copyPar par len len buf 0 i
      let buf ← store buf 3 (len + 1)
      pure (buf, i)
    else if lead = SVM40_SHDLC_BASELINE_ALG ∧ command = SVM40_SHDLC_SET_TEMP_OFFSET then do
      let (buf, i) ← copyPar par len len buf 0 i
      let buf ← store buf 3 (len + 1)
      pure (buf, i)
    else pure (buf, i)
  else do
    let buf ← store buf i command
    let buf ← store buf (i + 1) 0
    pure (buf, i + 2)

/-- Second part of `SVM40::SHDLC_fill_buffer`, from `add CRC and check for byte
stuffing` to `_Send_BUF_Length = ++i`: yields the buffer and the frame length. -/
def fillCheck (buf : List Nat) (i : Nat) : Option (List Nat × Nat) := do
  let tmp := SHDLC_calc_CRC buf 1 i
  let (buf, i) ← SHDLC_ByteStuff buf tmp i
  let buf ← store buf i SHDLC_IND
  pure (buf, i + 1)

/-- `SVM40::SHDLC_fill_buffer(lead, command, len, par)`, with `par` the bytes the
pointer gives access to. The result is `none` when an index falls outside `_Send_BUF`. -/
def SHDLC_fill_buffer (s : State) (lead command : Nat) (len : Nat) (par : List Nat) :
    Option (Bool × State) := do
  let (buf, i) ← fillCommand lead command len par
  let (buf, n) ← fillCheck buf i
  -- set for delay
  let respDelay :=
    if command = SVM40_SHDLC_STORE_NVRAM then 750
    else if command = SVM40_SHDLC_RESET then 200
    else RX_DELAY_MS
  pure (true, { s with _Send_BUF := buf, _Send_BUF_Length := n, _RespDelay := respDelay })

/-- Whether `SHDLC_fill_buffer` copies `par` into the frame for this lead and command. -/
def carriesPayload (lead command : Nat) : Bool :=
  (lead = SVM40_SHDLC_BASELINE_STATE ∧ command = SVM40_SHDLC_SET_VOC_STATE)
    ∨ (lead = SVM40_SHDLC_BASELINE_ALG ∧ command = SVM40_SHDLC_SET_TEMP_OFFSET)

/-- The start of the frame, header to last command or payload byte, that `fillCommand`
lays out (see `fillCommand_eq`). -/
def frameStart (lead command len : Nat) (par : List Nat) : List Nat :=
  if lead = SVM40_SHDLC_NO_BASE_VALUE then [SHDLC_IND, 0x00, command, 0x00]
  else if carriesPayload lead command then
    [SHDLC_IND, 0x00, lead, (len + 1) % 256, command]
      ++ (List.range' 0 len).map (fun k => par.getD k 0 % 256)
  else [SHDLC_IND, 0x00, lead, 0x01, command]

/-- The two payload bytes `SVM40::SetTemperatureOffset(val)` hands to
`SHDLC_fill_buffer` when the firmware major is not 1: `v = val * 200` kept in a
`uint16_t`, `data[0] = v >> 8`, `data[1] = v & 0xff`. -/
def tempOffsetData (val : Int) : List Nat :=
  let v : Nat := ((val * 200) % 65536).toNat
  [v / 256, v % 256]

/-! ## Sending -/

/-- `SVM40::SHDLC_SendToSerial()`. -/
def SHDLC_SendToSerial (s : State) : Nat × State :=
  if s._Send_BUF_Length = 0 then (ERR_DATALENGTH, s)
  else
    (ERR_OK, { s with
      serialOut := s.serialOut ++ s._Send_BUF.take s._Send_BUF_Length
      _Send_BUF_Length := 0
      waited := s.waited + s._RespDelay })

/-! ## Receiving -/

/-- One turn of the `while (true)` loop of `SHDLC_SerialToBuffer` as the code sees the
outside world: `now` is the value of `millis()`, `rx` is `none` when
`_serial->available()` is zero and `some b` when it is not and `_serial->read()`
gives `b`. -/
structure Poll where
  now : Nat
  rx : Option Nat
deriving DecidableEq, Repr

/-- How far a run of the read loop got. -/
inductive RxResult
  /-- The function returned `code`. -/
  | returned (code : Nat) (s : State)
  /-- The function stored at `_Receive_BUF[i]` with `i` outside the array. -/
  | overrun (i : Nat) (s : State)
  /-- The polls given are used up and the loop is still turning, with these locals. -/
  | running (i : Nat) (byte_stuff : Bool) (s : State)
deriving DecidableEq, Repr

/-- The value of `millis() - startTime`, computed on 32 bits. -/
def elapsed (startTime now : Nat) : Nat :=
  (now % 4294967296 + 4294967296 - startTime % 4294967296) % 4294967296

/-- The end of a turn that read a byte: `i++; if(i > MAXRECVBUFLENGTH) return(ERR_PROTOCOL);`. -/
def rxNext (s : State) (i : Nat) (byte_stuff : Bool) : RxResult :=
  if i + 1 > MAXRECVBUFLENGTH then .returned ERR_PROTOCOL s
  else .running (i + 1) byte_stuff s

/-- The body of `if (_serial->available())` in `SHDLC_SerialToBuffer`, for the byte `b`
that `_serial->read()` gives. -/
def rxByte (s : State) (i : Nat) (byte_stuff : Bool) (b : Nat) : RxResult :=
  match store s._Receive_BUF i b with
  | none => .overrun i s
  | some buf =>
    let s1 := { s with _Receive_BUF := buf }
    if i = 0 then
      if buf.getD i 0 ≠ SHDLC_IND then .returned ERR_PROTOCOL s1
      else rxNext s1 i byte_stuff
    else if buf.getD i 0 = 0x7D then
      -- i-- ; byte_stuff = true   (i is not 0 here)
      rxNext s1 (i - 1) true
    else if byte_stuff then
      rxNext { s1 with _Receive_BUF := buf.set i (SHDLC_ByteUnStuff (buf.getD i 0)) } i false
    else if buf.getD i 0 = SHDLC_IND then
      let s2 := { s1 with _Receive_BUF_Length := i }
      if s2._Receive_BUF_Length < 3 then .returned ERR_PROTOCOL s2
      else .returned ERR_OK s2
    else rxNext s1 i byte_stuff

/-- The `while (true)` loop of `SHDLC_SerialToBuffer`, one poll per turn. -/
def serialLoop (startTime : Nat) : List Poll → Nat → Bool → State → RxResult
  | [], i, byte_stuff, s => .running i byte_stuff s
  | p :: ps, i, byte_stuff, s =>
    if elapsed startTime p.now > TIME_OUT then .returned ERR_TIMEOUT s
    else
      match p.rx with
      | none => serialLoop startTime ps i byte_stuff s
      | some b =>
        match rxByte s i byte_stuff b with
        | .running i1 byte_stuff1 s1 => serialLoop startTime ps i1 byte_stuff1 s1
        | r => r

/-- `SVM40::SHDLC_SerialToBuffer()`: `startTime` is the first value of `millis()`,
`polls` what the following turns of the loop observe. -/
def SHDLC_SerialToBuffer (s : State) (startTime : Nat) (polls : List Poll) : RxResult :=
  serialLoop startTime polls 0 false s

/-- `SVM40::SHDLC_ReadFromSerial()`. (`_serial->flush()` changes nothing the driver
observes; the result of `SHDLC_SendToSerial` is neglected, as in the source.) -/
def SHDLC_ReadFromSerial (s : State) (startTime : Nat) (polls : List Poll) : RxResult :=
  let s1 := (SHDLC_SendToSerial s).2
  match SHDLC_SerialToBuffer s1 startTime polls with
  | .returned ret s2 =>
    if ret ≠ ERR_OK then .returned ret s2
    else
      let ret := SHDLC_calc_CRC s2._Receive_BUF 1 (s2._Receive_BUF_Length - 2)
      if s2._Receive_BUF.getD (s2._Receive_BUF_Length - 1) 0 ≠ ret then
        .returned ERR_PROTOCOL s2
      else
        -- SHDLC_State(_Receive_BUF[3]) only prints
        .returned (s2._Receive_BUF.getD 3 0) s2
  | r => r

/-- The code a run returned, if it returned. -/
def RxResult.code : RxResult → Option Nat
  | .returned c _ => some c
  | _ => none

/-- The driver object a run ended with. -/
def RxResult.state : RxResult → State
  | .returned _ s => s
  | .overrun _ s => s
  | .running _ _ s => s

/-- A driver object with cleared buffers. -/
def State.init : State :=
  { _Receive_BUF := List.replicate MAXRECVBUFLENGTH 0
    _Send_BUF := List.replicate SENDBUFLENGTH 0
    _Receive_BUF_Length := 0
    _Send_BUF_Length := 0
    _RespDelay := 0
    serialOut := []
    waited := 0 }

/-- The driver object after the response `7E 00 03 00 02 12 34 chk 7E` has been read
into cleared buffers. -/
def frameRead (chk : Nat) : State :=
  { State.init with
    _Receive_BUF := [0x7E, 0x00, 0x03, 0x00, 0x02, 0x12, 0x34, chk, 0x7E] ++ List.replicate 41 0
    _Receive_BUF_Length := 8 }

/-- The polls of a stream that has one byte ready at every turn, the clock standing
at `t`. -/
def pollsOf (t : Nat) (bytes : List Nat) : List Poll :=
  bytes.map fun b => { now := t, rx := some b }

/-- The read loop on the bytes alone, for turns in which the clock is inside the
time-out window (see `serialLoop_eq_feed`). -/
def feed : List Nat → Nat → Bool → State → RxResult
  | [], i, byte_stuff, s => .running i byte_stuff s
  | b :: bs, i, byte_stuff, s =>
    match rxByte s i byte_stuff b with
    | .running i1 byte_stuff1 s1 => feed bs i1 byte_stuff1 s1
    | r => r

/-! ## The register bus (I2C) codec -/

abbrev SVM40_I2C_RESET : Nat := 0xD304
abbrev SVM40_I2C_STORE_NVRAM : Nat := 0x6002

/-- The inner loop `for(uint8_t bit = 8; bit > 0; --bit)` of `I2C_calc_CRC`, with `bit`
turns to go: `crc = (crc << 1) ^ 0x31u` when `crc & 0x80`, `crc = (crc << 1)`
otherwise, kept in a `uint8_t`. -/
def crcBits : Nat → Nat → Nat
  | 0, crc => crc
  | bit + 1, crc =>
    crcBits bit (if crc &&& 0x80 ≠ 0 then ((crc <<< 1) ^^^ 0x31) % 256 else (crc <<< 1) % 256)

/-- `SVM40::I2C_calc_CRC(data)`, for `data[0] = d0` and `data[1] = d1` (both bytes). -/
def I2C_calc_CRC (d0 d1 : Nat) : Nat :=
  let crc := 0xFF
  let crc := crcBits 8 (crc ^^^ d0)
  crcBits 8 (crc ^^^ d1)

/-- The loop `for (j = 0, c = 0 ; j < len; j++)` of `I2C_fill_buffer`, from the current
`j`, `c` and `i` on (`fuel` bounds the remaining turns; it is started with `fuel = len`).
A read behind the last byte of `param` is taken to give 0. -/
def i2cCopy (param : List Nat) (len : Nat) :
    Nat → List Nat → Nat → Nat → Nat → Option (List Nat × Nat)
  | 0, buf, _, _, i => some (buf, i)
  | fuel + 1, buf, j, c, i =>
    if j < len then do
      -- add bytes
      let buf ← store buf i (param.getD j 0)
      let i := i + 1
      -- add CRC after each 2 bytes
      if c + 1 = 2 then do
        let buf ← store buf i (I2C_calc_CRC (buf.getD (i - 2) 0) (buf.getD (i - 1) 0))
        i2cCopy param len fuel buf (j + 1) 0 (i + 1)
      else i2cCopy param len fuel buf (j + 1) (c + 1) i
    else some (buf, i)

/-- `SVM40::I2C_fill_buffer(cmd, len, param)`. The result is `none` when an index falls
outside `_Send_BUF`. -/
def I2C_fill_buffer (s : State) (cmd len : Nat) (param : List Nat) : Option State := do
  -- add command
  let buf ← store s._Send_BUF 0 (cmd >>> 8 &&& 0xff)
  let buf ← store buf 1 (cmd &&& 0xff)
  let (buf, i) ← if len ≠ 0 then i2cCopy param len len buf 0 0 2 else some (buf, 2)
  let respDelay :=
    if cmd = SVM40_I2C_STORE_NVRAM then 750
    else if cmd = SVM40_I2C_RESET then 200
    else RX_DELAY_MS
  pure { s with _Send_BUF := buf, _Send_BUF_Length := i, _RespDelay := respDelay }

/-- How a register-bus read ended. -/
inductive WireResult
  /-- The function returned `code`; `requested` is the quantity it passed to
  `_i2cPort->requestFrom`, `queued` the bytes it left unread on the bus. -/
  | returned (code : Nat) (s : State) (requested : Nat) (queued : List Nat)
  /-- The function stored at `_Receive_BUF[i]` with `i` outside the array. -/
  | overrun (i : Nat) (s : State)
deriving DecidableEq, Repr

/-- The loop `while (j < i) _Receive_BUF[_Receive_BUF_Length++] = data[j++];` of
`I2C_ReadFromSVM`: `left` is `data[j..i-1]`. -/
def copyLeft : List Nat → State → Except Nat State
  | [], s => .ok s
  | d :: ds, s =>
    match store s._Receive_BUF s._Receive_BUF_Length d with
    | none => .error s._Receive_BUF_Length
    | some buf =>
      copyLeft ds { s with _Receive_BUF := buf, _Receive_BUF_Length := s._Receive_BUF_Length + 1 }

/-- The end of `I2C_ReadFromSVM`, behind the `while (_i2cPort->available())` loop:
`data` holds the `i` bytes of an unfinished group. -/
def readFinish (count requested : Nat) (data : List Nat) (s : State) (queued : List Nat) :
    WireResult :=
  match copyLeft data s with
  | .error i => .overrun i s
  | .ok s1 =>
    if s1._Receive_BUF_Length = 0 then .returned ERR_PROTOCOL s1 requested queued
    else if s1._Receive_BUF_Length = count then .returned ERR_OK s1 requested queued
    else .returned ERR_DATALENGTH s1 requested queued

/-- The loop `while (_i2cPort->available())` of `I2C_ReadFromSVM`: the first argument is
the queue of bytes the bus still holds, `data` the bytes `data[0..i-1]` read of the
current group. -/
def readLoop (count requested : Nat) (chk_zero : Bool) :
    List Nat → List Nat → State → WireResult
  | [], data, s => readFinish count requested data s []
  | b :: queue, data, s =>
    -- data[i++] = _i2cPort->read();
    let data := data ++ [b % 256]
    -- 2 bytes data, 1 CRC
    if data.length = 3 then
      if data.getD 2 0 ≠ I2C_calc_CRC (data.getD 0 0) (data.getD 1 0) then
        .returned ERR_PROTOCOL s requested queue
      else
        match store s._Receive_BUF s._Receive_BUF_Length (data.getD 0 0) with
        | none => .overrun s._Receive_BUF_Length s
        | some buf =>
          match store buf (s._Receive_BUF_Length + 1) (data.getD 1 0) with
          | none =>
            .overrun (s._Receive_BUF_Length + 1)
              { s with _Receive_BUF := buf, _Receive_BUF_Length := s._Receive_BUF_Length + 1 }
          | some buf =>
            let s1 := { s with _Receive_BUF := buf,
                               _Receive_BUF_Length := s._Receive_BUF_Length + 2 }
            -- check for zero termination (Serial and product code)
            if chk_zero ∧ data.getD 0 0 = 0 ∧ data.getD 1 0 = 0 then
              -- flush any bytes pending
              .returned ERR_OK s1 requested []
            else if s1._Receive_BUF_Length ≥ count then readFinish count requested [] s1 queue
            else readLoop count requested chk_zero queue [] s1
    else readLoop count requested chk_zero queue data s

/-- `SVM40::I2C_ReadFromSVM(count, chk_zero)`; `bus` is the queue of bytes the bus
holds (`_i2cPort->available()`, `_i2cPort->read()`) once
`_i2cPort->requestFrom(SVM40_I2C_ADDRESS, uint8_t (count / 2 * 3))` is back. -/
def I2C_ReadFromSVM (s : State) (count : Nat) (chk_zero : Bool) (bus : List Nat) : WireResult :=
  readLoop count (count / 2 * 3 % 256) chk_zero bus [] { s with _Receive_BUF_Length := 0 }

/-- Valid three-byte groups on the wire: each data pair followed by its CRC. -/
def wireGroups : List (Nat × Nat) → List Nat
  | [] => []
  | (d0, d1) :: gs => d0 :: d1 :: I2C_calc_CRC d0 d1 :: wireGroups gs

/-- The data bytes of a list of pairs, in order. -/
def pairBytes : List (Nat × Nat) → List Nat
  | [] => []
  | (d0, d1) :: gs => d0 :: d1 :: pairBytes gs

/-- The code a register-bus read returned, if it returned. -/
def WireResult.code : WireResult → Option Nat
  | .returned c _ _ _ => some c
  | .overrun _ _ => none

/-- The driver object a register-bus read ended with. -/
def WireResult.state : WireResult → State
  | .returned _ s _ _ => s
  | .overrun _ s => s

/-- The bytes a register-bus read left queued on the bus. -/
def WireResult.queued : WireResult → List Nat
  | .returned _ _ _ q => q
  | .overrun _ _ => []

/-- One turn of the loop `for(uint8_t bit = 8; bit > 0; --bit)` of `I2C_calc_CRC` (the
argument of the recursive call of `crcBits`). -/
def crcStep (crc : Nat) : Nat :=
  if crc &&& 0x80 ≠ 0 then ((crc <<< 1) ^^^ 0x31) % 256 else (crc <<< 1) % 256

/-- CRC-8 in the words of the specification (not taken from the source): starting from
`init`, for each byte of `data` the running value is XORed with the byte and then, eight
times, shifted left by one within 8 bits, XORing `poly` whenever the bit shifted out
(bit 7) was set. -/
def crc8 (poly init : Nat) (data : List Nat) : Nat :=
  data.foldl (fun crc byte =>
    Nat.iterate (fun c => if c / 128 % 2 = 1 then (c * 2 % 256) ^^^ poly else c * 2 % 256) 8
      (crc ^^^ byte)) init

/-! ## The public operations -/

abbrev SVM40_I2C_START_MEASURE : Nat := 0x0010
abbrev SVM40_I2C_STOP_MEASURE : Nat := 0x0104
abbrev SVM40_I2C_GET_VERSION : Nat := 0xD100
abbrev SVM40_I2C_READ_RESULTS_INT_R : Nat := 0x03B0
abbrev SVM40_I2C_GET_TEMP_OFFSET : Nat := 0x6014
abbrev SVM40_I2C_SET_TEMP_OFFSET : Nat := 0x6014
abbrev SVM40_I2C_SET_VOC_STATE : Nat := 0x6181
abbrev SVM40_I2C_GET_VOC_TUNING : Nat := 0x6083
abbrev SVM40_I2C_SET_VOC_TUNING : Nat := 0x6083

abbrev SVM40_SHDLC_START_BASE : Nat := 0x00
abbrev SVM40_SHDLC_START_MEASURE : Nat := 0x00
abbrev SVM40_SHDLC_STOP_MEASURE : Nat := 0x01
abbrev SVM40_SHDLC_GET_VERSION : Nat := 0xD1
abbrev SVM40_SHDLC_READ_BASE : Nat := 0x03
abbrev SVM40_SHDLC_READ_RESULTS_INT_RAW : Nat := 0x0B
abbrev SVM40_SHDLC_GET_TEMP_OFFSET : Nat := 0x01
abbrev SVM40_SHDLC_GET_VOC_TUNING : Nat := 0x08
abbrev SVM40_SHDLC_SET_VOC_TUNING : Nat := 0x88
abbrev SVM40_SHDLC_GET_VOC_STATE : Nat := 0x08

/-- `SVM40::I2C_SendToSVM()`; `ack` is the value `_i2cPort->endTransmission()` gives. -/
def I2C_SendToSVM (s : State) (ack : Nat) : Nat × State :=
  if s._Send_BUF_Length = 0 then (ERR_DATALENGTH, s)
  else
    let s1 := { s with wireOut := s.wireOut ++ [s._Send_BUF.take s._Send_BUF_Length] }
    if ack ≠ 0 then (ERR_PROTOCOL, s1)
    else (ERR_OK, { s1 with _Send_BUF_Length := 0, waited := s1.waited + s1._RespDelay })

/-- How `I2C_RequestFromSVM` ended. -/
inductive BusResult
  /-- The request could not be sent: the function returned `code` before
  `I2C_ReadFromSVM` was called. -/
  | notSent (code : Nat) (s : State)
  /-- The request was sent and `I2C_ReadFromSVM` ended with `r`. -/
  | read (r : WireResult)
deriving DecidableEq, Repr

/-- `SVM40::I2C_RequestFromSVM(cnt, chk_zero)`: `ack` is what `endTransmission` gives for
the request, `bus` the bytes the bus holds after `requestFrom`. -/
def I2C_RequestFromSVM (s : State) (cnt : Nat) (chk_zero : Bool) (ack : Nat)
    (bus : List Nat) : BusResult :=
  -- sent Request
  if (I2C_SendToSVM s ack).1 ≠ ERR_OK then .notSent (I2C_SendToSVM s ack).1 (I2C_SendToSVM s ack).2
  -- read from Sensor
  else .read (I2C_ReadFromSVM (I2C_SendToSVM s ack).2 cnt chk_zero bus)

/-- What the outside world holds ready for one transaction of a public operation: for
the stream transport the first value of `millis()` and the turns of the read loop, for
the register bus the result of `endTransmission` and the bytes delivered on a request. -/
structure Exchange where
  startTime : Nat := 0
  polls : List Poll := []
  ack : Nat := 0
  bus : List Nat := []
deriving DecidableEq, Repr

/-- The result of a step of a public operation: a value, the driver object and the
exchanges not yet used. It is `none` where the model gives no result: a store outside an
array, a read loop that is still turning when its polls are used up, or a transaction for
which no exchange is left. -/
abbrev Outcome (α : Type) : Type := Option (α × State × List Exchange)

/-- `SHDLC_ReadFromSerial()` on the next exchange. -/
def readFromSerial (s : State) : List Exchange → Outcome Nat
  | [] => none
  | e :: env =>
    match SHDLC_ReadFromSerial s e.startTime e.polls with
    | .returned ret s1 => some (ret, s1, env)
    | _ => none

/-- `I2C_SendToSVM()` on the next exchange. -/
def sendToSVM (s : State) : List Exchange → Outcome Nat
  | [] => none
  | e :: env => some ((I2C_SendToSVM s e.ack).1, (I2C_SendToSVM s e.ack).2, env)

/-- `I2C_RequestFromSVM(cnt, chk_zero)` on the next exchange. -/
def requestFromSVM (s : State) (cnt : Nat) (chk_zero : Bool) : List Exchange → Outcome Nat
  | [] => none
  | e :: env =>
    match I2C_RequestFromSVM s cnt chk_zero e.ack e.bus with
    | .notSent ret s1 => some (ret, s1, env)
    | .read (.returned ret s1 _ _) => some (ret, s1, env)
    | .read (.overrun _ _) => none

/-- How a section of a function is left: by its end, with the local `ret` holding a
value, or by a `return` statement inside it. -/
inductive Flow
  | next (ret : Nat)
  | exit (code : Nat)
deriving DecidableEq, Repr

/-- The part of `SVM40::Instruct(type)` that fills the outbound buffer and runs the
transaction: `some ret` is the value of the local `ret` behind it, `none` stands for an
earlier `return(false)`. -/
def instructCommand (type : Nat) (s : State) (env : List Exchange) : Outcome (Option Nat) :=
  if s._Sensor_Comms = .I2C_COMMS then
    if type = SVM40_SHDLC_START_MEASURE then
      (I2C_fill_buffer s SVM40_I2C_START_MEASURE 0 []).bind fun s1 =>
        (sendToSVM s1 env).map fun r => (some r.1, r.2)
    else if type = SVM40_SHDLC_STOP_MEASURE then
      (I2C_fill_buffer s SVM40_I2C_STOP_MEASURE 0 []).bind fun s1 =>
        (sendToSVM s1 env).map fun r => (some r.1, r.2)
    else if type = SVM40_SHDLC_RESET then
      (I2C_fill_buffer s SVM40_I2C_RESET 0 []).bind fun s1 =>
        (sendToSVM s1 env).map fun r => (some r.1, r.2)
    else some (none, s, env)
  else
    -- fill buffer to send
    (SHDLC_fill_buffer s
        (if type = SVM40_SHDLC_START_MEASURE then SVM40_SHDLC_START_BASE
         else SVM40_SHDLC_NO_BASE_VALUE) type 0 []).bind fun f =>
      if f.1 ≠ true then some (none, f.2, env)
      else (readFromSerial f.2 env).map fun r => (some r.1, r.2)

/-- `SVM40::Instruct(type)`. -/
def Instruct (type : Nat) (s : State) (env : List Exchange) : Outcome Bool :=
  if type = SVM40_SHDLC_STOP_MEASURE ∧ s._started = false then some (true, s, env)
  else
    (instructCommand type s env).bind fun r =>
      match r with
      | (none, s1, env1) => some (false, s1, env1)
      | (some ret, s1, env1) =>
        if ret = ERR_OK then
          if type = SVM40_SHDLC_START_MEASURE then
            some (true, { s1 with _started := true, waited := s1.waited + 1000 }, env1)
          else if type = SVM40_SHDLC_STOP_MEASURE then
            some (true, { s1 with _started := false }, env1)
          else if type = SVM40_SHDLC_RESET then
            -- some I2C channels need a reset
            some (true,
              { s1 with
                _started := false
                wireBegins :=
                  if s1._Sensor_Comms = .I2C_COMMS then s1.wireBegins + 1 else s1.wireBegins
                waited := s1.waited + 2000 }, env1)
          else some (true, s1, env1)
        else some (false, s1, env1)

/-- `SVM40::reset()`. -/
def reset (s : State) (env : List Exchange) : Outcome Bool := Instruct SVM40_SHDLC_RESET s env

/-- `SVM40::start()`. -/
def start (s : State) (env : List Exchange) : Outcome Bool :=
  Instruct SVM40_SHDLC_START_MEASURE s env

/-- `SVM40::stop()`. -/
def stop (s : State) (env : List Exchange) : Outcome Bool :=
  Instruct SVM40_SHDLC_STOP_MEASURE s env

/-- `SVM40::GetVersion(v)`: the result code; of the fields copied to `*v` the driver keeps
`_FW_major` and `_FW_minor` (copied whatever `ret` is). -/
def GetVersion (s : State) (env : List Exchange) : Outcome Nat :=
  if s._Sensor_Comms = .I2C_COMMS then
    (I2C_fill_buffer s SVM40_I2C_GET_VERSION 0 []).bind fun s1 =>
      (requestFromSVM s1 8 false env).map fun r =>
        (r.1, { r.2.1 with _FW_major := r.2.1._Receive_BUF.getD 0 0
                           _FW_minor := r.2.1._Receive_BUF.getD 1 0 }, r.2.2)
  else
    -- fill buffer to send
    (SHDLC_fill_buffer s SVM40_SHDLC_NO_BASE_VALUE SVM40_SHDLC_GET_VERSION 0 []).bind fun f =>
      if f.1 ≠ true then some (ERR_PARAMETER, f.2, env)
      else
        (readFromSerial f.2 env).map fun r =>
          (r.1, { r.2.1 with _FW_major := r.2.1._Receive_BUF.getD 5 0
                             _FW_minor := r.2.1._Receive_BUF.getD 6 0 }, r.2.2)

/-- `SVM40::probe()`. -/
def probe (s : State) (env : List Exchange) : Outcome Bool :=
  (GetVersion s env).map fun r => (decide (r.1 = ERR_OK), r.2)

/-- The text the three setters share: `bool restart = _started;`,
`if ( _started ) { if ( ! stop() ) return(ERR_CMDSTATE); }`, then the setter's own
`command`, then `if ( restart ) { if ( ! start() ) return(ERR_CMDSTATE); }` and
`return(ret);`. -/
def gated (command : State → List Exchange → Outcome Flow) (s : State)
    (env : List Exchange) : Outcome Nat :=
  let restart := s._started
  --  can only be done in idle mode
  (if s._started then stop s env else some (true, s, env)).bind fun r0 =>
    if r0.1 = false then some (ERR_CMDSTATE, r0.2)
    else
      (command r0.2.1 r0.2.2).bind fun r1 =>
        match r1 with
        | (.exit code, s2, env2) => some (code, s2, env2)
        | (.next ret, s2, env2) =>
          -- measurement restart ?
          if restart then
            (start s2 env2).bind fun r2 =>
              if r2.1 = false then some (ERR_CMDSTATE, r2.2) else some (ret, r2.2)
          else some (ret, s2, env2)

/-- The text `GetValues` and `GetVocTuningParameters` share:
`if ( !_started ) { if ( ! start() ) return(ERR_CMDSTATE); }`, then the function's own
`command`, whose result is returned. -/
def autoStarted (command : State → List Exchange → Outcome Nat) (s : State)
    (env : List Exchange) : Outcome Nat :=
  -- measurement started already?
  (if s._started = false then start s env else some (true, s, env)).bind fun r0 =>
    if r0.1 = false then some (ERR_CMDSTATE, r0.2)
    else command r0.2.1 r0.2.2

/-- The fields of `struct svm_algopar` (each an `int16_t`). -/
structure svm_algopar where
  voc_index_offset : Int
  learning_time_hours : Int
  gating_max_duration_minutes : Int
  std_initial : Int
deriving DecidableEq, Repr

/-- The array `data[8]` of `SetVocTuningParameters`: for each field `x >> 8` and
`x & 0xff`, stored as `uint8_t`. -/
def algoparData (p : svm_algopar) : List Nat :=
  [ (p.voc_index_offset / 256 % 256).toNat, (p.voc_index_offset % 256).toNat,
    (p.learning_time_hours / 256 % 256).toNat, (p.learning_time_hours % 256).toNat,
    (p.gating_max_duration_minutes / 256 % 256).toNat,
    (p.gating_max_duration_minutes % 256).toNat,
    (p.std_initial / 256 % 256).toNat, (p.std_initial % 256).toNat ]

/-- The own command of `SetVocTuningParameters(p)`: the text between the stop and the
restart. -/
def setVocTuningCommand (p : svm_algopar) (s : State) (env : List Exchange) : Outcome Flow :=
  let data := algoparData p
  if s._Sensor_Comms = .I2C_COMMS then
    (I2C_fill_buffer s SVM40_I2C_SET_VOC_TUNING 8 data).bind fun s1 =>
      (sendToSVM s1 env).map fun r => (.next r.1, r.2)
  else
    -- fill buffer to send
    (SHDLC_fill_buffer s SVM40_SHDLC_BASELINE_ALG SVM40_SHDLC_SET_VOC_TUNING 8 data).bind
      fun f =>
        if f.1 ≠ true then some (.exit ERR_PARAMETER, f.2, env)
        else
          (readFromSerial (SHDLC_SendToSerial f.2).2 env).map fun r => (.next r.1, r.2)

/-- `SVM40::SetVocTuningParameters(p)`. -/
def SetVocTuningParameters (p : svm_algopar) (s : State) (env : List Exchange) : Outcome Nat :=
  gated (setVocTuningCommand p) s env

/-- The own command of `SetTemperatureOffset(val)`. For firmware major 1 the four bytes
`float_to_byte(data, (float) val)` gives are taken as the parameter `floatData`. -/
def setTemperatureOffsetCommand (val : Int) (floatData : List Nat) (s : State)
    (env : List Exchange) : Outcome Flow :=
  (if s._FW_major = 0 then probe s env else some (true, s, env)).bind fun r0 =>
    if r0.1 = false then some (.exit ERR_PARAMETER, r0.2)
    else
      let s1 := r0.2.1
      let env1 := r0.2.2
      -- Firmware level 1 is expecting float (4 bytes)
      let data := if s1._FW_major = 1 then floatData else tempOffsetData val
      let len := if s1._FW_major = 1 then 4 else 2
      if s1._Sensor_Comms = .I2C_COMMS then
        (I2C_fill_buffer s1 SVM40_I2C_SET_TEMP_OFFSET len data).bind fun s2 =>
          (sendToSVM s2 env1).map fun r => (.next r.1, r.2)
      else
        -- fill buffer to send
        (SHDLC_fill_buffer s1 SVM40_SHDLC_BASELINE_ALG SVM40_SHDLC_SET_TEMP_OFFSET len
            data).bind fun f =>
          if f.1 ≠ true then some (.exit ERR_PARAMETER, f.2, env1)
          else
            -- check response
            (readFromSerial (SHDLC_SendToSerial f.2).2 env1).map fun r => (.next r.1, r.2)

/-- `SVM40::SetTemperatureOffset(val)`. -/
def SetTemperatureOffset (val : Int) (floatData : List Nat) (s : State)
    (env : List Exchange) : Outcome Nat :=
  gated (setTemperatureOffsetCommand val floatData) s env

/-- The own command of `SetVocState(p)`. On the register bus the source calls
`I2C_fill_buffer(SVM40_I2C_SET_VOC_STATE, p , 8)`, the pointer in the place of `len` and
`8` in the place of `param`: `plen` is the value the pointer `p` has as `uint8_t`, `pmem`
the bytes found at address 8. On the stream transport `p` gives the bytes pointed to. -/
def setVocStateCommand (p : List Nat) (plen : Nat) (pmem : List Nat) (s : State)
    (env : List Exchange) : Outcome Flow :=
  if s._Sensor_Comms = .I2C_COMMS then
    (I2C_fill_buffer s SVM40_I2C_SET_VOC_STATE plen pmem).bind fun s1 =>
      (sendToSVM s1 env).map fun r => (.next r.1, r.2)
  else
    -- fill buffer to send
    (SHDLC_fill_buffer s SVM40_SHDLC_BASELINE_STATE SVM40_SHDLC_GET_VOC_STATE 8 p).bind
      fun f =>
        if f.1 ≠ true then some (.exit ERR_PARAMETER, f.2, env)
        else some (.next (SHDLC_SendToSerial f.2).1, (SHDLC_SendToSerial f.2).2, env)

/-- `SVM40::SetVocState(p)`. -/
def SetVocState (p : List Nat) (plen : Nat) (pmem : List Nat) (s : State)
    (env : List Exchange) : Outcome Nat :=
  gated (setVocStateCommand p plen pmem) s env

/-- `SVM40::StoreNvData()`. -/
def StoreNvData (s : State) (env : List Exchange) : Outcome Nat :=
  if s._Sensor_Comms = .I2C_COMMS then
    (I2C_fill_buffer s SVM40_I2C_STORE_NVRAM 0 []).bind fun s1 => sendToSVM s1 env
  else
    -- fill buffer to send
    (SHDLC_fill_buffer s SVM40_SHDLC_BASELINE_ALG SVM40_SHDLC_STORE_NVRAM 0 []).bind fun f =>
      if f.1 ≠ true then some (ERR_PARAMETER, f.2, env)
      else readFromSerial (SHDLC_SendToSerial f.2).2 env

/-- The own command of `GetVocTuningParameters(p)`, behind the start: the result code
(the values copied to `*p` are no part of the driver object). -/
def getVocTuningCommand (s : State) (env : List Exchange) : Outcome Nat :=
  if s._Sensor_Comms = .I2C_COMMS then
    (I2C_fill_buffer s SVM40_I2C_GET_VOC_TUNING 0 []).bind fun s1 =>
      (requestFromSVM s1 8 false env).map fun r =>
        if r.1 ≠ ERR_OK then (r.1, r.2) else (ERR_OK, r.2)
  else
    -- fill buffer to send
    (SHDLC_fill_buffer s SVM40_SHDLC_BASELINE_ALG SVM40_SHDLC_GET_VOC_TUNING 0 []).bind fun f =>
      if f.1 ≠ true then some (ERR_PARAMETER, f.2, env)
      else
        (readFromSerial f.2 env).map fun r =>
          if r.1 ≠ ERR_OK then (r.1, r.2)
          -- check length
          else if r.2.1._Receive_BUF.getD 4 0 ≠ 0x8 then (ERR_DATALENGTH, r.2)
          else (ERR_OK, r.2)

/-- `SVM40::GetVocTuningParameters(p)` (result code). -/
def GetVocTuningParameters (s : State) (env : List Exchange) : Outcome Nat :=
  autoStarted getVocTuningCommand s env

/-- The own command of `GetValues(v)`, behind the start: the result code (the values
computed into `*v` are no part of the driver object). On the register bus the value of
`ret` is not looked at. -/
def getValuesCommand (s : State) (env : List Exchange) : Outcome Nat :=
  if s._Sensor_Comms = .I2C_COMMS then
    (I2C_fill_buffer s SVM40_I2C_READ_RESULTS_INT_R 0 []).bind fun s1 =>
      (requestFromSVM s1 12 false env).map fun r => (ERR_OK, r.2)
  else
    -- fill buffer to send
    (SHDLC_fill_buffer s SVM40_SHDLC_READ_BASE SVM40_SHDLC_READ_RESULTS_INT_RAW 0 []).bind
      fun f =>
        if f.1 ≠ true then some (ERR_PARAMETER, f.2, env)
        else
          (readFromSerial f.2 env).map fun r =>
            if r.1 ≠ ERR_OK then (r.1, r.2)
            -- check length
            else if r.2.1._Receive_BUF.getD 4 0 ≠ 0xC then (ERR_DATALENGTH, r.2)
            else (ERR_OK, r.2)

/-- `SVM40::GetValues(v)` (result code). -/
def GetValues (s : State) (env : List Exchange) : Outcome Nat :=
  autoStarted getValuesCommand s env

/-- `SVM40::GetTemperatureOffset(val)` (result code). On the register bus the value of
`ret` is not looked at. -/
def GetTemperatureOffset (s : State) (env : List Exchange) : Outcome Nat :=
  (if s._FW_major = 0 then probe s env else some (true, s, env)).bind fun r0 =>
    if r0.1 = false then some (ERR_PARAMETER, r0.2)
    else
      let s1 := r0.2.1
      let env1 := r0.2.2
      -- Firmware level 1 is sending float (4 bytes)
      let len := if s1._FW_major = 1 then 4 else 2
      if s1._Sensor_Comms = .I2C_COMMS then
        (I2C_fill_buffer s1 SVM40_I2C_GET_TEMP_OFFSET 0 []).bind fun s2 =>
          (requestFromSVM s2 len false env1).map fun r => (ERR_OK, r.2)
      else
        -- fill buffer to send
        (SHDLC_fill_buffer s1 SVM40_SHDLC_BASELINE_ALG SVM40_SHDLC_GET_TEMP_OFFSET 0 []).bind
          fun f =>
            if f.1 ≠ true then some (ERR_PARAMETER, f.2, env1)
            else
              (readFromSerial f.2 env1).map fun r =>
                if r.1 ≠ ERR_OK then (r.1, r.2) else (ERR_OK, r.2)

/-- An exchange on the stream transport in which the device answers with the bytes
`bytes`, one per turn, the clock standing at 0. -/
def answer (bytes : List Nat) : Exchange := { polls := pollsOf 0 bytes }

/-- An exchange on the stream transport in which the device stays silent until the
time-out has passed (the clock reads 6000 at the second turn). -/
def silence : Exchange := { polls := [{ now := 0, rx := none }, { now := 6000, rx := none }] }

/-- A driver object with cleared buffers on the stream transport, measuring. -/
def State.measuring : State := { State.init with _started := true }

/-- A driver object with cleared buffers on the register bus. -/
def State.onBus : State := { State.init with _Sensor_Comms := .I2C_COMMS }

/-- The driver object `s1` differs from `s` at most in the inbound buffer `_Receive_BUF`
and its length. -/
def State.receivedFrom (s1 s : State) : Prop :=
  s1 = { s with _Receive_BUF := s1._Receive_BUF, _Receive_BUF_Length := s1._Receive_BUF_Length }

/-- The driver objects `s1` and `s` have the same measurement flag and the same transport. -/
def State.sameSession (s1 s : State) : Prop :=
  s1._started = s._started ∧ s1._Sensor_Comms = s._Sensor_Comms

/-- What a driver object `s1` has written more than `s`: on the register bus one
transmission `wire`, on the stream transport the bytes `frame`. -/
def State.wrote (s1 s : State) (wire frame : List Nat) : Prop :=
  if s._Sensor_Comms = .I2C_COMMS then
    s1.wireOut = s.wireOut ++ [wire] ∧ s1.serialOut = s.serialOut
  else s1.serialOut = s.serialOut ++ frame ∧ s1.wireOut = s.wireOut

/-- The driver object an outcome ends with (the cleared one when there is no outcome). -/
def Outcome.state {α : Type} : Outcome α → State
  | some x => x.2.1
  | none => State.init

/-- The exchanges an outcome leaves unused. -/
def Outcome.rest {α : Type} : Outcome α → List Exchange
  | some x => x.2.2
  | none => []

/-- The device's answer to command `cmd` on the stream transport with state byte 0 and no
data: `7E 00 cmd 00 00 chk 7E`. -/
def okAnswer (cmd : Nat) : Exchange :=
  answer [0x7E, 0x00, cmd, 0x00, 0x00, 255 - cmd, 0x7E]

/-- A register-bus exchange whose transmission is acknowledged and that delivers no
byte. -/
def acked : Exchange := {}

/-- A register-bus exchange whose transmission is not acknowledged. -/
def refused : Exchange := { ack := 1 }

/-- A driver object with cleared buffers on the register bus, measuring. -/
def State.measuringOnBus : State := { State.onBus with _started := true }

/-! ## Settle delays and number conversion -/

abbrev SVM40_SHDLC_SYSTEM_UPTIME : Nat := 0x93
abbrev SVM40_SHDLC_GET_DEVICE_INFO : Nat := 0xD0
abbrev SVM40_SHDLC_DEVICE_PRODUCT_TYPE : Nat := 0x00
abbrev SVM40_SHDLC_DEVICE_PRODUCT_NAME : Nat := 0x01
abbrev SVM40_SHDLC_DEVICE_SERIAL : Nat := 0x03
abbrev SVM40_I2C_GET_ID : Nat := 0xD033
abbrev SVM40_I2C_GET_VOC_STATE : Nat := 0x6181

/-- The public member functions of `class SVM40` that send a command of their own
(`probe` sends that of `GetVersion`). -/
inductive Operation
  | reset
  | start
  | stop
  | GetVersion
  | GetSystemUpTime
  | GetSerialNumber
  | GetProductName
  | GetProductType
  | GetValues
  | GetVocState
  | SetVocState
  | GetTemperatureOffset
  | SetTemperatureOffset
  | GetVocTuningParameters
  | SetVocTuningParameters
  | StoreNvData
deriving DecidableEq, Repr

/-- The arguments `(lead, command)` of the call of `SHDLC_fill_buffer` in the text of each
operation (for `reset`, `start` and `stop` in `Instruct`, for the three device strings in
`Get_Device_info`). -/
def Operation.shdlc : Operation → Nat × Nat
  | .reset => (SVM40_SHDLC_NO_BASE_VALUE, SVM40_SHDLC_RESET)
  | .start => (SVM40_SHDLC_START_BASE, SVM40_SHDLC_START_MEASURE)
  | .stop => (SVM40_SHDLC_NO_BASE_VALUE, SVM40_SHDLC_STOP_MEASURE)
  | .GetVersion => (SVM40_SHDLC_NO_BASE_VALUE, SVM40_SHDLC_GET_VERSION)
  | .GetSystemUpTime => (SVM40_SHDLC_NO_BASE_VALUE, SVM40_SHDLC_SYSTEM_UPTIME)
  | .GetSerialNumber => (SVM40_SHDLC_GET_DEVICE_INFO, SVM40_SHDLC_DEVICE_SERIAL)
  | .GetProductName => (SVM40_SHDLC_GET_DEVICE_INFO, SVM40_SHDLC_DEVICE_PRODUCT_NAME)
  | .GetProductType => (SVM40_SHDLC_GET_DEVICE_INFO, SVM40_SHDLC_DEVICE_PRODUCT_TYPE)
  | .GetValues => (SVM40_SHDLC_READ_BASE, SVM40_SHDLC_READ_RESULTS_INT_RAW)
  | .GetVocState => (SVM40_SHDLC_BASELINE_STATE, SVM40_SHDLC_GET_VOC_STATE)
  | .SetVocState => (SVM40_SHDLC_BASELINE_STATE, SVM40_SHDLC_GET_VOC_STATE)
  | .GetTemperatureOffset => (SVM40_SHDLC_BASELINE_ALG, SVM40_SHDLC_GET_TEMP_OFFSET)
  | .SetTemperatureOffset => (SVM40_SHDLC_BASELINE_ALG, SVM40_SHDLC_SET_TEMP_OFFSET)
  | .GetVocTuningParameters => (SVM40_SHDLC_BASELINE_ALG, SVM40_SHDLC_GET_VOC_TUNING)
  | .SetVocTuningParameters => (SVM40_SHDLC_BASELINE_ALG, SVM40_SHDLC_SET_VOC_TUNING)
  | .StoreNvData => (SVM40_SHDLC_BASELINE_ALG, SVM40_SHDLC_STORE_NVRAM)

/-- The argument `cmd` of the call of `I2C_fill_buffer` in the text of each operation;
`none` for the three that send nothing on the register bus. -/
def Operation.i2c : Operation → Option Nat
  | .reset => some SVM40_I2C_RESET
  | .start => some SVM40_I2C_START_MEASURE
  | .stop => some SVM40_I2C_STOP_MEASURE
  | .GetVersion => some SVM40_I2C_GET_VERSION
  | .GetSystemUpTime => none
  | .GetSerialNumber => some SVM40_I2C_GET_ID
  | .GetProductName => none
  | .GetProductType => none
  | .GetValues => some SVM40_I2C_READ_RESULTS_INT_R
  | .GetVocState => some SVM40_I2C_GET_VOC_STATE
  | .SetVocState => some SVM40_I2C_SET_VOC_STATE
  | .GetTemperatureOffset => some SVM40_I2C_GET_TEMP_OFFSET
  | .SetTemperatureOffset => some SVM40_I2C_SET_TEMP_OFFSET
  | .GetVocTuningParameters => some SVM40_I2C_GET_VOC_TUNING
  | .SetVocTuningParameters => some SVM40_I2C_SET_VOC_TUNING
  | .StoreNvData => some SVM40_I2C_STORE_NVRAM

/-- `SVM40::byte_to_uint16(x)`. -/
def byte_to_uint16 (s : State) (x : Nat) : Nat :=
  (s._Receive_BUF.getD x 0 <<< 8 ||| s._Receive_BUF.getD (x + 1) 0) % 65536

/-- The conversion of an `int` to `int16_t`. -/
def toInt16 (n : Int) : Int := (n + 32768) % 65536 - 32768

/-- The value `*val = byte_to_uint16(offset) / 200;` that `GetTemperatureOffset` stores
for a firmware major other than 1 (`offset` is 0 on the register bus and 5 on the stream
transport). -/
def temperatureOffsetValue (s : State) (offset : Nat) : Int :=
  toInt16 ((byte_to_uint16 s offset / 200 : Nat) : Int)

/-- A driver object whose inbound buffer holds `data` from index `offset` on. -/
def State.received (offset : Nat) (data : List Nat) : State :=
  { State.init with
    _Receive_BUF :=
      List.replicate offset 0 ++ data ++ List.replicate (50 - offset - data.length) 0 }

/-! ## Auxiliary facts -/

theorem serialLoop_eq_feed (startTime : Nat) (polls : List Poll) :
    ∀ (i : Nat) (byte_stuff : Bool) (s : State),
      (∀ p ∈ polls, elapsed startTime p.now ≤ TIME_OUT) →
      serialLoop startTime polls i byte_stuff s
        = feed (polls.filterMap Poll.rx) i byte_stuff s := by
  induction polls with
  | nil => intro i bs s _; rfl
  | cons p ps ih =>
    intro i bs s h
    have hp : ¬ elapsed startTime p.now > TIME_OUT := by
      have := h p (List.mem_cons_self _ _); omega
    have hps : ∀ q ∈ ps, elapsed startTime q.now ≤ TIME_OUT :=
      fun q hq => h q (List.mem_cons_of_mem _ hq)
    cases hrx : p.rx with
    | none =>
      simp only [serialLoop, hp, if_false, hrx, List.filterMap_cons]
      exact ih i bs s hps
    | some b =>
      simp only [serialLoop, hp, if_false, hrx, List.filterMap_cons, feed]
      cases hb : rxByte s i bs b with
      | returned c s1 => rfl
      | overrun j s1 => rfl
      | running i1 bs1 s1 => exact ih i1 bs1 s1 hps

theorem getD_set_self (buf : List Nat) (i v : Nat) (h : i < buf.length) :
    (buf.set i v).getD i 0 = v := by
  simp [List.getD_eq_getElem?_getD, h]

theorem take_set_self (l : List Nat) (i a : Nat) : (l.set i a).take i = l.take i := by
  rw [List.set_take]
  exact List.set_eq_of_length_le (by simp)

theorem rxByte_plain (s : State) (i b : Nat) (hi : 1 ≤ i) (hlen : i < s._Receive_BUF.length)
    (hi50 : i < MAXRECVBUFLENGTH) (hb : b < 256) (h7d : b ≠ 0x7D) (h7e : b ≠ 0x7E) :
    rxByte s i false b
      = .running (i + 1) false { s with _Receive_BUF := s._Receive_BUF.set i b } := by
  have hi0 : i ≠ 0 := by omega
  have hmod : b % 256 = b := Nat.mod_eq_of_lt hb
  simp [rxByte, store, hlen, hi0, hmod, getD_set_self, h7d, h7e, rxNext]
  omega

theorem rxByte_escape (s : State) (i : Nat) (byte_stuff : Bool) (hi : 1 ≤ i)
    (hlen : i < s._Receive_BUF.length) (hi50 : i ≤ MAXRECVBUFLENGTH) :
    rxByte s i byte_stuff 0x7D
      = .running i true { s with _Receive_BUF := s._Receive_BUF.set i 0x7D } := by
  have hi0 : i ≠ 0 := by omega
  have h1 : i - 1 + 1 = i := by omega
  simp [rxByte, store, hlen, hi0, getD_set_self, rxNext, h1]
  omega

theorem rxByte_code (s : State) (i c : Nat) (hi : 1 ≤ i) (hlen : i < s._Receive_BUF.length)
    (hi50 : i < MAXRECVBUFLENGTH) (hc : c < 256) (h7d : c ≠ 0x7D) :
    rxByte s i true c
      = .running (i + 1) false
          { s with _Receive_BUF := s._Receive_BUF.set i (SHDLC_ByteUnStuff c) } := by
  have hi0 : i ≠ 0 := by omega
  have hmod : c % 256 = c := Nat.mod_eq_of_lt hc
  simp [rxByte, store, hlen, hi0, hmod, getD_set_self, h7d, rxNext, List.set_set]
  omega

theorem stuffedBytes_eq (b : Nat) (hb : b < 256) :
    stuffedBytes b = if stuffCode b = 0 then [b] else [0x7D, stuffCode b] := by
  have hmod : b % 256 = b := Nat.mod_eq_of_lt hb
  have hc : stuffCode b % 256 = stuffCode b := by
    unfold stuffCode; split_ifs <;> rfl
  by_cases h : stuffCode b = 0
  · simp [stuffedBytes, SHDLC_ByteStuff, store, h, hmod]
  · simp [stuffedBytes, SHDLC_ByteStuff, store, h, hc]

theorem stuffCode_cases (b : Nat) :
    (b = 0x11 ∧ stuffCode b = 0x31) ∨ (b = 0x13 ∧ stuffCode b = 0x33) ∨
    (b = 0x7d ∧ stuffCode b = 0x5d) ∨ (b = 0x7e ∧ stuffCode b = 0x5e) ∨
    (b ≠ 0x11 ∧ b ≠ 0x13 ∧ b ≠ 0x7d ∧ b ≠ 0x7e ∧ stuffCode b = 0) := by
  unfold stuffCode
  by_cases h1 : b = 0x11
  · simp [h1]
  by_cases h2 : b = 0x13
  · simp [h2]
  by_cases h3 : b = 0x7d
  · simp [h3]
  by_cases h4 : b = 0x7e
  · simp [h4]
  simp [h1, h2, h3, h4]

/-- Feeding the stuffed form of one body byte stores that byte and moves on by one. -/
theorem feed_stuffedBytes (s : State) (i b : Nat) (rest : List Nat) (hi : 1 ≤ i)
    (hlen : i < s._Receive_BUF.length) (hi50 : i < MAXRECVBUFLENGTH) (hb : b < 256) :
    feed (stuffedBytes b ++ rest) i false s
      = feed rest (i + 1) false { s with _Receive_BUF := s._Receive_BUF.set i b } := by
  rcases stuffCode_cases b with h | h | h | h | h
  · obtain ⟨rfl, hc⟩ := h
    have e := rxByte_escape s i false hi hlen (le_of_lt hi50)
    have c := rxByte_code { s with _Receive_BUF := s._Receive_BUF.set i 0x7D } i 0x31 hi
      (by simpa using hlen) hi50 (by decide) (by decide)
    simp only [stuffedBytes_eq _ hb, hc, List.cons_append, List.nil_append, feed] at *
    simp [e, c, SHDLC_ByteUnStuff, List.set_set]
  · obtain ⟨rfl, hc⟩ := h
    have e := rxByte_escape s i false hi hlen (le_of_lt hi50)
    have c := rxByte_code { s with _Receive_BUF := s._Receive_BUF.set i 0x7D } i 0x33 hi
      (by simpa using hlen) hi50 (by decide) (by decide)
    simp only [stuffedBytes_eq _ hb, hc, List.cons_append, List.nil_append, feed] at *
    simp [e, c, SHDLC_ByteUnStuff, List.set_set]
  · obtain ⟨rfl, hc⟩ := h
    have e := rxByte_escape s i false hi hlen (le_of_lt hi50)
    have c := rxByte_code { s with _Receive_BUF := s._Receive_BUF.set i 0x7D } i 0x5d hi
      (by simpa using hlen) hi50 (by decide) (by decide)
    simp only [stuffedBytes_eq _ hb, hc, List.cons_append, List.nil_append, feed] at *
    simp [e, c, SHDLC_ByteUnStuff, List.set_set]
  · obtain ⟨rfl, hc⟩ := h
    have e := rxByte_escape s i false hi hlen (le_of_lt hi50)
    have c := rxByte_code { s with _Receive_BUF := s._Receive_BUF.set i 0x7D } i 0x5e hi
      (by simpa using hlen) hi50 (by decide) (by decide)
    simp only [stuffedBytes_eq _ hb, hc, List.cons_append, List.nil_append, feed] at *
    simp [e, c, SHDLC_ByteUnStuff, List.set_set]
  · obtain ⟨_, _, h7d, h7e, hc⟩ := h
    have p := rxByte_plain s i b hi hlen hi50 hb h7d h7e
    simp [stuffedBytes_eq _ hb, hc, feed, p]

/-- Feeding a stuffed body stores the body from `i` on. -/
theorem feed_stuffAll (B : List Nat) :
    ∀ (s : State) (i : Nat) (rest : List Nat), 1 ≤ i →
      i + B.length ≤ s._Receive_BUF.length → i + B.length ≤ MAXRECVBUFLENGTH →
      (∀ b ∈ B, b < 256) →
      ∃ s1 : State,
        feed (stuffAll B ++ rest) i false s = feed rest (i + B.length) false s1 ∧
        s1._Receive_BUF.length = s._Receive_BUF.length ∧
        s1._Receive_BUF.take (i + B.length) = s._Receive_BUF.take i ++ B ∧
        s1._Receive_BUF_Length = s._Receive_BUF_Length ∧
        s1._Send_BUF_Length = s._Send_BUF_Length := by
  induction B with
  | nil =>
    intro s i rest _ _ _ _
    exact ⟨s, by simp [stuffAll], rfl, by simp, rfl, rfl⟩
  | cons b bs ih =>
    intro s i rest hi hlen h50 hbytes
    simp only [List.length_cons] at hlen h50
    have hb : b < 256 := hbytes b (List.mem_cons_self _ _)
    have hbs : ∀ x ∈ bs, x < 256 := fun x hx => hbytes x (List.mem_cons_of_mem _ hx)
    have step := feed_stuffedBytes s i b (stuffAll bs ++ rest) hi (by omega) (by omega) hb
    obtain ⟨s1, h1, h2, h3, h4, h5⟩ :=
      ih { s with _Receive_BUF := s._Receive_BUF.set i b } (i + 1) rest
        (by omega) (by simp; omega) (by omega) hbs
    refine ⟨s1, ?_, ?_, ?_, ?_, ?_⟩
    · simp only [stuffAll, List.append_assoc, step, h1, List.length_cons]
      congr 1; omega
    · simpa using h2
    · have e : i + (bs.length + 1) = i + 1 + bs.length := by omega
      simp only [List.length_cons, e, h3]
      have hil : i < s._Receive_BUF.length := by omega
      rw [List.take_succ, take_set_self]
      simp [hil]
    · simpa using h4
    · simpa using h5

theorem rxByte_header (s : State) (byte_stuff : Bool) (hlen : 0 < s._Receive_BUF.length) :
    rxByte s 0 byte_stuff SHDLC_IND
      = .running 1 byte_stuff { s with _Receive_BUF := s._Receive_BUF.set 0 SHDLC_IND } := by
  simp [rxByte, store, hlen, getD_set_self, rxNext, SHDLC_IND, MAXRECVBUFLENGTH]

theorem rxByte_close (s : State) (i : Nat) (hi : 1 ≤ i) (hlen : i < s._Receive_BUF.length) :
    rxByte s i false SHDLC_IND
      = .returned (if i < 3 then ERR_PROTOCOL else ERR_OK)
          { s with _Receive_BUF := s._Receive_BUF.set i SHDLC_IND, _Receive_BUF_Length := i } := by
  have hi0 : i ≠ 0 := by omega
  by_cases h3 : i < 3 <;> simp [rxByte, store, hlen, hi0, getD_set_self, h3, SHDLC_IND]

/-- What the read loop does with a whole frame `0x7E, stuffed body, 0x7E`. -/
theorem feed_frame (s : State) (B rest : List Nat)
    (hbuf : s._Receive_BUF.length = MAXRECVBUFLENGTH) (hB48 : B.length ≤ 48)
    (hbytes : ∀ b ∈ B, b < 256) :
    ∃ s1 : State,
      feed (SHDLC_IND :: (stuffAll B ++ SHDLC_IND :: rest)) 0 false s
        = .returned (if B.length + 1 < 3 then ERR_PROTOCOL else ERR_OK) s1 ∧
      s1._Receive_BUF.take (B.length + 1) = SHDLC_IND :: B ∧
      s1._Receive_BUF.getD (B.length + 1) 0 = SHDLC_IND ∧
      s1._Receive_BUF.length = MAXRECVBUFLENGTH ∧
      s1._Receive_BUF_Length = B.length + 1 ∧
      s1._Send_BUF_Length = s._Send_BUF_Length := by
  simp only [MAXRECVBUFLENGTH] at hbuf
  have h0 := rxByte_header s false (by omega)
  obtain ⟨s1, h1, h2, h3, h4⟩ :=
    feed_stuffAll B { s with _Receive_BUF := s._Receive_BUF.set 0 SHDLC_IND } 1
      (SHDLC_IND :: rest) (le_refl 1) (by simp; omega) (by simp only [MAXRECVBUFLENGTH]; omega)
      hbytes
  have hl1 : s1._Receive_BUF.length = 50 := by simpa [hbuf] using h2
  have hc := rxByte_close s1 (1 + B.length) (by omega) (by omega)
  refine ⟨{ s1 with _Receive_BUF := s1._Receive_BUF.set (1 + B.length) SHDLC_IND,
                    _Receive_BUF_Length := 1 + B.length }, ?_, ?_, ?_, ?_, ?_, ?_⟩
  · have e : B.length + 1 = 1 + B.length := by omega
    rw [feed, h0]
    simp only []
    rw [h1, feed, hc, e]
  · have e : B.length + 1 = 1 + B.length := by omega
    simp only [e, take_set_self, h3]
    have : 0 < s._Receive_BUF.length := by omega
    rw [List.take_succ]
    simp [this]
  · have e : B.length + 1 = 1 + B.length := by omega
    simp only [e]
    exact getD_set_self _ _ _ (by omega)
  · simpa using hl1
  · simp; omega
  · simpa using h4.2

theorem SerialToBuffer_eq_feed (s : State) (startTime : Nat) (polls : List Poll)
    (htime : ∀ p ∈ polls, elapsed startTime p.now ≤ TIME_OUT) :
    SHDLC_SerialToBuffer s startTime polls = feed (polls.filterMap Poll.rx) 0 false s :=
  serialLoop_eq_feed startTime polls 0 false s htime

theorem stuffedBytes_xor (b : Nat) (hb : b < 256) :
    stuffedBytes b =
      if b = 0x11 ∨ b = 0x13 ∨ b = 0x7D ∨ b = 0x7E then [0x7D, b ^^^ 0x20] else [b] := by
  rw [stuffedBytes_eq b hb]
  rcases stuffCode_cases b with h | h | h | h | h
  · obtain ⟨rfl, hc⟩ := h; simp [hc]
  · obtain ⟨rfl, hc⟩ := h; simp [hc]
  · obtain ⟨rfl, hc⟩ := h; simp [hc]
  · obtain ⟨rfl, hc⟩ := h; simp [hc]
  · obtain ⟨h1, h2, h3, h4, hc⟩ := h; simp [hc, h1, h2, h3, h4]

theorem serialLoop_append (startTime : Nat) (pre rest : List Poll) :
    ∀ (i : Nat) (byte_stuff : Bool) (s : State),
      serialLoop startTime (pre ++ rest) i byte_stuff s
        = match serialLoop startTime pre i byte_stuff s with
          | .running i1 byte_stuff1 s1 => serialLoop startTime rest i1 byte_stuff1 s1
          | r => r := by
  induction pre with
  | nil => intro i bs s; simp [serialLoop]
  | cons p ps ih =>
    intro i bs s
    by_cases hp : elapsed startTime p.now > TIME_OUT
    · simp [serialLoop, hp]
    · cases hrx : p.rx with
      | none => simp only [List.cons_append, serialLoop, hp, if_false, hrx]; exact ih i bs s
      | some b =>
        simp only [List.cons_append, serialLoop, hp, if_false, hrx]
        cases hb : rxByte s i bs b with
        | returned c s1 => rfl
        | overrun j s1 => rfl
        | running i1 bs1 s1 => exact ih i1 bs1 s1

theorem crc_fold (buf : List Nat) (cnt : Nat) :
    ∀ (first acc : Nat),
      (List.range' first cnt).foldl (fun ret i => (ret + buf.getD i 0) % 4294967296) acc % 256
        = (acc + ((buf.drop first).take cnt).sum) % 256 := by
  induction cnt with
  | zero => intro first acc; simp
  | succ n ih =>
    intro first acc
    rw [List.range'_succ, List.foldl_cons, ih]
    by_cases h : first < buf.length
    · rw [List.drop_eq_getElem_cons h, List.take_succ_cons, List.sum_cons]
      simp only [List.getD_eq_getElem?_getD, List.getElem?_eq_getElem h, Option.getD_some]
      omega
    · have h1 : buf.drop first = [] := List.drop_eq_nil_of_le (by omega)
      have h2 : buf.drop (first + 1) = [] := List.drop_eq_nil_of_le (by omega)
      have h3 : buf.getD first 0 = 0 := by
        simp [List.getD_eq_getElem?_getD, List.getElem?_eq_none (by omega : buf.length ≤ first)]
      simp only [h1, h2, h3, List.take_nil, List.sum_nil]
      omega

/-- `SHDLC_calc_CRC` is the complement of the low byte of the sum of `buf[first..last]`. -/
theorem SHDLC_calc_CRC_eq (buf : List Nat) (first last : Nat) :
    SHDLC_calc_CRC buf first last
      = 255 - ((buf.drop first).take (last + 1 - first)).sum % 256 := by
  unfold SHDLC_calc_CRC
  simp only []
  rw [crc_fold]
  simp

theorem xor_pow_ne (g k : Nat) : g ^^^ 2 ^ k ≠ g := by
  intro h
  have h2 : g ^^^ (g ^^^ 2 ^ k) = g ^^^ g := by rw [h]
  rw [← Nat.xor_assoc, Nat.xor_self, Nat.zero_xor] at h2
  have : 0 < 2 ^ k := Nat.two_pow_pos k
  omega

theorem rxNext_code (s : State) (i : Nat) (byte_stuff : Bool) (c : Nat) (s1 : State)
    (h : rxNext s i byte_stuff = .returned c s1) : c = ERR_PROTOCOL := by
  unfold rxNext at h
  split_ifs at h
  cases h
  rfl

/-- A byte makes the loop return `ERR_OK` only as closing delimiter, or `ERR_PROTOCOL`. -/
theorem rxByte_returned (s : State) (i : Nat) (byte_stuff : Bool) (b c : Nat) (s1 : State)
    (h : rxByte s i byte_stuff b = .returned c s1) :
    c = ERR_PROTOCOL ∨
    (c = ERR_OK ∧ 3 ≤ s1._Receive_BUF_Length ∧
      s1._Receive_BUF.getD s1._Receive_BUF_Length 0 = SHDLC_IND) := by
  unfold rxByte at h
  split at h
  · cases h
  · rename_i buf hst
    simp only [] at h
    split_ifs at h
    all_goals first
      | (cases h; exact Or.inl rfl)
      | exact Or.inl (rxNext_code _ _ _ _ _ h)
      | (cases h
         refine Or.inr ⟨rfl, ?_, ?_⟩
         · simp_all
         · simp_all)

theorem serialLoop_returned (startTime : Nat) (polls : List Poll) :
    ∀ (i : Nat) (byte_stuff : Bool) (s : State) (c : Nat) (s1 : State),
      serialLoop startTime polls i byte_stuff s = .returned c s1 →
      c = ERR_TIMEOUT ∨ c = ERR_PROTOCOL ∨
      (c = ERR_OK ∧ 3 ≤ s1._Receive_BUF_Length ∧
        s1._Receive_BUF.getD s1._Receive_BUF_Length 0 = SHDLC_IND) := by
  induction polls with
  | nil => intro i bs s c s1 h; simp [serialLoop] at h
  | cons p ps ih =>
    intro i bs s c s1 h
    by_cases hp : elapsed startTime p.now > TIME_OUT
    · simp only [serialLoop, hp, if_true] at h
      cases h; exact Or.inl rfl
    · cases hrx : p.rx with
      | none =>
        simp only [serialLoop, hp, if_false, hrx] at h
        exact ih i bs s c s1 h
      | some b =>
        simp only [serialLoop, hp, if_false, hrx] at h
        cases hb : rxByte s i bs b with
        | returned c2 s2 =>
          rw [hb] at h
          cases h
          exact Or.inr (rxByte_returned s i bs b c s1 hb)
        | overrun j s2 => rw [hb] at h; cases h
        | running i1 bs1 s2 =>
          rw [hb] at h
          exact ih i1 bs1 s2 c s1 h

theorem SendToSerial_recv (s : State) :
    (SHDLC_SendToSerial s).2._Receive_BUF = s._Receive_BUF := by
  unfold SHDLC_SendToSerial
  split_ifs <;> rfl

theorem serialLoop_idle (startTime : Nat) (idle : List Poll) (rest : List Poll) :
    ∀ (i : Nat) (byte_stuff : Bool) (s : State),
      (∀ q ∈ idle, q.rx = none ∧ elapsed startTime q.now ≤ TIME_OUT) →
      serialLoop startTime (idle ++ rest) i byte_stuff s
        = serialLoop startTime rest i byte_stuff s := by
  induction idle with
  | nil => intro i bs s _; rfl
  | cons q qs ih =>
    intro i bs s h
    have hq := h q (List.mem_cons_self _ _)
    have hnot : ¬ elapsed startTime q.now > TIME_OUT := by omega
    simp only [List.cons_append, serialLoop, hnot, if_false, hq.1]
    exact ih i bs s (fun r hr => h r (List.mem_cons_of_mem _ hr))

theorem rxByte_bad_header (s : State) (byte_stuff : Bool) (b : Nat)
    (hlen : 0 < s._Receive_BUF.length) (hb : b < 256) (hne : b ≠ SHDLC_IND) :
    rxByte s 0 byte_stuff b
      = .returned ERR_PROTOCOL { s with _Receive_BUF := s._Receive_BUF.set 0 b } := by
  have hmod : b % 256 = b := Nat.mod_eq_of_lt hb
  simp [rxByte, store, hlen, hmod, getD_set_self, hne]

theorem serialLoop_timeout (startTime : Nat) (pre : List Poll) (p : Poll) (rest : List Poll)
    (i : Nat) (byte_stuff : Bool) (s : State) (hp : elapsed startTime p.now > TIME_OUT) :
    serialLoop startTime (pre ++ p :: rest) i byte_stuff s
      = match serialLoop startTime pre i byte_stuff s with
        | .running _ _ s1 => .returned ERR_TIMEOUT s1
        | r => r := by
  rw [serialLoop_append]
  cases serialLoop startTime pre i byte_stuff s with
  | returned c s1 => rfl
  | overrun j s1 => rfl
  | running i1 bs1 s1 => simp [serialLoop, hp]

theorem rxByte_overrun (s : State) (i : Nat) (byte_stuff : Bool) (b j : Nat) (s1 : State)
    (h : rxByte s i byte_stuff b = .overrun j s1) :
    s1 = s ∧ j = i ∧ s._Receive_BUF.length ≤ i := by
  unfold rxByte at h
  split at h
  · rename_i hst
    cases h
    refine ⟨rfl, rfl, ?_⟩
    unfold store at hst
    split_ifs at hst with hlt
    omega
  · simp only [rxNext] at h
    split_ifs at h

theorem stuffCode_lt (b : Nat) : stuffCode b < 256 := by
  unfold stuffCode; split_ifs <;> decide

theorem copyPar_eq (par : List Nat) (len : Nat) :
    ∀ (fuel : Nat) (buf : List Nat) (tmp i : Nat),
      tmp + fuel = len → i + fuel ≤ buf.length →
      copyPar par len fuel buf tmp i
        = some (buf.take i ++ (List.range' tmp fuel).map (fun k => par.getD k 0 % 256)
                  ++ buf.drop (i + fuel), i + fuel) := by
  intro fuel
  induction fuel with
  | zero => intro buf tmp i _ _; simp [copyPar]
  | succ n ih =>
    intro buf tmp i htmp hlen
    have h1 : tmp < len := by omega
    have h2 : i < buf.length := by omega
    simp only [copyPar, h1, if_true, store, h2, Option.bind_eq_bind, Option.some_bind]
    rw [ih (buf.set i (par.getD tmp 0 % 256)) (tmp + 1) (i + 1) (by omega) (by simp; omega)]
    have e1 : (buf.set i (par.getD tmp 0 % 256)).take (i + 1)
        = buf.take i ++ [par.getD tmp 0 % 256] := by
      rw [List.take_succ, take_set_self]; simp [h2]
    have e2 : (buf.set i (par.getD tmp 0 % 256)).drop (i + 1 + n) = buf.drop (i + 1 + n) := by
      rw [List.drop_set, if_pos (by omega)]
    have e3 : i + (n + 1) = i + 1 + n := by omega
    rw [e1, e2, e3, List.range'_succ]
    simp

/-- A store right behind `body`, in a buffer holding `body` followed by zeros. -/
theorem store_at_end (body : List Nat) (m v : Nat) (hm : 0 < m) (hv : v < 256) :
    store (body ++ List.replicate m 0) body.length v
      = some (body ++ [v] ++ List.replicate (m - 1) 0) := by
  obtain ⟨k, rfl⟩ : ∃ k, m = k + 1 := ⟨m - 1, by omega⟩
  have hmod : v % 256 = v := Nat.mod_eq_of_lt hv
  simp [store, hmod, List.replicate_succ]

theorem sum_body_zeros (body : List Nat) (m : Nat) (hb : 1 ≤ body.length) :
    (((body ++ List.replicate m 0).drop 1).take body.length).sum = (body.drop 1).sum := by
  rw [List.drop_append_of_le_length hb, List.take_append_eq_append_take]
  rw [List.take_of_length_le (by simp)]
  simp [List.take_replicate]

/-- What `fillCheck` makes of a buffer holding the unstuffed frame start `body`. -/
theorem fillCheck_eq (body : List Nat) (h1 : 1 ≤ body.length) (h17 : body.length ≤ 17) :
    fillCheck (body ++ List.replicate (20 - body.length) 0) body.length
      = some (body ++ stuffedBytes (255 - (body.drop 1).sum % 256) ++ [SHDLC_IND]
                ++ List.replicate
                    (20 - body.length
                      - (stuffedBytes (255 - (body.drop 1).sum % 256)).length - 1) 0,
              body.length + (stuffedBytes (255 - (body.drop 1).sum % 256)).length + 1) := by
  have hcrc : SHDLC_calc_CRC (body ++ List.replicate (20 - body.length) 0) 1 body.length
      = 255 - (body.drop 1).sum % 256 := by
    rw [SHDLC_calc_CRC_eq]
    have : body.length + 1 - 1 = body.length := by omega
    rw [this, sum_body_zeros body _ h1]
  have hlt : 255 - (body.drop 1).sum % 256 < 256 := by omega
  generalize hc : 255 - (body.drop 1).sum % 256 = crc at hcrc hlt ⊢
  unfold fillCheck
  simp only [hcrc, SHDLC_ByteStuff]
  rw [stuffedBytes_eq crc hlt]
  by_cases h : stuffCode crc = 0
  · simp only [h, if_true]
    rw [store_at_end body _ crc (by omega) hlt]
    have e := store_at_end (body ++ [crc]) (20 - body.length - 1) SHDLC_IND (by omega)
      (by decide)
    simp only [List.length_append, List.length_singleton] at e
    simp only [Option.bind_eq_bind, Option.some_bind, e, Option.pure_def]
    simp
  · simp only [h, if_false]
    rw [store_at_end body _ 0x7D (by omega) (by decide)]
    have e := store_at_end (body ++ [0x7D]) (20 - body.length - 1) (stuffCode crc) (by omega)
      (stuffCode_lt crc)
    simp only [List.length_append, List.length_singleton] at e
    have e2 := store_at_end (body ++ [0x7D] ++ [stuffCode crc]) (20 - body.length - 1 - 1)
      SHDLC_IND (by omega) (by decide)
    simp only [List.length_append, List.length_singleton] at e2
    simp only [Option.bind_eq_bind, Option.some_bind, e, e2, Option.pure_def]
    simp
    omega

theorem copyPar_header (lead command len : Nat) (par : List Nat) (hlen : len ≤ 15) :
    copyPar par len len (0x7E :: 0x00 :: lead :: 0x01 :: command :: List.replicate 15 0) 0 5
      = some (0x7E :: 0x00 :: lead :: 0x01 :: command ::
                ((List.range' 0 len).map (fun k => par.getD k 0 % 256)
                  ++ List.replicate (15 - len) 0), 5 + len) := by
  have h := copyPar_eq par len len
    ([0x7E, 0x00, lead, 0x01, command] ++ List.replicate 15 0) 0 5 (by omega)
    (by simp only [List.length_append, List.length_replicate, List.length_cons,
          List.length_nil]; omega)
  rw [List.take_left' (by rfl)] at h
  have hd : List.drop (5 + len) ([0x7E, 0x00, lead, 0x01, command] ++ List.replicate 15 0)
      = List.replicate (15 - len) 0 := by
    have := @List.drop_append Nat [0x7E, 0x00, lead, 0x01, command]
      (List.replicate 15 0) len
    rw [List.drop_replicate] at this
    exact this
  rw [hd] at h
  exact h

theorem fillCommand_eq (lead command len : Nat) (par : List Nat)
    (hlead : lead < 256) (hcmd : command < 256) (hlen : len ≤ 15) :
    fillCommand lead command len par
      = some (frameStart lead command len par
                ++ List.replicate (20 - (frameStart lead command len par).length) 0,
              (frameStart lead command len par).length) := by
  have hl : lead % 256 = lead := Nat.mod_eq_of_lt hlead
  have hc : command % 256 = command := Nat.mod_eq_of_lt hcmd
  by_cases h1 : lead = SVM40_SHDLC_NO_BASE_VALUE
  · simp [fillCommand, frameStart, h1, store, hc, List.replicate, SHDLC_IND]
  · by_cases h2 : carriesPayload lead command = true
    · have hcopy := copyPar_header lead command len par hlen
      have h5 : (len + 1) % 256 = len + 1 := Nat.mod_eq_of_lt (by omega)
      have h6 : 20 - (5 + len) = 15 - len := by omega
      have h7 : len + 1 + 1 + 1 + 1 + 1 = 5 + len := by omega
      simp only [carriesPayload, decide_eq_true_eq] at h2
      rcases h2 with ⟨rfl, rfl⟩ | ⟨rfl, rfl⟩
      · simp [SVM40_SHDLC_BASELINE_STATE, SVM40_SHDLC_SET_VOC_STATE] at hcopy
        simp [fillCommand, frameStart, carriesPayload, store, hcopy, h5, h6, h7,
          SHDLC_IND, SENDBUFLENGTH, SVM40_SHDLC_BASELINE_STATE, SVM40_SHDLC_SET_VOC_STATE]
      · simp [SVM40_SHDLC_BASELINE_ALG, SVM40_SHDLC_SET_TEMP_OFFSET] at hcopy
        simp [fillCommand, frameStart, carriesPayload, store, hcopy, h5, h6, h7,
          SHDLC_IND, SENDBUFLENGTH, SVM40_SHDLC_BASELINE_ALG, SVM40_SHDLC_SET_TEMP_OFFSET]
    · have h3 : ¬ (lead = SVM40_SHDLC_BASELINE_STATE ∧ command = SVM40_SHDLC_SET_VOC_STATE) := by
        intro h; exact h2 (by simp [carriesPayload, h])
      have h4 : ¬ (lead = SVM40_SHDLC_BASELINE_ALG ∧ command = SVM40_SHDLC_SET_TEMP_OFFSET) := by
        intro h; exact h2 (by simp [carriesPayload, h])
      simp [fillCommand, frameStart, h1, h2, h3, h4, store, hl, hc, List.replicate, SHDLC_IND]

theorem frameStart_length (lead command len : Nat) (par : List Nat) :
    (frameStart lead command len par).length
      = if lead = SVM40_SHDLC_NO_BASE_VALUE then 4
        else if carriesPayload lead command then 5 + len else 5 := by
  unfold frameStart
  split_ifs <;> simp
  omega

/-- The frame `SHDLC_fill_buffer` builds: the unstuffed start, the stuffed checksum over
the bytes after the header, the closing delimiter, and zeros up to the end of `_Send_BUF`. -/
theorem SHDLC_fill_buffer_eq (s : State) (lead command len : Nat) (par : List Nat)
    (hlead : lead < 256) (hcmd : command < 256) (hlen : len ≤ 12) :
    SHDLC_fill_buffer s lead command len par
      = some (true,
          { s with
            _Send_BUF :=
              frameStart lead command len par
                ++ stuffedBytes (255 - ((frameStart lead command len par).drop 1).sum % 256)
                ++ [SHDLC_IND]
                ++ List.replicate
                    (20 - (frameStart lead command len par).length
                      - (stuffedBytes
                          (255 - ((frameStart lead command len par).drop 1).sum % 256)).length
                      - 1) 0
            _Send_BUF_Length :=
              (frameStart lead command len par).length
                + (stuffedBytes
                    (255 - ((frameStart lead command len par).drop 1).sum % 256)).length + 1
            _RespDelay :=
              if command = SVM40_SHDLC_STORE_NVRAM then 750
              else if command = SVM40_SHDLC_RESET then 200
              else RX_DELAY_MS }) := by
  have hL := frameStart_length lead command len par
  have h1 : 1 ≤ (frameStart lead command len par).length := by
    rw [hL]; split_ifs <;> omega
  have h17 : (frameStart lead command len par).length ≤ 17 := by
    rw [hL]; split_ifs <;> omega
  unfold SHDLC_fill_buffer
  rw [fillCommand_eq lead command len par hlead hcmd (by omega)]
  simp only [Option.bind_eq_bind, Option.some_bind]
  rw [fillCheck_eq _ h1 h17]
  rfl

theorem take_frame (frame : List Nat) (m : Nat) :
    (frame ++ List.replicate m 0).take frame.length = frame := by
  simp

theorem getD_append_add (body rest : List Nat) (k : Nat) :
    (body ++ rest).getD (body.length + k) 0 = rest.getD k 0 := by
  simp only [List.getD_eq_getElem?_getD]
  rw [List.getElem?_append_right (Nat.le_add_right _ _), Nat.add_sub_cancel_left]

theorem frame_parts (body st : List Nat) (m : Nat) (h1 : 1 ≤ body.length) :
    (((body ++ st ++ [SHDLC_IND] ++ List.replicate m 0).drop 1).take (body.length - 1)
      = body.drop 1) ∧
    ((body ++ st ++ [SHDLC_IND] ++ List.replicate m 0).drop body.length).take
        (body.length + st.length + 1 - 1 - body.length) = st ∧
    (body ++ st ++ [SHDLC_IND] ++ List.replicate m 0).getD (body.length + st.length + 1 - 1) 0
      = SHDLC_IND ∧
    (body ++ st ++ [SHDLC_IND] ++ List.replicate m 0).getD body.length 0
      = (st ++ [SHDLC_IND]).getD 0 0 ∧
    (body ++ st ++ [SHDLC_IND] ++ List.replicate m 0).getD (body.length + 1) 0
      = (st ++ [SHDLC_IND] ++ List.replicate m 0).getD 1 0 := by
  refine ⟨?_, ?_, ?_, ?_, ?_⟩
  · rw [List.append_assoc, List.append_assoc, List.drop_append_of_le_length h1]
    exact List.take_left' (by simp)
  · rw [List.append_assoc, List.append_assoc, List.drop_left]
    have : body.length + st.length + 1 - 1 - body.length = st.length := by omega
    rw [this]
    exact List.take_left _ _
  · have e : body.length + st.length + 1 - 1 = (body ++ st).length + 0 := by simp
    rw [e, List.append_assoc (body ++ st), getD_append_add]
    rfl
  · have e := getD_append_add body (st ++ [SHDLC_IND] ++ List.replicate m 0) 0
    simp only [Nat.add_zero, ← List.append_assoc] at e
    rw [e]
    cases st <;> rfl
  · have e := getD_append_add body (st ++ [SHDLC_IND] ++ List.replicate m 0) 1
    simp only [← List.append_assoc] at e
    exact e

theorem crcBits_lt (n : Nat) : ∀ crc : Nat, crc < 256 → crcBits n crc < 256 := by
  induction n with
  | zero => intro crc h; exact h
  | succ k ih =>
    intro crc _
    unfold crcBits
    apply ih
    split_ifs <;> exact Nat.mod_lt _ (by decide)

theorem I2C_calc_CRC_lt (d0 d1 : Nat) : I2C_calc_CRC d0 d1 < 256 := by
  unfold I2C_calc_CRC
  simp only []
  rw [show (8 : Nat) = 7 + 1 from rfl]
  generalize crcBits (7 + 1) (255 ^^^ d0) ^^^ d1 = x
  unfold crcBits
  apply crcBits_lt
  split_ifs <;> exact Nat.mod_lt _ (by decide)

theorem take_succ_set (l : List Nat) (i a : Nat) (h : i < l.length) :
    (l.set i a).take (i + 1) = l.take i ++ [a] := by
  rw [List.take_succ, take_set_self]
  simp [h]

/-- Two stores at `n` and `n + 1`, seen through `take` and `drop`. -/
theorem set_pair (l : List Nat) (n a b : Nat) (h : n + 1 < l.length) :
    ((l.set n a).set (n + 1) b).length = l.length ∧
    ((l.set n a).set (n + 1) b).take (n + 2) = l.take n ++ [a, b] ∧
    ∀ m, n + 2 ≤ m → ((l.set n a).set (n + 1) b).drop m = l.drop m := by
  refine ⟨by simp, ?_, ?_⟩
  · rw [take_succ_set _ _ _ (by simp; omega), take_succ_set _ _ _ (by omega)]
    simp
  · intro m hm
    rw [List.drop_set, if_pos (by omega), List.drop_set, if_pos (by omega)]

/-- One valid three-byte group read by the loop of `I2C_ReadFromSVM`. -/
theorem readLoop_group (count requested : Nat) (chk_zero : Bool) (d0 d1 : Nat)
    (queue : List Nat) (s : State) (h0 : d0 < 256) (h1 : d1 < 256)
    (hfit : s._Receive_BUF_Length + 1 < s._Receive_BUF.length) :
    readLoop count requested chk_zero (d0 :: d1 :: I2C_calc_CRC d0 d1 :: queue) [] s
      = if chk_zero = true ∧ d0 = 0 ∧ d1 = 0 then
          .returned ERR_OK
            { s with
              _Receive_BUF := (s._Receive_BUF.set s._Receive_BUF_Length d0).set
                (s._Receive_BUF_Length + 1) d1
              _Receive_BUF_Length := s._Receive_BUF_Length + 2 } requested []
        else if s._Receive_BUF_Length + 2 ≥ count then
          readFinish count requested []
            { s with
              _Receive_BUF := (s._Receive_BUF.set s._Receive_BUF_Length d0).set
                (s._Receive_BUF_Length + 1) d1
              _Receive_BUF_Length := s._Receive_BUF_Length + 2 } queue
        else
          readLoop count requested chk_zero queue []
            { s with
              _Receive_BUF := (s._Receive_BUF.set s._Receive_BUF_Length d0).set
                (s._Receive_BUF_Length + 1) d1
              _Receive_BUF_Length := s._Receive_BUF_Length + 2 } := by
  have m0 : d0 % 256 = d0 := Nat.mod_eq_of_lt h0
  have m1 : d1 % 256 = d1 := Nat.mod_eq_of_lt h1
  have m2 : I2C_calc_CRC d0 d1 % 256 = I2C_calc_CRC d0 d1 :=
    Nat.mod_eq_of_lt (I2C_calc_CRC_lt d0 d1)
  have hf0 : s._Receive_BUF_Length < s._Receive_BUF.length := by omega
  simp [readLoop, store, m0, m1, m2, hfit, hf0]

/-- A three-byte group with a wrong CRC byte makes the loop return `ERR_PROTOCOL`. -/
theorem readLoop_bad_group (count requested : Nat) (chk_zero : Bool) (d0 d1 c : Nat)
    (queue : List Nat) (s : State) (h0 : d0 < 256) (h1 : d1 < 256) (h2 : c < 256)
    (hbad : c ≠ I2C_calc_CRC d0 d1) :
    readLoop count requested chk_zero (d0 :: d1 :: c :: queue) [] s
      = .returned ERR_PROTOCOL s requested queue := by
  have m0 : d0 % 256 = d0 := Nat.mod_eq_of_lt h0
  have m1 : d1 % 256 = d1 := Nat.mod_eq_of_lt h1
  have m2 : c % 256 = c := Nat.mod_eq_of_lt h2
  simp [readLoop, m0, m1, m2, hbad]

theorem pairBytes_length (gs : List (Nat × Nat)) : (pairBytes gs).length = 2 * gs.length := by
  induction gs with
  | nil => rfl
  | cons g gs ih => obtain ⟨a, b⟩ := g; simp [pairBytes, ih]; omega

/-- Valid groups that neither fill the requested count nor end a zero-terminated read
are all accepted: the loop goes on behind them with their data pairs appended. -/
theorem readLoop_groups (count requested : Nat) (chk_zero : Bool) (gs : List (Nat × Nat)) :
    ∀ (s : State) (queue : List Nat),
      (∀ g ∈ gs, g.1 < 256 ∧ g.2 < 256) →
      s._Receive_BUF_Length + 2 * gs.length ≤ s._Receive_BUF.length →
      s._Receive_BUF_Length + 2 * gs.length < count →
      (chk_zero = true → ∀ g ∈ gs, ¬ (g.1 = 0 ∧ g.2 = 0)) →
      ∃ s1 : State,
        readLoop count requested chk_zero (wireGroups gs ++ queue) [] s
          = readLoop count requested chk_zero queue [] s1 ∧
        s1._Receive_BUF.length = s._Receive_BUF.length ∧
        s1._Receive_BUF_Length = s._Receive_BUF_Length + 2 * gs.length ∧
        s1._Receive_BUF.take s1._Receive_BUF_Length
          = s._Receive_BUF.take s._Receive_BUF_Length ++ pairBytes gs ∧
        s1._Receive_BUF.drop s1._Receive_BUF_Length
          = s._Receive_BUF.drop s1._Receive_BUF_Length := by
  induction gs with
  | nil =>
    intro s queue _ _ _ _
    exact ⟨s, by simp [wireGroups], rfl, by simp, by simp [pairBytes], by simp⟩
  | cons g gs ih =>
    intro s queue hbytes hfit hcount hzero
    obtain ⟨d0, d1⟩ := g
    simp only [List.length_cons] at hfit hcount
    have hg := hbytes (d0, d1) (List.mem_cons_self _ _)
    have hnz : ¬ (chk_zero = true ∧ d0 = 0 ∧ d1 = 0) := by
      intro h
      exact hzero h.1 (d0, d1) (List.mem_cons_self _ _) h.2
    have hnc : ¬ (s._Receive_BUF_Length + 2 ≥ count) := by omega
    have step := readLoop_group count requested chk_zero d0 d1 (wireGroups gs ++ queue) s
      hg.1 hg.2 (by omega)
    rw [if_neg hnz, if_neg hnc] at step
    obtain ⟨p1, p2, p3⟩ := set_pair s._Receive_BUF s._Receive_BUF_Length d0 d1 (by omega)
    obtain ⟨s1, e1, e2, e3, e4, e5⟩ :=
      ih { s with
            _Receive_BUF := (s._Receive_BUF.set s._Receive_BUF_Length d0).set
              (s._Receive_BUF_Length + 1) d1
            _Receive_BUF_Length := s._Receive_BUF_Length + 2 } queue
        (fun g hg => hbytes g (List.mem_cons_of_mem _ hg))
        (by simp only [p1]; omega) (by simp only []; omega)
        (fun h g hg => hzero h g (List.mem_cons_of_mem _ hg))
    simp only [] at e2 e3 e4 e5
    refine ⟨s1, ?_, ?_, ?_, ?_, ?_⟩
    · simp only [wireGroups, List.cons_append, step, e1]
    · rw [e2, p1]
    · rw [e3]; simp only [List.length_cons]; omega
    · rw [e4, p2]; simp [pairBytes]
    · rw [e5, p3 _ (by omega)]

theorem wireGroups_append (gs hs : List (Nat × Nat)) :
    wireGroups (gs ++ hs) = wireGroups gs ++ wireGroups hs := by
  induction gs with
  | nil => rfl
  | cons g gs ih => obtain ⟨a, b⟩ := g; simp [wireGroups, ih]

theorem pairBytes_append (gs hs : List (Nat × Nat)) :
    pairBytes (gs ++ hs) = pairBytes gs ++ pairBytes hs := by
  induction gs with
  | nil => rfl
  | cons g gs ih => obtain ⟨a, b⟩ := g; simp [pairBytes, ih]

theorem readFinish_nil (count requested : Nat) (s : State) (queue : List Nat) :
    readFinish count requested [] s queue
      = if s._Receive_BUF_Length = 0 then .returned ERR_PROTOCOL s requested queue
        else if s._Receive_BUF_Length = count then .returned ERR_OK s requested queue
        else .returned ERR_DATALENGTH s requested queue := by
  simp [readFinish, copyLeft]

theorem getD_set_other (l : List Nat) (i j a : Nat) (h : i ≠ j) :
    (l.set i a).getD j 0 = l.getD j 0 := by
  simp [List.getD_eq_getElem?_getD, List.getElem?_set_ne h]

/-- The copy loop of `I2C_fill_buffer` on whole pairs: behind the bytes `pre` already
copied, each pair is stored followed by its CRC. -/
theorem i2cCopy_pairs (param : List Nat) (len : Nat) (gs : List (Nat × Nat)) :
    ∀ (pre buf : List Nat) (i : Nat),
      param = pre ++ pairBytes gs → len = pre.length + 2 * gs.length →
      i + 3 * gs.length ≤ buf.length → (∀ g ∈ gs, g.1 < 256 ∧ g.2 < 256) →
      ∃ buf1 : List Nat,
        i2cCopy param len (2 * gs.length) buf pre.length 0 i
          = some (buf1, i + 3 * gs.length) ∧
        buf1.length = buf.length ∧
        buf1.take (i + 3 * gs.length) = buf.take i ++ wireGroups gs := by
  induction gs with
  | nil =>
    intro pre buf i _ _ _ _
    exact ⟨buf, by simp [i2cCopy], rfl, by simp [wireGroups]⟩
  | cons g gs ih =>
    intro pre buf i hparam hlen hfit hbytes
    obtain ⟨d0, d1⟩ := g
    simp only [List.length_cons] at hlen hfit
    have hg := hbytes (d0, d1) (List.mem_cons_self _ _)
    have m0 : d0 % 256 = d0 := Nat.mod_eq_of_lt hg.1
    have m1 : d1 % 256 = d1 := Nat.mod_eq_of_lt hg.2
    have mc : I2C_calc_CRC d0 d1 % 256 = I2C_calc_CRC d0 d1 :=
      Nat.mod_eq_of_lt (I2C_calc_CRC_lt d0 d1)
    have hp0 : param.getD pre.length 0 = d0 := by
      have := getD_append_add pre (pairBytes ((d0, d1) :: gs)) 0
      rw [← hparam] at this
      simpa [pairBytes] using this
    have hp1 : param.getD (pre.length + 1) 0 = d1 := by
      have := getD_append_add pre (pairBytes ((d0, d1) :: gs)) 1
      rw [← hparam] at this
      simpa [pairBytes] using this
    have hfuel : 2 * (gs.length + 1) = (2 * gs.length + 1) + 1 := by omega
    have hj0 : pre.length < len := by omega
    have hj1 : pre.length + 1 < len := by omega
    have hi0 : i < buf.length := by omega
    have hi1 : i + 1 < buf.length := by omega
    have hi2 : i + 2 < buf.length := by omega
    have hc0 : ((buf.set i d0).set (i + 1) d1).getD i 0 = d0 := by
      rw [getD_set_other _ _ _ _ (by omega), getD_set_self _ _ _ hi0]
    have hc1 : ((buf.set i d0).set (i + 1) d1).getD (i + 1) 0 = d1 :=
      getD_set_self _ _ _ (by simp; omega)
    obtain ⟨p1, p2, _⟩ := set_pair buf i d0 d1 hi1
    obtain ⟨buf1, e1, e2, e3⟩ :=
      ih (pre ++ [d0, d1])
        (((buf.set i d0).set (i + 1) d1).set (i + 2) (I2C_calc_CRC d0 d1)) (i + 3)
        (by rw [hparam]; simp [pairBytes])
        (by simp only [List.length_append, List.length_cons, List.length_nil]; omega)
        (by simp only [List.length_set]; omega)
        (fun g hg => hbytes g (List.mem_cons_of_mem _ hg))
    have hpre : (pre ++ [d0, d1]).length = pre.length + 1 + 1 := by simp
    rw [hpre] at e1
    simp only [List.length_cons]
    refine ⟨buf1, ?_, ?_, ?_⟩
    · rw [hfuel]
      simp only [i2cCopy, hj0, hj1, if_true, store, hi0, hi1, hi2, List.length_set, hp0, hp1,
        m0, m1, Option.bind_eq_bind, Option.some_bind, Nat.add_sub_cancel,
        show i + 1 + 1 - 2 = i from by omega, show i + 1 + 1 - 1 = i + 1 from by omega,
        show ((0 : Nat) + 1 = 2) = False from by simp, show (0 : Nat) + 1 + 1 = 2 from rfl,
        if_false, hc0, hc1, mc]
      rw [show i + 3 * (gs.length + 1) = i + 3 + 3 * gs.length from by omega]
      exact e1
    · rw [e2]; simp
    · have e : i + 3 * (gs.length + 1) = i + 3 + 3 * gs.length := by omega
      rw [e, e3, show i + 3 = i + 2 + 1 from rfl,
        take_succ_set _ _ _ (by simp only [List.length_set]; omega), p2]
      simp [wireGroups]

theorem crcBits_succ (n crc : Nat) : crcBits (n + 1) crc = crcBits n (crcStep crc) := rfl

theorem and_128 (x : Nat) : x &&& 128 = 0 ∨ x &&& 128 = 128 := by
  have h := Nat.and_two_pow x 7
  cases hb : x.testBit 7 <;> simp [hb] at h
  · left; exact h
  · right; exact h

theorem xor_mod_256 (a b : Nat) : (a ^^^ b) % 256 = a % 256 ^^^ b % 256 := by
  apply Nat.eq_of_testBit_eq
  intro i
  rw [show (256 : Nat) = 2 ^ 8 from rfl]
  simp only [Nat.testBit_mod_two_pow, Nat.testBit_xor]
  cases decide (i < 8) <;> simp

theorem shiftLeft_xor (a b : Nat) : (a ^^^ b) <<< 1 = a <<< 1 ^^^ b <<< 1 := by
  apply Nat.eq_of_testBit_eq
  intro i
  simp only [Nat.testBit_shiftLeft, Nat.testBit_xor]
  cases decide (i ≥ 1) <;> simp

theorem crcStep_eq (c : Nat) :
    crcStep c = ((c <<< 1) % 256) ^^^ (if c &&& 128 ≠ 0 then 0x31 else 0) := by
  unfold crcStep
  split_ifs with h
  · rw [xor_mod_256]
  · simp

theorem crcStep_xor (x y : Nat) : crcStep (x ^^^ y) = crcStep x ^^^ crcStep y := by
  rw [crcStep_eq, crcStep_eq, crcStep_eq, shiftLeft_xor, xor_mod_256,
    Nat.and_xor_distrib_right]
  generalize (x <<< 1) % 256 = p
  generalize (y <<< 1) % 256 = q
  have e : ∀ a b c d : Nat, (a ^^^ b) ^^^ (c ^^^ d) = (a ^^^ c) ^^^ (b ^^^ d) := by
    intro a b c d
    rw [Nat.xor_assoc, Nat.xor_assoc, ← Nat.xor_assoc b, Nat.xor_comm b c, Nat.xor_assoc]
  rcases and_128 x with hx | hx <;> rcases and_128 y with hy | hy
  · simp [hx, hy]
  · simp [hx, hy, Nat.xor_assoc]
  · simp [hx, hy, Nat.xor_assoc]
    exact Nat.xor_comm _ _
  · simp [hx, hy]
    rw [e p 49 q 49]
    simp

theorem crcBits_xor (n : Nat) : ∀ x y : Nat, crcBits n (x ^^^ y) = crcBits n x ^^^ crcBits n y := by
  induction n with
  | zero => intro x y; rfl
  | succ k ih => intro x y; rw [crcBits_succ, crcBits_succ, crcBits_succ, crcStep_xor, ih]

set_option maxRecDepth 100000 in
theorem crcBits_fixed : ∀ d < 256, (crcBits 8 d = d ↔ (d = 0 ∨ d = 0xEF)) := by
  decide

theorem crcStep_spec (c : Nat) :
    crcStep c = if c / 128 % 2 = 1 then (c * 2 % 256) ^^^ 0x31 else c * 2 % 256 := by
  have hb : (c &&& 128 ≠ 0) ↔ c / 128 % 2 = 1 := by
    have h := Nat.and_two_pow c 7
    have t := @Nat.testBit_to_div_mod 7 c
    rw [show (2 : Nat) ^ 7 = 128 from rfl] at h t
    rw [h]
    cases hc : c.testBit 7 <;> simp [hc] at t ⊢
    · omega
    · exact t
  rw [crcStep_eq, Nat.shiftLeft_eq]
  by_cases h : c / 128 % 2 = 1
  · rw [if_pos (hb.2 h), if_pos h]
  · rw [if_neg (fun h2 => h (hb.1 h2)), if_neg h]
    simp

theorem crcBits_iterate (n : Nat) : ∀ c : Nat, crcBits n c = Nat.iterate crcStep n c := by
  induction n with
  | zero => intro c; rfl
  | succ k ih => intro c; rw [crcBits_succ, ih]; rfl

theorem I2C_calc_CRC_eq_crc8 (d0 d1 : Nat) : I2C_calc_CRC d0 d1 = crc8 0x31 0xFF [d0, d1] := by
  have e : crcStep = fun c => if c / 128 % 2 = 1 then (c * 2 % 256) ^^^ 0x31 else c * 2 % 256 :=
    funext crcStep_spec
  unfold I2C_calc_CRC crc8
  simp only [crcBits_iterate, List.foldl_cons, List.foldl_nil, e]

set_option maxRecDepth 100000 in
/-- Only zero is sent to zero by the eight turns of the bit loop. -/
theorem crcBits_zero : ∀ d < 256, (crcBits 8 d = 0 → d = 0) := by
  decide

theorem calc_CRC_swap (a b : Nat) (ha : a < 256) (hb : b < 256) :
    I2C_calc_CRC a b = I2C_calc_CRC b a ↔ (a = b ∨ a ^^^ b = 0xEF) := by
  have hd : a ^^^ b < 256 := @Nat.xor_lt_two_pow a b 8 ha hb
  have hL : crcBits 8 (a ^^^ b) < 256 := crcBits_lt 8 _ hd
  have hx : crcBits 8 (a ^^^ b) ^^^ (a ^^^ b) < 256 := @Nat.xor_lt_two_pow _ _ 8 hL hd
  have e1 : I2C_calc_CRC a b ^^^ I2C_calc_CRC b a
      = crcBits 8 (crcBits 8 (a ^^^ b) ^^^ (a ^^^ b)) := by
    unfold I2C_calc_CRC
    simp only [crcBits_xor]
    generalize crcBits 8 (crcBits 8 255) = k
    generalize crcBits 8 (crcBits 8 a) = p
    generalize crcBits 8 (crcBits 8 b) = q
    generalize crcBits 8 a = r
    generalize crcBits 8 b = t
    apply Nat.eq_of_testBit_eq
    intro i
    simp only [Nat.testBit_xor]
    cases k.testBit i <;> cases p.testBit i <;> cases q.testBit i <;> cases r.testBit i <;>
      cases t.testBit i <;> rfl
  rw [← Nat.xor_eq_zero, e1]
  constructor
  · intro h
    have h2 := crcBits_zero _ hx h
    rw [Nat.xor_eq_zero] at h2
    rcases (crcBits_fixed _ hd).1 h2 with h3 | h3
    · left; exact Nat.xor_eq_zero.1 h3
    · right; exact h3
  · intro h
    have h2 : crcBits 8 (a ^^^ b) = a ^^^ b := by
      apply (crcBits_fixed _ hd).2
      rcases h with h | h
      · left; exact Nat.xor_eq_zero.2 h
      · right; exact h
    rw [h2, Nat.xor_self]
    rfl

theorem receivedFrom_refl (s : State) : s.receivedFrom s := rfl

theorem receivedFrom_trans {s2 s1 s : State} (h2 : s2.receivedFrom s1) (h1 : s1.receivedFrom s) :
    s2.receivedFrom s := by
  unfold State.receivedFrom at *
  rw [h2, h1]

theorem rxNext_received (s0 s : State) (i : Nat) (b : Bool) (h : s.receivedFrom s0) :
    (rxNext s i b).state.receivedFrom s0 := by
  unfold rxNext
  split_ifs <;> exact h

theorem rxByte_received (s : State) (i : Nat) (bs : Bool) (b : Nat) :
    (rxByte s i bs b).state.receivedFrom s := by
  unfold rxByte
  cases store s._Receive_BUF i b with
  | none => exact receivedFrom_refl s
  | some buf =>
    simp only []
    split_ifs <;> first
      | exact rxNext_received s _ _ _ rfl
      | rfl

theorem serialLoop_received (startTime : Nat) (polls : List Poll) :
    ∀ (i : Nat) (bs : Bool) (s : State),
      (serialLoop startTime polls i bs s).state.receivedFrom s := by
  induction polls with
  | nil => intro i bs s; exact receivedFrom_refl s
  | cons p ps ih =>
    intro i bs s
    unfold serialLoop
    split_ifs with ht
    · exact receivedFrom_refl s
    · cases hrx : p.rx with
      | none => exact ih i bs s
      | some b =>
        simp only []
        have hb := rxByte_received s i bs b
        cases hr : rxByte s i bs b with
        | returned c s1 => rw [hr] at hb; exact hb
        | overrun j s1 => rw [hr] at hb; exact hb
        | running i1 bs1 s1 =>
          rw [hr] at hb
          exact receivedFrom_trans (ih i1 bs1 s1) hb

theorem ReadFromSerial_received (s : State) (startTime : Nat) (polls : List Poll) :
    (SHDLC_ReadFromSerial s startTime polls).state.receivedFrom (SHDLC_SendToSerial s).2 := by
  have h := serialLoop_received startTime polls 0 false (SHDLC_SendToSerial s).2
  unfold SHDLC_ReadFromSerial SHDLC_SerialToBuffer
  simp only []
  cases hr : serialLoop startTime polls 0 false (SHDLC_SendToSerial s).2 with
  | returned c s1 =>
    rw [hr] at h
    simp only []
    split_ifs <;> exact h
  | overrun j s1 => rw [hr] at h; exact h
  | running i1 bs1 s1 => rw [hr] at h; exact h



theorem sameSession_refl (s : State) : s.sameSession s := ⟨rfl, rfl⟩

theorem sameSession_trans {s2 s1 s : State} (h2 : s2.sameSession s1) (h1 : s1.sameSession s) :
    s2.sameSession s :=
  ⟨h2.1.trans h1.1, h2.2.trans h1.2⟩

theorem receivedFrom_session {s1 s : State} (h : s1.receivedFrom s) : s1.sameSession s := by
  unfold State.receivedFrom at h
  rw [h]
  exact ⟨rfl, rfl⟩

theorem copyLeft_received (left : List Nat) :
    ∀ s s1 : State, copyLeft left s = .ok s1 → s1.receivedFrom s := by
  induction left with
  | nil =>
    intro s s1 h
    simp only [copyLeft, Except.ok.injEq] at h
    rw [← h]
    exact receivedFrom_refl s
  | cons d ds ih =>
    intro s s1 h
    unfold copyLeft at h
    cases hst : store s._Receive_BUF s._Receive_BUF_Length d with
    | none => rw [hst] at h; cases h
    | some buf =>
      rw [hst] at h
      exact receivedFrom_trans (ih _ _ h) rfl

theorem readFinish_received (count requested : Nat) (data : List Nat) (s : State)
    (queued : List Nat) : (readFinish count requested data s queued).state.receivedFrom s := by
  unfold readFinish
  cases hc : copyLeft data s with
  | error i => exact receivedFrom_refl s
  | ok s1 =>
    have h := copyLeft_received data s s1 hc
    simp only []
    split_ifs <;> exact h

theorem readLoop_received (count requested : Nat) (chk_zero : Bool) (queue : List Nat) :
    ∀ (data : List Nat) (s : State),
      (readLoop count requested chk_zero queue data s).state.receivedFrom s := by
  induction queue with
  | nil => intro data s; exact readFinish_received count requested data s []
  | cons b queue ih =>
    intro data s
    unfold readLoop
    simp only []
    repeat' split
    all_goals first
      | exact receivedFrom_refl s
      | exact rfl
      | exact ih _ s
      | exact receivedFrom_trans (readFinish_received _ _ _ _ _) rfl
      | exact receivedFrom_trans (ih _ _) rfl


theorem SHDLC_fill_buffer_some {s : State} {lead command len : Nat} {par : List Nat}
    {f : Bool × State} (h : SHDLC_fill_buffer s lead command len par = some f) :
    f.1 = true ∧ f.2.sameSession s ∧ f.2.serialOut = s.serialOut ∧ f.2.wireOut = s.wireOut
      ∧ f.2._FW_major = s._FW_major := by
  unfold SHDLC_fill_buffer at h
  cases h1 : fillCommand lead command len par with
  | none => rw [h1] at h; cases h
  | some a =>
    obtain ⟨buf, i⟩ := a
    rw [h1] at h
    cases h2 : fillCheck buf i with
    | none =>
      simp only [Option.bind_eq_bind, Option.some_bind, h2, Option.none_bind] at h
      cases h
    | some c =>
      obtain ⟨buf2, n⟩ := c
      simp only [Option.bind_eq_bind, Option.some_bind, h2, Option.pure_def,
        Option.some.injEq] at h
      rw [← h]
      exact ⟨rfl, ⟨rfl, rfl⟩, rfl, rfl, rfl⟩

theorem I2C_fill_buffer_some {s s1 : State} {cmd len : Nat} {param : List Nat}
    (h : I2C_fill_buffer s cmd len param = some s1) :
    s1.sameSession s ∧ s1.serialOut = s.serialOut ∧ s1.wireOut = s.wireOut
      ∧ s1._FW_major = s._FW_major := by
  unfold I2C_fill_buffer at h
  cases h1 : store s._Send_BUF 0 (cmd >>> 8 &&& 0xff) with
  | none => rw [h1] at h; cases h
  | some b1 =>
    rw [h1] at h
    simp only [Option.bind_eq_bind, Option.some_bind] at h
    cases h2 : store b1 1 (cmd &&& 0xff) with
    | none => rw [h2] at h; cases h
    | some b2 =>
      rw [h2] at h
      simp only [Option.some_bind] at h
      by_cases h3 : len ≠ 0
      · rw [if_pos h3] at h
        cases h4 : i2cCopy param len len b2 0 0 2 with
        | none => rw [h4] at h; cases h
        | some c =>
          rw [h4] at h
          simp only [Option.some_bind, Option.pure_def, Option.some.injEq] at h
          rw [← h]
          exact ⟨⟨rfl, rfl⟩, rfl, rfl, rfl⟩
      · rw [if_neg h3] at h
        simp only [Option.pure_def, Option.some.injEq] at h
        rw [← h]
        exact ⟨⟨rfl, rfl⟩, rfl, rfl, rfl⟩

theorem I2C_fill_buffer_command {s s1 : State} {cmd : Nat}
    (h : I2C_fill_buffer s cmd 0 [] = some s1) :
    s1._Send_BUF.take 2 = [(cmd >>> 8 &&& 0xff) % 256, (cmd &&& 0xff) % 256]
      ∧ s1._Send_BUF_Length = 2 := by
  unfold I2C_fill_buffer at h
  unfold store at h
  by_cases h0 : 0 < s._Send_BUF.length
  · rw [if_pos h0] at h
    simp only [Option.bind_eq_bind, Option.some_bind, List.length_set] at h
    by_cases h1 : 1 < s._Send_BUF.length
    · rw [if_pos h1] at h
      simp only [Option.some_bind, ne_eq, not_true_eq_false, ite_false, Option.pure_def,
        Option.some.injEq] at h
      rw [← h]
      refine ⟨?_, rfl⟩
      simp only []
      cases hb : s._Send_BUF with
      | nil => rw [hb] at h0; cases h0
      | cons x xs =>
        cases xs with
        | nil => rw [hb] at h1; simp at h1
        | cons y ys => simp
    · rw [if_neg h1] at h
      cases h
  · rw [if_neg h0] at h
    cases h


theorem SendToSerial_session (s : State) : (SHDLC_SendToSerial s).2.sameSession s := by
  unfold SHDLC_SendToSerial
  split_ifs <;> exact ⟨rfl, rfl⟩

theorem I2C_SendToSVM_session (s : State) (ack : Nat) :
    (I2C_SendToSVM s ack).2.sameSession s := by
  unfold I2C_SendToSVM
  split_ifs <;> exact ⟨rfl, rfl⟩

theorem readFromSerial_some {s : State} {env : List Exchange} {x : Nat × State × List Exchange}
    (h : readFromSerial s env = some x) :
    (∃ e, env = e :: x.2.2) ∧ x.2.1.receivedFrom (SHDLC_SendToSerial s).2 := by
  cases env with
  | nil => cases h
  | cons e env =>
    simp only [readFromSerial] at h
    have hr := ReadFromSerial_received s e.startTime e.polls
    cases hx : SHDLC_ReadFromSerial s e.startTime e.polls with
    | returned ret s1 =>
      rw [hx] at h hr
      simp only [Option.some.injEq] at h
      rw [← h]
      exact ⟨⟨e, rfl⟩, hr⟩
    | overrun i s1 => rw [hx] at h; cases h
    | running i b s1 => rw [hx] at h; cases h

theorem readFromSerial_session {s : State} {env : List Exchange}
    {x : Nat × State × List Exchange} (h : readFromSerial s env = some x) :
    x.2.1.sameSession s :=
  sameSession_trans (receivedFrom_session (readFromSerial_some h).2) (SendToSerial_session s)

theorem sendToSVM_some {s : State} {env : List Exchange} {x : Nat × State × List Exchange}
    (h : sendToSVM s env = some x) :
    ∃ e, env = e :: x.2.2 ∧ x.1 = (I2C_SendToSVM s e.ack).1
      ∧ x.2.1 = (I2C_SendToSVM s e.ack).2 := by
  cases env with
  | nil => cases h
  | cons e env =>
    simp only [sendToSVM, Option.some.injEq] at h
    rw [← h]
    exact ⟨e, rfl, rfl, rfl⟩

theorem sendToSVM_session {s : State} {env : List Exchange} {x : Nat × State × List Exchange}
    (h : sendToSVM s env = some x) : x.2.1.sameSession s := by
  obtain ⟨e, _, _, h2⟩ := sendToSVM_some h
  rw [h2]
  exact I2C_SendToSVM_session s e.ack

theorem requestFromSVM_some {s : State} {cnt : Nat} {chk_zero : Bool} {env : List Exchange}
    {x : Nat × State × List Exchange} (h : requestFromSVM s cnt chk_zero env = some x) :
    ∃ e, env = e :: x.2.2 ∧ x.2.1.receivedFrom (I2C_SendToSVM s e.ack).2 := by
  cases env with
  | nil => cases h
  | cons e env =>
    simp only [requestFromSVM, I2C_RequestFromSVM] at h
    refine ⟨e, ?_⟩
    split_ifs at h with hret
    · simp only [Option.some.injEq] at h
      rw [← h]
      exact ⟨rfl, receivedFrom_refl _⟩
    · have hr := readLoop_received cnt (cnt / 2 * 3 % 256) chk_zero e.bus []
        { (I2C_SendToSVM s e.ack).2 with _Receive_BUF_Length := 0 }
      unfold I2C_ReadFromSVM at h
      cases hx : readLoop cnt (cnt / 2 * 3 % 256) chk_zero e.bus []
          { (I2C_SendToSVM s e.ack).2 with _Receive_BUF_Length := 0 } with
      | returned ret s1 rq q =>
        rw [hx] at h hr
        simp only [Option.some.injEq] at h
        rw [← h]
        exact ⟨rfl, receivedFrom_trans hr rfl⟩
      | overrun i s1 => rw [hx] at h; cases h

theorem requestFromSVM_session {s : State} {cnt : Nat} {chk_zero : Bool} {env : List Exchange}
    {x : Nat × State × List Exchange} (h : requestFromSVM s cnt chk_zero env = some x) :
    x.2.1.sameSession s := by
  obtain ⟨e, _, h2⟩ := requestFromSVM_some h
  exact sameSession_trans (receivedFrom_session h2) (I2C_SendToSVM_session s e.ack)

theorem instructCommand_session {type : Nat} {s : State} {env : List Exchange}
    {x : Option Nat × State × List Exchange} (h : instructCommand type s env = some x) :
    x.2.1.sameSession s := by
  unfold instructCommand at h
  split_ifs at h with hc h1 h2 h3
  all_goals first
    | (simp only [Option.some.injEq] at h
       rw [← h]
       exact sameSession_refl s)
    | (simp only [Option.bind_eq_some, Option.map_eq_some'] at h
       obtain ⟨s1, hf, r, hs, hx⟩ := h
       rw [← hx]
       exact sameSession_trans (sendToSVM_session hs) (I2C_fill_buffer_some hf).1)
    | (simp only [Option.bind_eq_some] at h
       obtain ⟨f, hf, h⟩ := h
       have hf1 := SHDLC_fill_buffer_some hf
       rw [if_neg (fun hn => hn hf1.1)] at h
       simp only [Option.map_eq_some'] at h
       obtain ⟨r, hs, hx⟩ := h
       rw [← hx]
       exact sameSession_trans (readFromSerial_session hs) hf1.2.1)

theorem start_eq (s : State) (env : List Exchange) :
    start s env = (instructCommand SVM40_SHDLC_START_MEASURE s env).bind fun r =>
      match r with
      | (none, s1, env1) => some (false, s1, env1)
      | (some ret, s1, env1) =>
        if ret = ERR_OK then
          some (true, { s1 with _started := true, waited := s1.waited + 1000 }, env1)
        else some (false, s1, env1) := rfl

theorem stop_eq (s : State) (env : List Exchange) (h0 : s._started = true) :
    stop s env = (instructCommand SVM40_SHDLC_STOP_MEASURE s env).bind fun r =>
      match r with
      | (none, s1, env1) => some (false, s1, env1)
      | (some ret, s1, env1) =>
        if ret = ERR_OK then some (true, { s1 with _started := false }, env1)
        else some (false, s1, env1) := by
  unfold stop Instruct
  rw [if_neg (by rw [h0]; simp)]
  rfl

theorem reset_eq (s : State) (env : List Exchange) :
    reset s env = (instructCommand SVM40_SHDLC_RESET s env).bind fun r =>
      match r with
      | (none, s1, env1) => some (false, s1, env1)
      | (some ret, s1, env1) =>
        if ret = ERR_OK then
          some (true,
            { s1 with
              _started := false
              wireBegins :=
                if s1._Sensor_Comms = .I2C_COMMS then s1.wireBegins + 1 else s1.wireBegins
              waited := s1.waited + 2000 }, env1)
        else some (false, s1, env1) := rfl

theorem start_true {s s1 : State} {env env1 : List Exchange}
    (h : start s env = some (true, s1, env1)) :
    s1._started = true ∧ s1._Sensor_Comms = s._Sensor_Comms := by
  rw [start_eq] at h
  simp only [Option.bind_eq_some] at h
  obtain ⟨⟨r, sa, enva⟩, hc, h⟩ := h
  have hs := instructCommand_session hc
  cases r with
  | none => simp at h
  | some ret =>
    simp only [] at h
    split_ifs at h
    · simp only [Option.some.injEq, Prod.mk.injEq] at h
      rw [← h.2.1]
      exact ⟨rfl, hs.2⟩
    · simp at h

theorem start_false {s s1 : State} {env env1 : List Exchange}
    (h : start s env = some (false, s1, env1)) : s1.sameSession s := by
  rw [start_eq] at h
  simp only [Option.bind_eq_some] at h
  obtain ⟨⟨r, sa, enva⟩, hc, h⟩ := h
  have hs := instructCommand_session hc
  cases r with
  | none =>
    simp only [Option.some.injEq, Prod.mk.injEq] at h
    rw [← h.2.1]
    exact hs
  | some ret =>
    simp only [] at h
    split_ifs at h
    · simp at h
    · simp only [Option.some.injEq, Prod.mk.injEq] at h
      rw [← h.2.1]
      exact hs

theorem stop_true {s s1 : State} {env env1 : List Exchange} (h0 : s._started = true)
    (h : stop s env = some (true, s1, env1)) :
    s1._started = false ∧ s1._Sensor_Comms = s._Sensor_Comms := by
  rw [stop_eq s env h0] at h
  simp only [Option.bind_eq_some] at h
  obtain ⟨⟨r, sa, enva⟩, hc, h⟩ := h
  have hs := instructCommand_session hc
  cases r with
  | none => simp at h
  | some ret =>
    simp only [] at h
    split_ifs at h
    · simp only [Option.some.injEq, Prod.mk.injEq] at h
      rw [← h.2.1]
      exact ⟨rfl, hs.2⟩
    · simp at h


theorem GetVersion_session {s : State} {env : List Exchange} {x : Nat × State × List Exchange}
    (h : GetVersion s env = some x) : x.2.1.sameSession s := by
  unfold GetVersion at h
  split_ifs at h with hc
  · simp only [Option.bind_eq_some, Option.map_eq_some'] at h
    obtain ⟨s1, hf, r, hs, hx⟩ := h
    rw [← hx]
    have hr : r.2.1.sameSession s :=
      sameSession_trans (requestFromSVM_session hs) (I2C_fill_buffer_some hf).1
    exact hr
  · simp only [Option.bind_eq_some] at h
    obtain ⟨f, hf, h⟩ := h
    have hf1 := SHDLC_fill_buffer_some hf
    rw [if_neg (fun hn => hn hf1.1)] at h
    simp only [Option.map_eq_some'] at h
    obtain ⟨r, hs, hx⟩ := h
    rw [← hx]
    have hr : r.2.1.sameSession s :=
      sameSession_trans (readFromSerial_session hs) hf1.2.1
    exact hr

theorem probe_session {s : State} {env : List Exchange} {x : Bool × State × List Exchange}
    (h : probe s env = some x) : x.2.1.sameSession s := by
  unfold probe at h
  simp only [Option.map_eq_some'] at h
  obtain ⟨r, hs, hx⟩ := h
  rw [← hx]
  exact GetVersion_session hs

theorem setVocTuningCommand_some {p : svm_algopar} {s : State} {env : List Exchange}
    {x : Flow × State × List Exchange} (h : setVocTuningCommand p s env = some x) :
    (∃ ret, x.1 = .next ret) ∧ x.2.1.sameSession s := by
  unfold setVocTuningCommand at h
  simp only [] at h
  split_ifs at h with hc
  · simp only [Option.bind_eq_some, Option.map_eq_some'] at h
    obtain ⟨s1, hf, r, hs, hx⟩ := h
    rw [← hx]
    exact ⟨⟨r.1, rfl⟩, sameSession_trans (sendToSVM_session hs) (I2C_fill_buffer_some hf).1⟩
  · simp only [Option.bind_eq_some] at h
    obtain ⟨f, hf, h⟩ := h
    have hf1 := SHDLC_fill_buffer_some hf
    rw [if_neg (fun hn => hn hf1.1)] at h
    simp only [Option.map_eq_some'] at h
    obtain ⟨r, hs, hx⟩ := h
    rw [← hx]
    exact ⟨⟨r.1, rfl⟩, sameSession_trans (readFromSerial_session hs)
      (sameSession_trans (SendToSerial_session _) hf1.2.1)⟩

theorem setVocStateCommand_some {p : List Nat} {plen : Nat} {pmem : List Nat} {s : State}
    {env : List Exchange} {x : Flow × State × List Exchange}
    (h : setVocStateCommand p plen pmem s env = some x) :
    (∃ ret, x.1 = .next ret) ∧ x.2.1.sameSession s := by
  unfold setVocStateCommand at h
  split_ifs at h with hc
  · simp only [Option.bind_eq_some, Option.map_eq_some'] at h
    obtain ⟨s1, hf, r, hs, hx⟩ := h
    rw [← hx]
    exact ⟨⟨r.1, rfl⟩, sameSession_trans (sendToSVM_session hs) (I2C_fill_buffer_some hf).1⟩
  · simp only [Option.bind_eq_some] at h
    obtain ⟨f, hf, h⟩ := h
    have hf1 := SHDLC_fill_buffer_some hf
    rw [if_neg (fun hn => hn hf1.1)] at h
    simp only [Option.some.injEq] at h
    rw [← h]
    exact ⟨⟨_, rfl⟩, sameSession_trans (SendToSerial_session _) hf1.2.1⟩

theorem setTemperatureOffsetCommand_session {val : Int} {floatData : List Nat} {s : State}
    {env : List Exchange} {x : Flow × State × List Exchange}
    (h : setTemperatureOffsetCommand val floatData s env = some x) :
    x.2.1.sameSession s := by
  unfold setTemperatureOffsetCommand at h
  simp only [Option.bind_eq_some] at h
  obtain ⟨r0, h0, h⟩ := h
  have hs0 : r0.2.1.sameSession s := by
    split_ifs at h0
    · exact probe_session h0
    · simp only [Option.some.injEq] at h0
      rw [← h0]
      exact sameSession_refl s
  by_cases hp : r0.1 = false
  · rw [if_pos hp] at h
    simp only [Option.some.injEq] at h
    rw [← h]
    exact hs0
  · rw [if_neg hp] at h
    by_cases hc : r0.2.1._Sensor_Comms = .I2C_COMMS
    · rw [if_pos hc] at h
      simp only [Option.bind_eq_some, Option.map_eq_some'] at h
      obtain ⟨s1, hf, r, hs, hx⟩ := h
      rw [← hx]
      exact sameSession_trans (sameSession_trans (sendToSVM_session hs)
        (I2C_fill_buffer_some hf).1) hs0
    · rw [if_neg hc] at h
      simp only [Option.bind_eq_some] at h
      obtain ⟨f, hf, h⟩ := h
      have hf1 := SHDLC_fill_buffer_some hf
      rw [if_neg (fun hn => hn hf1.1)] at h
      simp only [Option.map_eq_some'] at h
      obtain ⟨r, hs, hx⟩ := h
      rw [← hx]
      exact sameSession_trans (sameSession_trans (readFromSerial_session hs)
        (sameSession_trans (SendToSerial_session _) hf1.2.1)) hs0

theorem getValuesCommand_session {s : State} {env : List Exchange}
    {x : Nat × State × List Exchange} (h : getValuesCommand s env = some x) :
    x.2.1.sameSession s := by
  unfold getValuesCommand at h
  split_ifs at h with hc
  · simp only [Option.bind_eq_some, Option.map_eq_some'] at h
    obtain ⟨s1, hf, r, hs, hx⟩ := h
    rw [← hx]
    have hr : r.2.1.sameSession s :=
      sameSession_trans (requestFromSVM_session hs) (I2C_fill_buffer_some hf).1
    exact hr
  · simp only [Option.bind_eq_some] at h
    obtain ⟨f, hf, h⟩ := h
    have hf1 := SHDLC_fill_buffer_some hf
    rw [if_neg (fun hn => hn hf1.1)] at h
    simp only [Option.map_eq_some'] at h
    obtain ⟨r, hs, hx⟩ := h
    rw [← hx]
    have hr := sameSession_trans (readFromSerial_session hs) hf1.2.1
    split_ifs <;> exact hr

theorem getVocTuningCommand_session {s : State} {env : List Exchange}
    {x : Nat × State × List Exchange} (h : getVocTuningCommand s env = some x) :
    x.2.1.sameSession s := by
  unfold getVocTuningCommand at h
  split_ifs at h with hc
  · simp only [Option.bind_eq_some, Option.map_eq_some'] at h
    obtain ⟨s1, hf, r, hs, hx⟩ := h
    rw [← hx]
    have hr := sameSession_trans (requestFromSVM_session hs) (I2C_fill_buffer_some hf).1
    split_ifs <;> exact hr
  · simp only [Option.bind_eq_some] at h
    obtain ⟨f, hf, h⟩ := h
    have hf1 := SHDLC_fill_buffer_some hf
    rw [if_neg (fun hn => hn hf1.1)] at h
    simp only [Option.map_eq_some'] at h
    obtain ⟨r, hs, hx⟩ := h
    rw [← hx]
    have hr := sameSession_trans (readFromSerial_session hs) hf1.2.1
    split_ifs <;> exact hr

theorem StoreNvData_session {s : State} {env : List Exchange}
    {x : Nat × State × List Exchange} (h : StoreNvData s env = some x) :
    x.2.1.sameSession s := by
  unfold StoreNvData at h
  split_ifs at h with hc
  · simp only [Option.bind_eq_some] at h
    obtain ⟨s1, hf, hs⟩ := h
    exact sameSession_trans (sendToSVM_session hs) (I2C_fill_buffer_some hf).1
  · simp only [Option.bind_eq_some] at h
    obtain ⟨f, hf, h⟩ := h
    have hf1 := SHDLC_fill_buffer_some hf
    rw [if_neg (fun hn => hn hf1.1)] at h
    exact sameSession_trans (readFromSerial_session h)
      (sameSession_trans (SendToSerial_session _) hf1.2.1)

theorem receivedFrom_logs {s1 s : State} (h : s1.receivedFrom s) :
    s1.serialOut = s.serialOut ∧ s1.wireOut = s.wireOut := by
  unfold State.receivedFrom at h
  rw [h]
  exact ⟨rfl, rfl⟩

theorem I2C_SendToSVM_logs (s : State) (ack : Nat) (h : s._Send_BUF_Length ≠ 0) :
    (I2C_SendToSVM s ack).2.wireOut = s.wireOut ++ [s._Send_BUF.take s._Send_BUF_Length]
      ∧ (I2C_SendToSVM s ack).2.serialOut = s.serialOut := by
  unfold I2C_SendToSVM
  rw [if_neg h]
  split_ifs <;> exact ⟨rfl, rfl⟩

theorem SendToSerial_logs (s : State) (h : s._Send_BUF_Length ≠ 0) :
    (SHDLC_SendToSerial s).2.serialOut = s.serialOut ++ s._Send_BUF.take s._Send_BUF_Length
      ∧ (SHDLC_SendToSerial s).2.wireOut = s.wireOut := by
  unfold SHDLC_SendToSerial
  rw [if_neg h]
  exact ⟨rfl, rfl⟩

/-- The frame `SHDLC_fill_buffer` builds does not depend on the driver object. -/
theorem SHDLC_fill_buffer_any (s : State) (lead command len : Nat) (par : List Nat) :
    SHDLC_fill_buffer s lead command len par
      = (SHDLC_fill_buffer State.init lead command len par).map fun f =>
          (f.1, { s with _Send_BUF := f.2._Send_BUF
                         _Send_BUF_Length := f.2._Send_BUF_Length
                         _RespDelay := f.2._RespDelay }) := by
  unfold SHDLC_fill_buffer
  cases h1 : fillCommand lead command len par with
  | none => rfl
  | some a =>
    obtain ⟨buf, i⟩ := a
    cases h2 : fillCheck buf i with
    | none => simp [h2]
    | some c =>
      obtain ⟨buf2, n⟩ := c
      simp [h2]

/-- The frames of the start and the stop command on the stream transport. -/
theorem SHDLC_fill_buffer_start_stop (s : State) :
    SHDLC_fill_buffer s SVM40_SHDLC_START_BASE SVM40_SHDLC_START_MEASURE 0 []
      = some (true, { s with
          _Send_BUF := [0x7E, 0x00, 0x00, 0x01, 0x00, 0xFE, 0x7E] ++ List.replicate 13 0
          _Send_BUF_Length := 7
          _RespDelay := 100 })
    ∧ SHDLC_fill_buffer s SVM40_SHDLC_NO_BASE_VALUE SVM40_SHDLC_STOP_MEASURE 0 []
      = some (true, { s with
          _Send_BUF := [0x7E, 0x00, 0x01, 0x00, 0xFE, 0x7E] ++ List.replicate 14 0
          _Send_BUF_Length := 6
          _RespDelay := 100 }) := by
  rw [SHDLC_fill_buffer_any s, SHDLC_fill_buffer_any s SVM40_SHDLC_NO_BASE_VALUE]
  have e1 : SHDLC_fill_buffer State.init SVM40_SHDLC_START_BASE SVM40_SHDLC_START_MEASURE 0 []
      = some (true, { State.init with
          _Send_BUF := [0x7E, 0x00, 0x00, 0x01, 0x00, 0xFE, 0x7E] ++ List.replicate 13 0
          _Send_BUF_Length := 7
          _RespDelay := 100 }) := by decide
  have e2 : SHDLC_fill_buffer State.init SVM40_SHDLC_NO_BASE_VALUE SVM40_SHDLC_STOP_MEASURE 0 []
      = some (true, { State.init with
          _Send_BUF := [0x7E, 0x00, 0x01, 0x00, 0xFE, 0x7E] ++ List.replicate 14 0
          _Send_BUF_Length := 6
          _RespDelay := 100 }) := by decide
  rw [e1, e2]
  exact ⟨rfl, rfl⟩



theorem instructCommand_start {s : State} {env : List Exchange}
    {x : Option Nat × State × List Exchange}
    (h : instructCommand SVM40_SHDLC_START_MEASURE s env = some x) :
    x.2.1.wrote s [0x00, 0x10] [0x7E, 0x00, 0x00, 0x01, 0x00, 0xFE, 0x7E]
      ∧ ∃ e, env = e :: x.2.2 := by
  unfold instructCommand at h
  unfold State.wrote
  by_cases hc : s._Sensor_Comms = .I2C_COMMS
  · rw [if_pos hc, if_pos rfl] at h
    rw [if_pos hc]
    simp only [Option.bind_eq_some, Option.map_eq_some'] at h
    obtain ⟨s1, hf, r, hs, hx⟩ := h
    obtain ⟨e, he, _, h2⟩ := sendToSVM_some hs
    have hb := I2C_fill_buffer_command hf
    have hl := I2C_fill_buffer_some hf
    have hw := I2C_SendToSVM_logs s1 e.ack (by rw [hb.2]; decide)
    rw [← hx]
    simp only []
    rw [h2, hw.1, hw.2, hb.2, hb.1, hl.2.1, hl.2.2.1]
    exact ⟨⟨rfl, rfl⟩, e, he⟩
  · rw [if_neg hc, if_pos rfl, (SHDLC_fill_buffer_start_stop s).1] at h
    rw [if_neg hc]
    simp only [Option.some_bind, ne_eq, not_true_eq_false, ite_false,
      Option.map_eq_some'] at h
    obtain ⟨r, hs, hx⟩ := h
    obtain ⟨he, hr⟩ := readFromSerial_some hs
    have hl := receivedFrom_logs hr
    rw [← hx]
    simp only []
    rw [hl.1, hl.2]
    exact ⟨⟨rfl, rfl⟩, he⟩

theorem instructCommand_stop {s : State} {env : List Exchange}
    {x : Option Nat × State × List Exchange}
    (h : instructCommand SVM40_SHDLC_STOP_MEASURE s env = some x) :
    x.2.1.wrote s [0x01, 0x04] [0x7E, 0x00, 0x01, 0x00, 0xFE, 0x7E]
      ∧ ∃ e, env = e :: x.2.2 := by
  unfold instructCommand at h
  unfold State.wrote
  by_cases hc : s._Sensor_Comms = .I2C_COMMS
  · rw [if_pos hc, if_neg (by decide), if_pos rfl] at h
    rw [if_pos hc]
    simp only [Option.bind_eq_some, Option.map_eq_some'] at h
    obtain ⟨s1, hf, r, hs, hx⟩ := h
    obtain ⟨e, he, _, h2⟩ := sendToSVM_some hs
    have hb := I2C_fill_buffer_command hf
    have hl := I2C_fill_buffer_some hf
    have hw := I2C_SendToSVM_logs s1 e.ack (by rw [hb.2]; decide)
    rw [← hx]
    simp only []
    rw [h2, hw.1, hw.2, hb.2, hb.1, hl.2.1, hl.2.2.1]
    exact ⟨⟨rfl, rfl⟩, e, he⟩
  · rw [if_neg hc, if_neg (by decide), (SHDLC_fill_buffer_start_stop s).2] at h
    rw [if_neg hc]
    simp only [Option.some_bind, ne_eq, not_true_eq_false, ite_false,
      Option.map_eq_some'] at h
    obtain ⟨r, hs, hx⟩ := h
    obtain ⟨he, hr⟩ := readFromSerial_some hs
    have hl := receivedFrom_logs hr
    rw [← hx]
    simp only []
    rw [hl.1, hl.2]
    exact ⟨⟨rfl, rfl⟩, he⟩


theorem start_wrote {s s1 : State} {b : Bool} {env env1 : List Exchange}
    (h : start s env = some (b, s1, env1)) :
    s1.wrote s [0x00, 0x10] [0x7E, 0x00, 0x00, 0x01, 0x00, 0xFE, 0x7E]
      ∧ ∃ e, env = e :: env1 := by
  rw [start_eq] at h
  simp only [Option.bind_eq_some] at h
  obtain ⟨⟨r, sa, enva⟩, hc, h⟩ := h
  have hw := instructCommand_start hc
  simp only [] at hw
  cases r with
  | none =>
    simp only [Option.some.injEq, Prod.mk.injEq] at h
    rw [← h.2.1, ← h.2.2]
    exact hw
  | some ret =>
    simp only [] at h
    split_ifs at h
    all_goals
      simp only [Option.some.injEq, Prod.mk.injEq] at h
      rw [← h.2.1, ← h.2.2]
      exact hw

theorem stop_wrote {s s1 : State} {b : Bool} {env env1 : List Exchange}
    (h0 : s._started = true) (h : stop s env = some (b, s1, env1)) :
    s1.wrote s [0x01, 0x04] [0x7E, 0x00, 0x01, 0x00, 0xFE, 0x7E]
      ∧ ∃ e, env = e :: env1 := by
  rw [stop_eq s env h0] at h
  simp only [Option.bind_eq_some] at h
  obtain ⟨⟨r, sa, enva⟩, hc, h⟩ := h
  have hw := instructCommand_stop hc
  simp only [] at hw
  cases r with
  | none =>
    simp only [Option.some.injEq, Prod.mk.injEq] at h
    rw [← h.2.1, ← h.2.2]
    exact hw
  | some ret =>
    simp only [] at h
    split_ifs at h
    all_goals
      simp only [Option.some.injEq, Prod.mk.injEq] at h
      rw [← h.2.1, ← h.2.2]
      exact hw

theorem getVocTuningCommand_one {s : State} {env : List Exchange}
    {x : Nat × State × List Exchange} (h : getVocTuningCommand s env = some x) :
    ∃ e, env = e :: x.2.2 := by
  unfold getVocTuningCommand at h
  split_ifs at h with hc
  · simp only [Option.bind_eq_some, Option.map_eq_some'] at h
    obtain ⟨s1, hf, r, hs, hx⟩ := h
    obtain ⟨e, he, _⟩ := requestFromSVM_some hs
    rw [← hx]
    refine ⟨e, ?_⟩
    split_ifs <;> exact he
  · simp only [Option.bind_eq_some] at h
    obtain ⟨f, hf, h⟩ := h
    have hf1 := SHDLC_fill_buffer_some hf
    rw [if_neg (fun hn => hn hf1.1)] at h
    simp only [Option.map_eq_some'] at h
    obtain ⟨r, hs, hx⟩ := h
    obtain ⟨⟨e, he⟩, _⟩ := readFromSerial_some hs
    rw [← hx]
    refine ⟨e, ?_⟩
    split_ifs <;> exact he

theorem StoreNvData_one {s : State} {env : List Exchange}
    {x : Nat × State × List Exchange} (h : StoreNvData s env = some x) :
    ∃ e, env = e :: x.2.2 := by
  unfold StoreNvData at h
  split_ifs at h with hc
  · simp only [Option.bind_eq_some] at h
    obtain ⟨s1, hf, hs⟩ := h
    obtain ⟨e, he, _⟩ := sendToSVM_some hs
    exact ⟨e, he⟩
  · simp only [Option.bind_eq_some] at h
    obtain ⟨f, hf, h⟩ := h
    have hf1 := SHDLC_fill_buffer_some hf
    rw [if_neg (fun hn => hn hf1.1)] at h
    exact (readFromSerial_some h).1

/-- The three setters once the stop has succeeded and the own command has been left by
its end: what is left is the restart. -/
theorem gated_next (command : State → List Exchange → Outcome Flow) (s s1 s2 : State)
    (env env1 env2 : List Exchange) (ret : Nat) (h0 : s._started = true)
    (h1 : stop s env = some (true, s1, env1))
    (h2 : command s1 env1 = some (.next ret, s2, env2)) :
    gated command s env = (start s2 env2).bind fun r =>
      if r.1 = false then some (ERR_CMDSTATE, r.2) else some (ret, r.2) := by
  unfold gated
  simp [h0, h1, h2]

theorem SHDLC_fill_buffer_delay {s : State} {lead command len : Nat} {par : List Nat}
    {f : Bool × State} (h : SHDLC_fill_buffer s lead command len par = some f) :
    f.2._RespDelay
      = if command = 0x80 then 750 else if command = 0xD3 then 200 else 100 := by
  unfold SHDLC_fill_buffer at h
  cases h1 : fillCommand lead command len par with
  | none => rw [h1] at h; cases h
  | some a =>
    obtain ⟨buf, i⟩ := a
    rw [h1] at h
    cases h2 : fillCheck buf i with
    | none =>
      simp only [Option.bind_eq_bind, Option.some_bind, h2, Option.none_bind] at h
      cases h
    | some c =>
      obtain ⟨buf2, n⟩ := c
      simp only [Option.bind_eq_bind, Option.some_bind, h2, Option.pure_def,
        Option.some.injEq] at h
      rw [← h]

theorem I2C_fill_buffer_delay {s s1 : State} {cmd len : Nat} {param : List Nat}
    (h : I2C_fill_buffer s cmd len param = some s1) :
    s1._RespDelay = if cmd = 0x6002 then 750 else if cmd = 0xD304 then 200 else 100 := by
  unfold I2C_fill_buffer at h
  cases h1 : store s._Send_BUF 0 (cmd >>> 8 &&& 0xff) with
  | none => rw [h1] at h; cases h
  | some b1 =>
    rw [h1] at h
    simp only [Option.bind_eq_bind, Option.some_bind] at h
    cases h2 : store b1 1 (cmd &&& 0xff) with
    | none => rw [h2] at h; cases h
    | some b2 =>
      rw [h2] at h
      simp only [Option.some_bind] at h
      by_cases h3 : len ≠ 0
      · rw [if_pos h3] at h
        cases h4 : i2cCopy param len len b2 0 0 2 with
        | none => rw [h4] at h; cases h
        | some c =>
          rw [h4] at h
          simp only [Option.some_bind, Option.pure_def, Option.some.injEq] at h
          rw [← h]
      · rw [if_neg h3] at h
        simp only [Option.pure_def, Option.some.injEq] at h
        rw [← h]

theorem xor_eq_self_iff (x y : Nat) : x ^^^ y = x ↔ y = 0 := by
  constructor
  · intro h
    have h2 : x ^^^ (x ^^^ y) = x ^^^ x := by rw [h]
    rw [← Nat.xor_assoc, Nat.xor_self, Nat.zero_xor] at h2
    exact h2
  · intro h
    rw [h, Nat.xor_zero]

/-- A bit flipped in the first or in the second data byte changes the CRC by the image of
the bit under sixteen or eight turns of the bit loop. -/
theorem calc_CRC_flip (a b e : Nat) :
    I2C_calc_CRC (a ^^^ e) b = I2C_calc_CRC a b ^^^ crcBits 8 (crcBits 8 e) ∧
    I2C_calc_CRC a (b ^^^ e) = I2C_calc_CRC a b ^^^ crcBits 8 e := by
  unfold I2C_calc_CRC
  simp only []
  constructor
  · rw [← Nat.xor_assoc, crcBits_xor 8 (255 ^^^ a) e, Nat.xor_assoc (crcBits 8 (255 ^^^ a)),
      Nat.xor_comm (crcBits 8 e) b, ← Nat.xor_assoc, crcBits_xor 8 _ (crcBits 8 e)]
  · rw [← Nat.xor_assoc, crcBits_xor 8 _ e]

theorem crcBits_bit : ∀ k < 8, crcBits 8 (2 ^ k) ≠ 0 ∧ crcBits 8 (crcBits 8 (2 ^ k)) ≠ 0 := by
  decide

/-- A group with a wrong CRC byte behind valid groups. -/
theorem ReadFromSVM_bad_group (s : State) (count : Nat) (chk_zero : Bool)
    (gs : List (Nat × Nat)) (d0 d1 c : Nat) (rest : List Nat)
    (hbuf : s._Receive_BUF.length = MAXRECVBUFLENGTH)
    (hfit : 2 * gs.length ≤ MAXRECVBUFLENGTH)
    (hbefore : 2 * gs.length < count)
    (hzero : chk_zero = true → ∀ g ∈ gs, ¬ (g.1 = 0 ∧ g.2 = 0))
    (hbytes : ∀ g ∈ gs, g.1 < 256 ∧ g.2 < 256)
    (h0 : d0 < 256) (h1 : d1 < 256) (h2 : c < 256) (hbad : c ≠ I2C_calc_CRC d0 d1) :
    (I2C_ReadFromSVM s count chk_zero (wireGroups gs ++ d0 :: d1 :: c :: rest)).code
      = some ERR_PROTOCOL := by
  obtain ⟨s1, e1, _, e3, e4, e5⟩ :=
    readLoop_groups count (count / 2 * 3 % 256) chk_zero gs
      { s with _Receive_BUF_Length := 0 } (d0 :: d1 :: c :: rest) hbytes
      (by simp only [hbuf]; omega) (by simp only []; omega) hzero
  unfold I2C_ReadFromSVM
  rw [e1, readLoop_bad_group count _ chk_zero d0 d1 c rest s1 h0 h1 h2 hbad]
  rfl

/-! ## The claims -/

/-- C1: decoding inverts stuffing. For every unstuffed body `B` of 2 to 48 bytes, when
the stream delivers `0x7E`, then each byte of `B` as `SHDLC_ByteStuff` emits it (a
reserved value `0x11`, `0x13`, `0x7D`, `0x7E` as `0x7D` followed by the value XOR
`0x20`, any other byte unchanged), then `0x7E`, every poll falling inside the time-out
window, `SHDLC_SerialToBuffer` returns `ERR_OK` with `_Receive_BUF[0] = 0x7E`,
`_Receive_BUF[1..|B|] = B` and `_Receive_BUF_Length = |B| + 1`; an escaped `0x7E` in
the body (`B` may hold any byte) does not end the frame. -/
theorem SHDLC_SerialToBuffer_inverts_stuffing (s : State) (startTime : Nat) (B : List Nat)
    (polls : List Poll)
    (hbuf : s._Receive_BUF.length = MAXRECVBUFLENGTH)
    (hB2 : 2 ≤ B.length) (hB48 : B.length ≤ 48) (hbytes : ∀ b ∈ B, b < 256)
    (hrx : polls.filterMap Poll.rx = SHDLC_IND :: (stuffAll B ++ [SHDLC_IND]))
    (htime : ∀ p ∈ polls, elapsed startTime p.now ≤ TIME_OUT) :
    (∀ b ∈ B, stuffedBytes b =
      if b = 0x11 ∨ b = 0x13 ∨ b = 0x7D ∨ b = 0x7E then [0x7D, b ^^^ 0x20] else [b]) ∧
    ∃ s1 : State,
      SHDLC_SerialToBuffer s startTime polls = .returned ERR_OK s1 ∧
      s1._Receive_BUF.take (B.length + 1) = 0x7E :: B ∧
      s1._Receive_BUF_Length = B.length + 1 := by
  refine ⟨fun b hb => stuffedBytes_xor b (hbytes b hb), ?_⟩
  obtain ⟨s1, h1, h2, _, _, h5, _⟩ := feed_frame s B [] hbuf hB48 hbytes
  refine ⟨s1, ?_, h2, h5⟩
  rw [SerialToBuffer_eq_feed s startTime polls htime, hrx, h1]
  have : ¬ B.length + 1 < 3 := by omega
  simp [this]

theorem SHDLC_SerialToBuffer_inverts_stuffing_witness :
    State.init._Receive_BUF.length = MAXRECVBUFLENGTH ∧
    (∃ s1 : State,
      SHDLC_SerialToBuffer State.init 1000
          (pollsOf 1200 [0x7E, 0x00, 0x7D, 0x5E, 0x7D, 0x31, 0x42, 0x7E])
        = .returned ERR_OK s1 ∧
      s1._Receive_BUF.take 5 = [0x7E, 0x00, 0x7E, 0x11, 0x42] ∧
      s1._Receive_BUF_Length = 5) :=
  ⟨by decide,
    (SHDLC_SerialToBuffer_inverts_stuffing State.init 1000 [0x00, 0x7E, 0x11, 0x42]
      (pollsOf 1200 [0x7E, 0x00, 0x7D, 0x5E, 0x7D, 0x31, 0x42, 0x7E])
      (by decide) (by decide) (by decide) (by decide) (by decide) (by decide)).2⟩

/-- C2: frame layout without payload. For every command byte `c`,
`SHDLC_fill_buffer(0xFF, c)` with `len = 0` leaves `_Send_BUF` holding exactly
`0x7E, 0x00, c, 0x00`, the byte-stuffed checksum, `0x7E`; for every lead byte `L` other
than `0xFF`, `SHDLC_fill_buffer(L, c)` with `len = 0` leaves it holding exactly
`0x7E, 0x00, L, 0x01, c`, the byte-stuffed checksum, `0x7E`; `_Send_BUF_Length` is the
number of those bytes (6, respectively 7, and one more when the checksum is a reserved
value) and the function returns `true`. -/
theorem SHDLC_fill_buffer_layout (s : State) (c L : Nat) (par : List Nat)
    (hc : c < 256) (hL : L < 256) (hne : L ≠ SVM40_SHDLC_NO_BASE_VALUE) :
    (∃ s1 : State,
      SHDLC_fill_buffer s SVM40_SHDLC_NO_BASE_VALUE c 0 par = some (true, s1) ∧
      s1._Send_BUF.take s1._Send_BUF_Length
        = [0x7E, 0x00, c, 0x00] ++ stuffedBytes (255 - (0x00 + c + 0x00) % 256) ++ [0x7E] ∧
      s1._Send_BUF_Length
        = (if 255 - (0x00 + c + 0x00) % 256 = 0x11 ∨ 255 - (0x00 + c + 0x00) % 256 = 0x13 ∨
              255 - (0x00 + c + 0x00) % 256 = 0x7D ∨ 255 - (0x00 + c + 0x00) % 256 = 0x7E
           then 7 else 6)) ∧
    (∃ s1 : State,
      SHDLC_fill_buffer s L c 0 par = some (true, s1) ∧
      s1._Send_BUF.take s1._Send_BUF_Length
        = [0x7E, 0x00, L, 0x01, c] ++ stuffedBytes (255 - (0x00 + L + 0x01 + c) % 256)
            ++ [0x7E] ∧
      s1._Send_BUF_Length
        = (if 255 - (0x00 + L + 0x01 + c) % 256 = 0x11 ∨
              255 - (0x00 + L + 0x01 + c) % 256 = 0x13 ∨
              255 - (0x00 + L + 0x01 + c) % 256 = 0x7D ∨
              255 - (0x00 + L + 0x01 + c) % 256 = 0x7E
           then 8 else 7)) := by
  have hlenS : ∀ b, b < 256 →
      (stuffedBytes b).length = if b = 0x11 ∨ b = 0x13 ∨ b = 0x7D ∨ b = 0x7E then 2 else 1 := by
    intro b hb
    rw [stuffedBytes_xor b hb]; split_ifs <;> rfl
  constructor
  · have hf : frameStart SVM40_SHDLC_NO_BASE_VALUE c 0 par = [0x7E, 0x00, c, 0x00] := by
      simp [frameStart]
    have hsum : (([0x7E, 0x00, c, 0x00] : List Nat).drop 1).sum = 0x00 + c + 0x00 := by
      simp
    refine ⟨_, SHDLC_fill_buffer_eq s _ c 0 par (by decide) hc (by omega), ?_, ?_⟩
    · simp only [hf, hsum]
      have e := take_frame
        ([0x7E, 0x00, c, 0x00] ++ stuffedBytes (255 - (0x00 + c + 0x00) % 256) ++ [SHDLC_IND])
        (20 - ([0x7E, 0x00, c, 0x00] : List Nat).length
          - (stuffedBytes (255 - (0x00 + c + 0x00) % 256)).length - 1)
      simp only [List.length_append, List.length_cons, List.length_nil,
        List.length_singleton] at e ⊢
      exact e
    · simp only [hf, hsum, hlenS _ (by omega : 255 - (0x00 + c + 0x00) % 256 < 256)]
      split_ifs <;> rfl
  · have hf : frameStart L c 0 par = [0x7E, 0x00, L, 0x01, c] := by
      unfold frameStart
      rw [if_neg hne]
      split_ifs <;> simp
    have hsum : (([0x7E, 0x00, L, 0x01, c] : List Nat).drop 1).sum = 0x00 + L + 0x01 + c := by
      simp; omega
    refine ⟨_, SHDLC_fill_buffer_eq s L c 0 par hL hc (by omega), ?_, ?_⟩
    · simp only [hf, hsum]
      have e := take_frame
        ([0x7E, 0x00, L, 0x01, c] ++ stuffedBytes (255 - (0x00 + L + 0x01 + c) % 256)
          ++ [SHDLC_IND])
        (20 - ([0x7E, 0x00, L, 0x01, c] : List Nat).length
          - (stuffedBytes (255 - (0x00 + L + 0x01 + c) % 256)).length - 1)
      simp only [List.length_append, List.length_cons, List.length_nil,
        List.length_singleton] at e ⊢
      exact e
    · simp only [hf, hsum, hlenS _ (by omega : 255 - (0x00 + L + 0x01 + c) % 256 < 256)]
      split_ifs <;> rfl

theorem SHDLC_fill_buffer_layout_witness :
    (0x81 < 256 ∧ 0x03 < 256 ∧ 0x03 ≠ SVM40_SHDLC_NO_BASE_VALUE) ∧
    (∃ s1 : State,
      SHDLC_fill_buffer State.init SVM40_SHDLC_NO_BASE_VALUE 0x81 0 [] = some (true, s1) ∧
      s1._Send_BUF.take s1._Send_BUF_Length = [0x7E, 0x00, 0x81, 0x00, 0x7D, 0x5E, 0x7E] ∧
      s1._Send_BUF_Length = 7) ∧
    (∃ s1 : State,
      SHDLC_fill_buffer State.init 0x03 0x81 0 [] = some (true, s1) ∧
      s1._Send_BUF.take s1._Send_BUF_Length = [0x7E, 0x00, 0x03, 0x01, 0x81, 0x7A, 0x7E] ∧
      s1._Send_BUF_Length = 7) :=
  ⟨by decide,
    SHDLC_fill_buffer_layout State.init 0x81 0x03 [] (by decide) (by decide) (by decide)⟩

/-- C3: for every call of `SHDLC_fill_buffer` (any lead, any command, any payload of
`len <= 12` bytes), with `i` the index behind the last command or payload byte, the
checksum encoded into the frame from index `i` on is the complement, within 8 bits, of
the low byte of the sum of the frame bytes from the address byte (index 1) through index
`i - 1`; it is stuffed after it is computed (the bytes at `i` are `SHDLC_ByteStuff` of
that value, followed by the closing `0x7E`), and un-stuffing them gives the value back. -/
theorem SHDLC_fill_buffer_checksum (s : State) (lead command len : Nat) (par : List Nat)
    (hlead : lead < 256) (hcmd : command < 256) (hlen : len ≤ 12) :
    ∃ (s1 : State) (i : Nat),
      SHDLC_fill_buffer s lead command len par = some (true, s1) ∧
      i = (if lead = SVM40_SHDLC_NO_BASE_VALUE then 4
           else if carriesPayload lead command then 5 + len else 5) ∧
      (s1._Send_BUF.drop i).take (s1._Send_BUF_Length - 1 - i)
        = stuffedBytes (255 - ((s1._Send_BUF.drop 1).take (i - 1)).sum % 256) ∧
      s1._Send_BUF.getD (s1._Send_BUF_Length - 1) 0 = SHDLC_IND ∧
      (if s1._Send_BUF.getD i 0 = 0x7D then SHDLC_ByteUnStuff (s1._Send_BUF.getD (i + 1) 0)
       else s1._Send_BUF.getD i 0)
        = 255 - ((s1._Send_BUF.drop 1).take (i - 1)).sum % 256 := by
  have hL := frameStart_length lead command len par
  have h1 : 1 ≤ (frameStart lead command len par).length := by
    rw [hL]; split_ifs <;> omega
  refine ⟨_, (frameStart lead command len par).length,
    SHDLC_fill_buffer_eq s lead command len par hlead hcmd hlen, hL, ?_⟩
  generalize frameStart lead command len par = body at h1
  obtain ⟨p1, p2, p3, p4, p5⟩ := frame_parts body
    (stuffedBytes (255 - (body.drop 1).sum % 256))
    (20 - body.length - (stuffedBytes (255 - (body.drop 1).sum % 256)).length - 1) h1
  simp only [p1, p2, p3, p4, p5, true_and]
  have hlt : 255 - (body.drop 1).sum % 256 < 256 := by omega
  generalize 255 - (body.drop 1).sum % 256 = crc at hlt
  generalize 20 - body.length - (stuffedBytes crc).length - 1 = m
  rw [stuffedBytes_eq crc hlt]
  rcases stuffCode_cases crc with h | h | h | h | h
  · obtain ⟨rfl, hc⟩ := h; simp [hc, SHDLC_ByteUnStuff]
  · obtain ⟨rfl, hc⟩ := h; simp [hc, SHDLC_ByteUnStuff]
  · obtain ⟨rfl, hc⟩ := h; simp [hc, SHDLC_ByteUnStuff]
  · obtain ⟨rfl, hc⟩ := h; simp [hc, SHDLC_ByteUnStuff]
  · obtain ⟨_, _, h7d, _, hc⟩ := h; simp [hc, h7d]

theorem SHDLC_fill_buffer_checksum_witness :
    (0x60 < 256 ∧ 0x81 < 256 ∧ 2 ≤ 12) ∧
    ∃ (s1 : State) (i : Nat),
      SHDLC_fill_buffer State.init 0x60 0x81 2 [0xFE, 0x9F] = some (true, s1) ∧
      i = 7 ∧
      (s1._Send_BUF.drop i).take (s1._Send_BUF_Length - 1 - i)
        = stuffedBytes (255 - ((s1._Send_BUF.drop 1).take (i - 1)).sum % 256) ∧
      s1._Send_BUF.getD (s1._Send_BUF_Length - 1) 0 = SHDLC_IND ∧
      (if s1._Send_BUF.getD i 0 = 0x7D then SHDLC_ByteUnStuff (s1._Send_BUF.getD (i + 1) 0)
       else s1._Send_BUF.getD i 0)
        = 255 - ((s1._Send_BUF.drop 1).take (i - 1)).sum % 256 :=
  ⟨by decide,
    SHDLC_fill_buffer_checksum State.init 0x60 0x81 2 [0xFE, 0x9F]
      (by decide) (by decide) (by decide)⟩

/-- C4: the frame `SHDLC_fill_buffer` builds for `SetTemperatureOffset(22)` (firmware
major >= 2, payload `0x11 0x30`) is `7E 00 60 03 81 11 30 DA 7E`: the payload byte `0x11`
is emitted raw at index 5, strictly between the two delimiters, and not as `7D 31`. Only
the checksum goes through `SHDLC_ByteStuff`. -/
theorem SHDLC_fill_buffer_payload_not_stuffed :
    tempOffsetData 22 = [0x11, 0x30] ∧
    stuffedBytes 0x11 = [0x7D, 0x31] ∧
    ∃ s1 : State,
      SHDLC_fill_buffer State.init SVM40_SHDLC_BASELINE_ALG SVM40_SHDLC_SET_TEMP_OFFSET 2
          (tempOffsetData 22) = some (true, s1) ∧
      s1._Send_BUF_Length = 9 ∧
      s1._Send_BUF.take s1._Send_BUF_Length
        = [0x7E, 0x00, 0x60, 0x03, 0x81, 0x11, 0x30, 0xDA, 0x7E] := by
  refine ⟨by decide, by decide, _, rfl, ?_, ?_⟩ <;> decide

/-- C5: checksum validation on receive. For every completed frame that
`SHDLC_SerialToBuffer` leaves unstuffed in `_Receive_BUF` with `_Receive_BUF_Length = n`
(then `n >= 3`), `SHDLC_ReadFromSerial` passes the checksum test (and goes on to return
the status byte) when `_Receive_BUF[n-1]` is the complement of the low byte of the sum of
`_Receive_BUF[1..n-2]`, and returns `ERR_PROTOCOL` when `_Receive_BUF[n-1]` differs from
that value in exactly one bit, for each of the 8 bit positions `k`. -/
theorem SHDLC_ReadFromSerial_checksum (s : State) (startTime : Nat) (polls : List Poll)
    (s2 : State)
    (hrd : SHDLC_SerialToBuffer (SHDLC_SendToSerial s).2 startTime polls = .returned ERR_OK s2) :
    3 ≤ s2._Receive_BUF_Length ∧
    (s2._Receive_BUF.getD (s2._Receive_BUF_Length - 1) 0
        = 255 - ((s2._Receive_BUF.drop 1).take (s2._Receive_BUF_Length - 2)).sum % 256 →
      SHDLC_ReadFromSerial s startTime polls = .returned (s2._Receive_BUF.getD 3 0) s2) ∧
    (∀ k, k < 8 →
      s2._Receive_BUF.getD (s2._Receive_BUF_Length - 1) 0
        = (255 - ((s2._Receive_BUF.drop 1).take (s2._Receive_BUF_Length - 2)).sum % 256)
            ^^^ 2 ^ k →
      SHDLC_ReadFromSerial s startTime polls = .returned ERR_PROTOCOL s2) := by
  have hcrc : SHDLC_calc_CRC s2._Receive_BUF 1 (s2._Receive_BUF_Length - 2)
      = 255 - ((s2._Receive_BUF.drop 1).take (s2._Receive_BUF_Length - 2)).sum % 256 := by
    rw [SHDLC_calc_CRC_eq]; simp
  refine ⟨?_, ?_, ?_⟩
  · rcases serialLoop_returned startTime polls 0 false _ _ _ hrd with h | h | h
    · cases h
    · cases h
    · exact h.2.1
  · intro hgood
    simp only [SHDLC_ReadFromSerial, hrd, hcrc, hgood, ne_eq, not_true_eq_false, ite_false]
  · intro k _ hbad
    have hne := xor_pow_ne
      (255 - ((s2._Receive_BUF.drop 1).take (s2._Receive_BUF_Length - 2)).sum % 256) k
    simp only [SHDLC_ReadFromSerial, hrd, hcrc, hbad, ne_eq, hne, not_true_eq_false,
      not_false_eq_true, ite_false, ite_true]

theorem SHDLC_ReadFromSerial_checksum_witness :
    (SHDLC_SerialToBuffer (SHDLC_SendToSerial State.init).2 0
        (pollsOf 0 [0x7E, 0x00, 0x03, 0x00, 0x02, 0x12, 0x34, 0xB4, 0x7E])
      = .returned ERR_OK (frameRead 0xB4) ∧
     SHDLC_ReadFromSerial State.init 0
        (pollsOf 0 [0x7E, 0x00, 0x03, 0x00, 0x02, 0x12, 0x34, 0xB4, 0x7E])
      = .returned ERR_OK (frameRead 0xB4)) ∧
    (SHDLC_SerialToBuffer (SHDLC_SendToSerial State.init).2 0
        (pollsOf 0 [0x7E, 0x00, 0x03, 0x00, 0x02, 0x12, 0x34, 0xB4 ^^^ 2 ^ 6, 0x7E])
      = .returned ERR_OK (frameRead (0xB4 ^^^ 2 ^ 6)) ∧
     SHDLC_ReadFromSerial State.init 0
        (pollsOf 0 [0x7E, 0x00, 0x03, 0x00, 0x02, 0x12, 0x34, 0xB4 ^^^ 2 ^ 6, 0x7E])
      = .returned ERR_PROTOCOL (frameRead (0xB4 ^^^ 2 ^ 6))) :=
  ⟨⟨by decide,
    (SHDLC_ReadFromSerial_checksum State.init 0
      (pollsOf 0 [0x7E, 0x00, 0x03, 0x00, 0x02, 0x12, 0x34, 0xB4, 0x7E]) (frameRead 0xB4)
      (by decide)).2.1 (by decide)⟩,
   ⟨by decide,
    (SHDLC_ReadFromSerial_checksum State.init 0
      (pollsOf 0 [0x7E, 0x00, 0x03, 0x00, 0x02, 0x12, 0x34, 0xB4 ^^^ 2 ^ 6, 0x7E])
      (frameRead (0xB4 ^^^ 2 ^ 6)) (by decide)).2.2 6 (by decide) (by decide)⟩⟩

/-- C6: the result code of a frame that passes the header, length and checksum tests is
the whole status byte `_Receive_BUF[3]`, bit 7 included, and not its low 7 bits: on the
response `7E 00 00 83 00 7C 7E` (status `0x83`, checksum right) `SHDLC_ReadFromSerial`
returns `0x83`, while `0x83 AND 0x7F` is `0x03`. -/
theorem SHDLC_ReadFromSerial_status_unmasked :
    (SHDLC_SerialToBuffer State.init 0
        (pollsOf 0 [0x7E, 0x00, 0x00, 0x83, 0x00, 0x7C, 0x7E])).code = some ERR_OK ∧
    (SHDLC_ReadFromSerial State.init 0
        (pollsOf 0 [0x7E, 0x00, 0x00, 0x83, 0x00, 0x7C, 0x7E])).code = some 0x83 ∧
    (SHDLC_ReadFromSerial State.init 0
        (pollsOf 0 [0x7E, 0x00, 0x00, 0x83, 0x00, 0x7C, 0x7E])).state._Receive_BUF.getD 3 0
      &&& 0x7F = 0x03 := by
  decide

/-- C7: an escape value that is none of `0x31`, `0x33`, `0x5D`, `0x5E` does not make the
read fail: on `7E 00 00 7D 42 00 FF 7E` (`0x7D` followed by `0x42`)
`SHDLC_ByteUnStuff` gives 0, `SHDLC_SerialToBuffer` stores that 0 as a body byte and
returns `ERR_OK`, and `SHDLC_ReadFromSerial` returns `ERR_OK` too. -/
theorem SHDLC_SerialToBuffer_bad_escape_accepted :
    SHDLC_ByteUnStuff 0x42 = 0 ∧
    (SHDLC_SerialToBuffer State.init 0
        (pollsOf 0 [0x7E, 0x00, 0x00, 0x7D, 0x42, 0x00, 0xFF, 0x7E])).code = some ERR_OK ∧
    (SHDLC_SerialToBuffer State.init 0
        (pollsOf 0 [0x7E, 0x00, 0x00, 0x7D, 0x42, 0x00, 0xFF, 0x7E])).state._Receive_BUF.take 7
      = [0x7E, 0x00, 0x00, 0x00, 0x00, 0xFF, 0x7E] ∧
    (SHDLC_ReadFromSerial State.init 0
        (pollsOf 0 [0x7E, 0x00, 0x00, 0x7D, 0x42, 0x00, 0xFF, 0x7E])).code = some ERR_OK := by
  decide

/-- C8, as stated, fails: the frame `7E 00 FF 7E` has a body of two bytes (fewer than
3), yet `SHDLC_SerialToBuffer` returns `ERR_OK` with `_Receive_BUF_Length = 3`, and
`SHDLC_ReadFromSerial` returns `_Receive_BUF[3]`, the closing `0x7E`, which is not
`ERR_PROTOCOL`. -/
theorem SHDLC_short_frame_two_bytes_accepted :
    ([0x00, 0xFF] : List Nat).length < 3 ∧
    (SHDLC_SerialToBuffer State.init 0
        (pollsOf 0 (SHDLC_IND :: (stuffAll [0x00, 0xFF] ++ [SHDLC_IND])))).code = some ERR_OK ∧
    (SHDLC_SerialToBuffer State.init 0
        (pollsOf 0 (SHDLC_IND :: (stuffAll [0x00, 0xFF] ++ [SHDLC_IND])))).state._Receive_BUF_Length
      = 3 ∧
    (SHDLC_ReadFromSerial State.init 0
        (pollsOf 0 (SHDLC_IND :: (stuffAll [0x00, 0xFF] ++ [SHDLC_IND])))).code
      = some 0x7E ∧
    (0x7E : Nat) ≠ ERR_PROTOCOL := by
  decide

/-- C8, amended: for every incoming frame whose unstuffed body between the opening and
the closing `0x7E` has fewer than 2 bytes (0 or 1 byte), the stream read
(`SHDLC_SerialToBuffer`, and hence `SHDLC_ReadFromSerial`) fails with `ERR_PROTOCOL`. -/
theorem SHDLC_short_frame_rejected (s : State) (startTime : Nat) (B : List Nat)
    (polls : List Poll)
    (hbuf : s._Receive_BUF.length = MAXRECVBUFLENGTH)
    (hshort : B.length < 2) (hbytes : ∀ b ∈ B, b < 256)
    (hrx : polls.filterMap Poll.rx = SHDLC_IND :: (stuffAll B ++ [SHDLC_IND]))
    (htime : ∀ p ∈ polls, elapsed startTime p.now ≤ TIME_OUT) :
    (SHDLC_SerialToBuffer s startTime polls).code = some ERR_PROTOCOL ∧
    (SHDLC_ReadFromSerial s startTime polls).code = some ERR_PROTOCOL := by
  have key : ∀ s0 : State, s0._Receive_BUF.length = MAXRECVBUFLENGTH →
      ∃ s1, SHDLC_SerialToBuffer s0 startTime polls = .returned ERR_PROTOCOL s1 := by
    intro s0 h0
    obtain ⟨s1, h1, _⟩ := feed_frame s0 B [] h0 (by omega) hbytes
    refine ⟨s1, ?_⟩
    rw [SerialToBuffer_eq_feed s0 startTime polls htime, hrx, h1]
    have : B.length + 1 < 3 := by omega
    simp [this]
  constructor
  · obtain ⟨s1, h1⟩ := key s hbuf
    rw [h1]; rfl
  · obtain ⟨s1, h1⟩ := key (SHDLC_SendToSerial s).2 (by rw [SendToSerial_recv]; exact hbuf)
    simp only [SHDLC_ReadFromSerial, h1]
    rfl

theorem SHDLC_short_frame_rejected_witness :
    State.init._Receive_BUF.length = MAXRECVBUFLENGTH ∧
    (SHDLC_SerialToBuffer State.init 0 (pollsOf 0 [0x7E, 0x7D, 0x5E, 0x7E])).code
      = some ERR_PROTOCOL ∧
    (SHDLC_ReadFromSerial State.init 0 (pollsOf 0 [0x7E, 0x7D, 0x5E, 0x7E])).code
      = some ERR_PROTOCOL :=
  ⟨by decide,
    SHDLC_short_frame_rejected State.init 0 [0x7E] (pollsOf 0 [0x7E, 0x7D, 0x5E, 0x7E])
      (by decide) (by decide) (by decide) (by decide) (by decide)⟩

/-- C9: when the first byte the stream has available (read inside the time-out window,
after any number of turns without a byte) is not `0x7E`, `SHDLC_SerialToBuffer` returns
`ERR_PROTOCOL` at the turn that reads it, with that byte in `_Receive_BUF[0]`, whatever
follows, and `SHDLC_ReadFromSerial` returns `ERR_PROTOCOL`. -/
theorem SHDLC_SerialToBuffer_bad_first_byte (s : State) (startTime : Nat) (idle : List Poll)
    (t b : Nat) (rest : List Poll)
    (hbuf : s._Receive_BUF.length = MAXRECVBUFLENGTH)
    (hidle : ∀ q ∈ idle, q.rx = none ∧ elapsed startTime q.now ≤ TIME_OUT)
    (ht : elapsed startTime t ≤ TIME_OUT)
    (hb : b < 256) (hne : b ≠ SHDLC_IND) :
    SHDLC_SerialToBuffer s startTime (idle ++ { now := t, rx := some b } :: rest)
      = .returned ERR_PROTOCOL { s with _Receive_BUF := s._Receive_BUF.set 0 b } ∧
    SHDLC_ReadFromSerial s startTime (idle ++ { now := t, rx := some b } :: rest)
      = .returned ERR_PROTOCOL
          { (SHDLC_SendToSerial s).2 with _Receive_BUF := s._Receive_BUF.set 0 b } := by
  have key : ∀ s0 : State, s0._Receive_BUF.length = MAXRECVBUFLENGTH →
      SHDLC_SerialToBuffer s0 startTime (idle ++ { now := t, rx := some b } :: rest)
        = .returned ERR_PROTOCOL { s0 with _Receive_BUF := s0._Receive_BUF.set 0 b } := by
    intro s0 h0
    have hnot : ¬ elapsed startTime t > TIME_OUT := by omega
    have h1 := rxByte_bad_header s0 false b (by rw [h0]; decide) hb hne
    unfold SHDLC_SerialToBuffer
    rw [serialLoop_idle startTime idle _ 0 false s0 hidle]
    simp only [serialLoop, hnot, if_false, h1]
  constructor
  · exact key s hbuf
  · have h2 := key (SHDLC_SendToSerial s).2 (by rw [SendToSerial_recv]; exact hbuf)
    simp only [SHDLC_ReadFromSerial, h2, SendToSerial_recv]
    rfl

theorem SHDLC_SerialToBuffer_bad_first_byte_witness :
    State.init._Receive_BUF.length = MAXRECVBUFLENGTH ∧
    (∀ q ∈ [({ now := 10, rx := none } : Poll), { now := 20, rx := none }],
      q.rx = none ∧ elapsed 7 q.now ≤ TIME_OUT) ∧
    elapsed 7 30 ≤ TIME_OUT ∧
    SHDLC_SerialToBuffer State.init 7
        [{ now := 10, rx := none }, { now := 20, rx := none }, { now := 30, rx := some 0x55 },
         { now := 40, rx := some 0x7E }, { now := 9000, rx := none }]
      = .returned ERR_PROTOCOL
          { State.init with _Receive_BUF := State.init._Receive_BUF.set 0 0x55 } ∧
    SHDLC_ReadFromSerial State.init 7
        [{ now := 10, rx := none }, { now := 20, rx := none }, { now := 30, rx := some 0x55 },
         { now := 40, rx := some 0x7E }, { now := 9000, rx := none }]
      = .returned ERR_PROTOCOL
          { (SHDLC_SendToSerial State.init).2 with
            _Receive_BUF := State.init._Receive_BUF.set 0 0x55 } :=
  ⟨by decide, by decide, by decide,
    SHDLC_SerialToBuffer_bad_first_byte State.init 7
      [{ now := 10, rx := none }, { now := 20, rx := none }] 30 0x55
      [{ now := 40, rx := some 0x7E }, { now := 9000, rx := none }]
      (by decide) (by decide) (by decide) (by decide) (by decide)⟩

/-- C10, as stated, fails: with the stream delivering `0x55` and then nothing, and the
clock passing the 5000 ms window afterwards, no terminating delimiter is ever read, yet
the stream read fails with `ERR_PROTOCOL`, not with `ERR_TIMEOUT`. -/
theorem SHDLC_SerialToBuffer_no_delimiter_not_timeout :
    (∀ p ∈ [({ now := 0, rx := some 0x55 } : Poll), { now := 6000, rx := none }],
      p.rx ≠ some SHDLC_IND) ∧
    (∃ p ∈ [({ now := 0, rx := some 0x55 } : Poll), { now := 6000, rx := none }],
      elapsed 0 p.now > TIME_OUT) ∧
    (SHDLC_SerialToBuffer State.init 0
      [{ now := 0, rx := some 0x55 }, { now := 6000, rx := none }]).code = some ERR_PROTOCOL ∧
    (SHDLC_ReadFromSerial State.init 0
      [{ now := 0, rx := some 0x55 }, { now := 6000, rx := none }]).code = some ERR_PROTOCOL ∧
    ERR_PROTOCOL ≠ ERR_TIMEOUT := by
  decide

/-- C10, amended: for every incoming byte stream and clock behaviour in which the clock
passes the `TIME_OUT` window (at poll `p` more than 5000 ms have elapsed), the stream
read does not loop forever: if it is still in its loop when that poll comes (no closing
delimiter, no wrong first byte, no full buffer before), it returns `ERR_TIMEOUT` there,
and `SHDLC_ReadFromSerial` returns `ERR_TIMEOUT` too; in every case the read is over by
that poll, a returned code is `ERR_TIMEOUT`, `ERR_PROTOCOL`, or `ERR_OK` with the closing
`0x7E` read at index `_Receive_BUF_Length >= 3`, and the only other way out is a store
at an index outside `_Receive_BUF`. -/
theorem SHDLC_SerialToBuffer_timeout (s : State) (startTime : Nat) (pre : List Poll)
    (p : Poll) (rest : List Poll) (hp : elapsed startTime p.now > TIME_OUT) :
    (∀ i byte_stuff s1,
      SHDLC_SerialToBuffer s startTime pre = .running i byte_stuff s1 →
      SHDLC_SerialToBuffer s startTime (pre ++ p :: rest) = .returned ERR_TIMEOUT s1) ∧
    (∀ i byte_stuff s1,
      SHDLC_SerialToBuffer (SHDLC_SendToSerial s).2 startTime pre = .running i byte_stuff s1 →
      SHDLC_ReadFromSerial s startTime (pre ++ p :: rest) = .returned ERR_TIMEOUT s1) ∧
    (∀ i byte_stuff s1,
      SHDLC_SerialToBuffer s startTime (pre ++ p :: rest) ≠ .running i byte_stuff s1) ∧
    (∀ c s1,
      SHDLC_SerialToBuffer s startTime (pre ++ p :: rest) = .returned c s1 →
      c = ERR_TIMEOUT ∨ c = ERR_PROTOCOL ∨
      (c = ERR_OK ∧ 3 ≤ s1._Receive_BUF_Length ∧
        s1._Receive_BUF.getD s1._Receive_BUF_Length 0 = SHDLC_IND)) := by
  refine ⟨?_, ?_, ?_, ?_⟩
  · intro i bs s1 h
    unfold SHDLC_SerialToBuffer at h ⊢
    rw [serialLoop_timeout startTime pre p rest 0 false s hp, h]
  · intro i bs s1 h
    unfold SHDLC_SerialToBuffer at h
    simp only [SHDLC_ReadFromSerial, SHDLC_SerialToBuffer]
    rw [serialLoop_timeout startTime pre p rest 0 false _ hp, h]
    rfl
  · intro i bs s1 h
    unfold SHDLC_SerialToBuffer at h
    rw [serialLoop_timeout startTime pre p rest 0 false s hp] at h
    cases hpre : serialLoop startTime pre 0 false s with
    | returned c s2 => rw [hpre] at h; cases h
    | overrun j s2 => rw [hpre] at h; cases h
    | running i1 bs1 s2 => rw [hpre] at h; cases h
  · intro c s1 h
    exact serialLoop_returned startTime _ 0 false s c s1 h

theorem SHDLC_SerialToBuffer_timeout_witness :
    elapsed 4294967000 4800 > TIME_OUT ∧
    SHDLC_SerialToBuffer State.init 4294967000
        [{ now := 4294967100, rx := some 0x7E }, { now := 4294967200, rx := some 0x00 },
         { now := 100, rx := none }]
      = .running 2 false
          { State.init with
            _Receive_BUF := (State.init._Receive_BUF.set 0 0x7E).set 1 0x00 } ∧
    SHDLC_SerialToBuffer State.init 4294967000
        ([{ now := 4294967100, rx := some 0x7E }, { now := 4294967200, rx := some 0x00 },
          { now := 100, rx := none }]
          ++ { now := 4800, rx := some 0x7E } :: [{ now := 4900, rx := some 0x7E }])
      = .returned ERR_TIMEOUT
          { State.init with
            _Receive_BUF := (State.init._Receive_BUF.set 0 0x7E).set 1 0x00 } :=
  ⟨by decide, by decide,
    (SHDLC_SerialToBuffer_timeout State.init 4294967000
      [{ now := 4294967100, rx := some 0x7E }, { now := 4294967200, rx := some 0x00 },
       { now := 100, rx := none }]
      { now := 4800, rx := some 0x7E } [{ now := 4900, rx := some 0x7E }] (by decide)).1
      2 false _ (by decide)⟩

/-- C11: when the stream delivers exactly the six bytes `7E 00 00 00 FF 7E`, every
poll falling inside the time-out window, `SHDLC_ReadFromSerial` returns `ERR_OK`
(status byte 0), with `_Receive_BUF_Length = 5`, the frame unchanged in `_Receive_BUF`,
and the checksum test passing: `_Receive_BUF[4]` is `SHDLC_calc_CRC` of bytes 1..3. -/
theorem SHDLC_ReadFromSerial_zero_length_frame (s : State) (startTime : Nat)
    (polls : List Poll)
    (hbuf : s._Receive_BUF.length = MAXRECVBUFLENGTH)
    (hrx : polls.filterMap Poll.rx = [0x7E, 0x00, 0x00, 0x00, 0xFF, 0x7E])
    (htime : ∀ p ∈ polls, elapsed startTime p.now ≤ TIME_OUT) :
    ∃ s1 : State,
      SHDLC_ReadFromSerial s startTime polls = .returned ERR_OK s1 ∧
      s1._Receive_BUF_Length = 5 ∧
      s1._Receive_BUF.take 6 = [0x7E, 0x00, 0x00, 0x00, 0xFF, 0x7E] ∧
      s1._Receive_BUF.getD (s1._Receive_BUF_Length - 1) 0
        = SHDLC_calc_CRC s1._Receive_BUF 1 (s1._Receive_BUF_Length - 2) := by
  obtain ⟨s1, h1, h2, h3, h4, h5, _⟩ :=
    feed_frame (SHDLC_SendToSerial s).2 [0x00, 0x00, 0x00, 0xFF] []
      (by rw [SendToSerial_recv]; exact hbuf) (by decide) (by decide)
  have h2 : s1._Receive_BUF.take 5 = [0x7E, 0x00, 0x00, 0x00, 0xFF] := h2
  have h3 : s1._Receive_BUF.getD 5 0 = SHDLC_IND := h3
  have h5 : s1._Receive_BUF_Length = 5 := h5
  have hw : SHDLC_IND :: (stuffAll [0x00, 0x00, 0x00, 0xFF] ++ [SHDLC_IND])
      = [0x7E, 0x00, 0x00, 0x00, 0xFF, 0x7E] := by decide
  have hst : SHDLC_SerialToBuffer (SHDLC_SendToSerial s).2 startTime polls
      = .returned ERR_OK s1 := by
    rw [SerialToBuffer_eq_feed _ startTime polls htime, hrx, ← hw, h1]
    rfl
  have hsplit : s1._Receive_BUF
      = [0x7E, 0x00, 0x00, 0x00, 0xFF] ++ s1._Receive_BUF.drop 5 := by
    have := (List.take_append_drop 5 s1._Receive_BUF).symm
    rw [h2] at this
    exact this
  have h6 : s1._Receive_BUF.take 6 = [0x7E, 0x00, 0x00, 0x00, 0xFF, 0x7E] := by
    have hl : 5 < s1._Receive_BUF.length := by rw [h4]; decide
    rw [List.take_succ, h2]
    have : s1._Receive_BUF[5]? = some SHDLC_IND := by
      have h3' := h3
      simp only [List.getD_eq_getElem?_getD] at h3'
      rw [List.getElem?_eq_getElem hl] at h3' ⊢
      simpa using h3'
    rw [this]
    rfl
  have hcrc : SHDLC_calc_CRC s1._Receive_BUF 1 (5 - 2) = 0xFF := by
    rw [SHDLC_calc_CRC_eq, hsplit]
    simp
  have hg4 : s1._Receive_BUF.getD (5 - 1) 0 = 0xFF := by
    rw [hsplit]; simp
  have hg3 : s1._Receive_BUF.getD 3 0 = ERR_OK := by
    rw [hsplit]; simp
  have h5' : s1._Receive_BUF_Length = 5 := h5
  refine ⟨s1, ?_, h5', h6, ?_⟩
  · simp only [SHDLC_ReadFromSerial, hst, h5', hcrc, hg4, hg3, ne_eq, not_true_eq_false,
      ite_false]
  · rw [h5', hcrc, hg4]

theorem SHDLC_ReadFromSerial_zero_length_frame_witness :
    State.init._Receive_BUF.length = MAXRECVBUFLENGTH ∧
    ∃ s1 : State,
      SHDLC_ReadFromSerial State.init 0
          [{ now := 3, rx := some 0x7E }, { now := 4, rx := some 0x00 },
           { now := 5, rx := none }, { now := 6, rx := some 0x00 },
           { now := 7, rx := some 0x00 }, { now := 8, rx := some 0xFF },
           { now := 9, rx := some 0x7E }]
        = .returned ERR_OK s1 ∧
      s1._Receive_BUF_Length = 5 ∧
      s1._Receive_BUF.take 6 = [0x7E, 0x00, 0x00, 0x00, 0xFF, 0x7E] ∧
      s1._Receive_BUF.getD (s1._Receive_BUF_Length - 1) 0
        = SHDLC_calc_CRC s1._Receive_BUF 1 (s1._Receive_BUF_Length - 2) :=
  ⟨by decide,
    SHDLC_ReadFromSerial_zero_length_frame State.init 0
      [{ now := 3, rx := some 0x7E }, { now := 4, rx := some 0x00 },
       { now := 5, rx := none }, { now := 6, rx := some 0x00 },
       { now := 7, rx := some 0x00 }, { now := 8, rx := some 0xFF },
       { now := 9, rx := some 0x7E }]
      (by decide) (by decide) (by decide)⟩

/-- C12: for every byte `b` and every offset `off` inside `_Send_BUF`,
`SHDLC_ByteStuff(b, off)` stores the single byte `b` at `_Send_BUF[off]` and returns
`off + 1` when `b` is not one of `0x11`, `0x13`, `0x7D`, `0x7E`, and stores `0x7D` at
`off` and `b XOR 0x20` at `off + 1` and returns `off + 2` when `b` is one of those four
values; no other cell changes. -/
theorem SHDLC_ByteStuff_stores (buf : List Nat) (b off : Nat) (hb : b < 256) :
    (b ≠ 0x11 → b ≠ 0x13 → b ≠ 0x7D → b ≠ 0x7E → off < buf.length →
      SHDLC_ByteStuff buf b off = some (buf.set off b, off + 1)) ∧
    (b = 0x11 ∨ b = 0x13 ∨ b = 0x7D ∨ b = 0x7E → off + 1 < buf.length →
      SHDLC_ByteStuff buf b off
        = some ((buf.set off 0x7D).set (off + 1) (b ^^^ 0x20), off + 2)) := by
  have hmod : b % 256 = b := Nat.mod_eq_of_lt hb
  constructor
  · intro h1 h2 h3 h4 hoff
    have hc : stuffCode b = 0 := by simp [stuffCode, h1, h2, h3, h4]
    simp [SHDLC_ByteStuff, hc, store, hoff, hmod]
  · intro h hoff
    have hoff0 : off < buf.length := by omega
    rcases h with rfl | rfl | rfl | rfl <;>
      simp [SHDLC_ByteStuff, stuffCode, store, hoff, hoff0]

theorem SHDLC_ByteStuff_stores_witness :
    (0x42 < 256 ∧ 0x7E < 256) ∧
    SHDLC_ByteStuff [0x7E, 0x00, 0x03, 0x00, 0, 0, 0, 0] 0x42 4
      = some ([0x7E, 0x00, 0x03, 0x00, 0x42, 0, 0, 0], 5) ∧
    SHDLC_ByteStuff [0x7E, 0x00, 0x03, 0x00, 0, 0, 0, 0] 0x7E 4
      = some ([0x7E, 0x00, 0x03, 0x00, 0x7D, 0x5E, 0, 0], 6) :=
  ⟨by decide,
    (SHDLC_ByteStuff_stores [0x7E, 0x00, 0x03, 0x00, 0, 0, 0, 0] 0x42 4 (by decide)).1
      (by decide) (by decide) (by decide) (by decide) (by decide),
    (SHDLC_ByteStuff_stores [0x7E, 0x00, 0x03, 0x00, 0, 0, 0, 0] 0x7E 4 (by decide)).2
      (by decide) (by decide)⟩

/-- C13: stuff/unstuff round trip on the reserved values. For each `b` of `0x11`,
`0x13`, `0x7D`, `0x7E`, `SHDLC_ByteStuff` emits `0x7D` followed by an escape code, and
`SHDLC_ByteUnStuff` of that code is `b`; for each escape code `e` of `0x31`, `0x33`,
`0x5D`, `0x5E`, `SHDLC_ByteStuff` of `SHDLC_ByteUnStuff(e)` emits `0x7D` followed by
`e`. -/
theorem SHDLC_stuff_unstuff_round_trip :
    ((stuffedBytes 0x11 = [0x7D, (stuffedBytes 0x11).getD 1 0] ∧
        SHDLC_ByteUnStuff ((stuffedBytes 0x11).getD 1 0) = 0x11) ∧
     (stuffedBytes 0x13 = [0x7D, (stuffedBytes 0x13).getD 1 0] ∧
        SHDLC_ByteUnStuff ((stuffedBytes 0x13).getD 1 0) = 0x13) ∧
     (stuffedBytes 0x7D = [0x7D, (stuffedBytes 0x7D).getD 1 0] ∧
        SHDLC_ByteUnStuff ((stuffedBytes 0x7D).getD 1 0) = 0x7D) ∧
     (stuffedBytes 0x7E = [0x7D, (stuffedBytes 0x7E).getD 1 0] ∧
        SHDLC_ByteUnStuff ((stuffedBytes 0x7E).getD 1 0) = 0x7E)) ∧
    (stuffedBytes (SHDLC_ByteUnStuff 0x31) = [0x7D, 0x31] ∧
     stuffedBytes (SHDLC_ByteUnStuff 0x33) = [0x7D, 0x33] ∧
     stuffedBytes (SHDLC_ByteUnStuff 0x5D) = [0x7D, 0x5D] ∧
     stuffedBytes (SHDLC_ByteUnStuff 0x5E) = [0x7D, 0x5E]) := by
  refine ⟨⟨⟨?_, ?_⟩, ⟨?_, ?_⟩, ⟨?_, ?_⟩, ⟨?_, ?_⟩⟩, ?_, ?_, ?_, ?_⟩ <;> decide

/-- C14: register-bus encoding. For every 16-bit register address `cmd` and every
payload of even length `len` (`0 <= len <= 12`), given as its pairs,
`I2C_fill_buffer(cmd, len, param)` leaves `_Send_BUF` holding `cmd`'s high byte, `cmd`'s
low byte, and then, for each consecutive payload pair `(p0, p1)` in order, the three
bytes `p0`, `p1`, `I2C_calc_CRC(p0, p1)`; `_Send_BUF_Length` is `2 + 3 * len / 2`. -/
theorem I2C_fill_buffer_layout (s : State) (cmd : Nat) (pairs : List (Nat × Nat))
    (hbuf : s._Send_BUF.length = SENDBUFLENGTH) (hcmd : cmd < 65536)
    (hlen : 2 * pairs.length ≤ 12) (hbytes : ∀ g ∈ pairs, g.1 < 256 ∧ g.2 < 256) :
    ∃ s1 : State,
      I2C_fill_buffer s cmd (2 * pairs.length) (pairBytes pairs) = some s1 ∧
      s1._Send_BUF.take s1._Send_BUF_Length = [cmd / 256, cmd % 256] ++ wireGroups pairs ∧
      s1._Send_BUF_Length = 2 + 3 * (2 * pairs.length) / 2 := by
  simp only [SENDBUFLENGTH] at hbuf
  have hhi : (cmd >>> 8 &&& 0xff) % 256 = cmd / 256 := by
    have h1 : cmd >>> 8 &&& 0xff = cmd >>> 8 % 256 := Nat.and_pow_two_sub_one_eq_mod _ 8
    rw [h1, Nat.shiftRight_eq_div_pow]
    omega
  have hlo : (cmd &&& 0xff) % 256 = cmd % 256 := by
    have h1 : cmd &&& 0xff = cmd % 256 := Nat.and_pow_two_sub_one_eq_mod _ 8
    rw [h1]
    omega
  have h0 : 0 < s._Send_BUF.length := by omega
  have h1 : 1 < s._Send_BUF.length := by omega
  obtain ⟨_, q2, _⟩ := set_pair s._Send_BUF 0 (cmd / 256) (cmd % 256) h1
  simp only [Nat.zero_add, List.take_zero, List.nil_append] at q2
  have hlen3 : 3 * (2 * pairs.length) / 2 = 3 * pairs.length := by omega
  by_cases hz : 2 * pairs.length = 0
  · have hnil : pairs = [] := by
      cases pairs with
      | nil => rfl
      | cons g gs => simp at hz
    subst hnil
    refine ⟨{ s with
              _Send_BUF := (s._Send_BUF.set 0 (cmd / 256)).set 1 (cmd % 256)
              _Send_BUF_Length := 2
              _RespDelay :=
                if cmd = SVM40_I2C_STORE_NVRAM then 750
                else if cmd = SVM40_I2C_RESET then 200
                else RX_DELAY_MS }, ?_, ?_, ?_⟩
    · simp only [I2C_fill_buffer, store, h0, List.length_set, h1, if_true, hhi, hlo,
        List.length_nil, Nat.mul_zero, ne_eq, not_true_eq_false, if_false,
        Option.bind_eq_bind, Option.some_bind, Option.pure_def]
    · simpa [wireGroups] using q2
    · rfl
  · obtain ⟨buf1, e1, _, e3⟩ :=
      i2cCopy_pairs (pairBytes pairs) (2 * pairs.length) pairs []
        ((s._Send_BUF.set 0 (cmd / 256)).set 1 (cmd % 256)) 2 (by simp) (by simp)
        (by simp only [List.length_set]; omega) hbytes
    simp only [List.length_nil] at e1
    rw [q2] at e3
    refine ⟨{ s with
              _Send_BUF := buf1
              _Send_BUF_Length := 2 + 3 * pairs.length
              _RespDelay :=
                if cmd = SVM40_I2C_STORE_NVRAM then 750
                else if cmd = SVM40_I2C_RESET then 200
                else RX_DELAY_MS }, ?_, ?_, ?_⟩
    · simp only [I2C_fill_buffer, store, h0, List.length_set, h1, if_true, hhi, hlo, ne_eq,
        hz, not_false_eq_true, e1, Option.bind_eq_bind, Option.some_bind, Option.pure_def]
    · exact e3
    · simp only []; omega

theorem I2C_fill_buffer_layout_witness :
    (State.init._Send_BUF.length = SENDBUFLENGTH ∧ 0x6083 < 65536 ∧
      2 * [((0x00 : Nat), (0x64 : Nat)), (0xBE, 0xEF)].length ≤ 12) ∧
    ∃ s1 : State,
      I2C_fill_buffer State.init 0x6083 4 [0x00, 0x64, 0xBE, 0xEF] = some s1 ∧
      s1._Send_BUF.take s1._Send_BUF_Length
        = [0x60, 0x83, 0x00, 0x64, 0xFE, 0xBE, 0xEF, 0x92] ∧
      s1._Send_BUF_Length = 8 :=
  ⟨by decide,
    I2C_fill_buffer_layout State.init 0x6083 [(0x00, 0x64), (0xBE, 0xEF)]
      (by decide) (by decide) (by decide) (by decide)⟩

/-- C15: register-bus read, success case. For every even `count` with
`2 <= count <= 50` and `chk_zero = false`, if the bus delivers exactly `count/2`
three-byte groups each of the form `d0, d1, I2C_calc_CRC(d0, d1)`, then
`I2C_ReadFromSVM` requests `count/2*3` raw bytes, returns `ERR_OK`, sets
`_Receive_BUF_Length = count`, leaves the data pairs in arrival order, CRC bytes removed,
in `_Receive_BUF[0..count-1]`, and has read the bus empty. -/
theorem I2C_ReadFromSVM_success (s : State) (count : Nat) (groups : List (Nat × Nat))
    (hbuf : s._Receive_BUF.length = MAXRECVBUFLENGTH)
    (hcount : count = 2 * groups.length) (h2 : 2 ≤ count) (h50 : count ≤ 50)
    (hbytes : ∀ g ∈ groups, g.1 < 256 ∧ g.2 < 256) :
    ∃ s1 : State,
      I2C_ReadFromSVM s count false (wireGroups groups)
        = .returned ERR_OK s1 (count / 2 * 3) [] ∧
      s1._Receive_BUF_Length = count ∧
      s1._Receive_BUF.take count = pairBytes groups := by
  simp only [MAXRECVBUFLENGTH] at hbuf
  rcases List.eq_nil_or_concat groups with h | ⟨gs, g, h⟩
  · subst h; simp at hcount; omega
  rw [List.concat_eq_append] at h
  subst h
  obtain ⟨d0, d1⟩ := g
  simp only [List.length_append, List.length_singleton] at hcount
  have hg := hbytes (d0, d1) (by simp)
  have hreq : count / 2 * 3 % 256 = count / 2 * 3 := Nat.mod_eq_of_lt (by omega)
  obtain ⟨s1, e1, e2, e3, e4, _⟩ :=
    readLoop_groups count (count / 2 * 3) false gs { s with _Receive_BUF_Length := 0 }
      (wireGroups [(d0, d1)]) (fun g hg => hbytes g (by simp [hg]))
      (by simp only [hbuf]; omega) (by simp only []; omega) (by simp)
  simp only [Nat.zero_add, List.take_zero, List.nil_append] at e2 e3 e4
  have step := readLoop_group count (count / 2 * 3) false d0 d1 [] s1 hg.1 hg.2
    (by rw [e2, e3, hbuf]; omega)
  have hge : s1._Receive_BUF_Length + 2 ≥ count := by omega
  rw [if_neg (by simp), if_pos hge, readFinish_nil] at step
  simp only [] at step
  rw [if_neg (by omega), if_pos (by omega)] at step
  obtain ⟨p1, p2, _⟩ := set_pair s1._Receive_BUF s1._Receive_BUF_Length d0 d1
    (by rw [e2, e3, hbuf]; omega)
  refine ⟨{ s1 with
            _Receive_BUF := (s1._Receive_BUF.set s1._Receive_BUF_Length d0).set
              (s1._Receive_BUF_Length + 1) d1
            _Receive_BUF_Length := s1._Receive_BUF_Length + 2 }, ?_, ?_, ?_⟩
  · unfold I2C_ReadFromSVM
    rw [hreq, wireGroups_append, e1]
    exact step
  · simp only []; omega
  · simp only []
    have : count = s1._Receive_BUF_Length + 2 := by omega
    rw [this, p2, e4, pairBytes_append]
    rfl

theorem I2C_ReadFromSVM_success_witness :
    (State.init._Receive_BUF.length = MAXRECVBUFLENGTH ∧
      4 = 2 * [((0x12 : Nat), (0x34 : Nat)), (0xBE, 0xEF)].length) ∧
    ∃ s1 : State,
      I2C_ReadFromSVM State.init 4 false [0x12, 0x34, 0x37, 0xBE, 0xEF, 0x92]
        = .returned ERR_OK s1 (4 / 2 * 3) [] ∧
      s1._Receive_BUF_Length = 4 ∧
      s1._Receive_BUF.take 4 = [0x12, 0x34, 0xBE, 0xEF] :=
  ⟨by decide,
    I2C_ReadFromSVM_success State.init 4 [(0x12, 0x34), (0xBE, 0xEF)]
      (by decide) (by decide) (by decide) (by decide) (by decide)⟩

/-- C16: a data byte can be accepted without a CRC check. With `count = 4`,
`chk_zero = false` and the bus delivering the valid group `12 34 37` followed by the two
further bytes `AA BB`, the loop ends with two bytes of an unfinished group, the code
copies them behind the accepted pair, finds `_Receive_BUF_Length = count`, and
`I2C_ReadFromSVM` returns `ERR_OK` with payload `12 34 AA BB`: the incomplete trailing
group is accepted as payload. -/
theorem I2C_ReadFromSVM_unchecked_tail_accepted :
    I2C_calc_CRC 0x12 0x34 = 0x37 ∧
    (I2C_ReadFromSVM State.init 4 false [0x12, 0x34, 0x37, 0xAA, 0xBB]).code = some ERR_OK ∧
    (I2C_ReadFromSVM State.init 4 false
      [0x12, 0x34, 0x37, 0xAA, 0xBB]).state._Receive_BUF_Length = 4 ∧
    (I2C_ReadFromSVM State.init 4 false
      [0x12, 0x34, 0x37, 0xAA, 0xBB]).state._Receive_BUF.take 4 = [0x12, 0x34, 0xAA, 0xBB] := by
  decide

/-- C17: for every read in which a complete three-byte group `d0, d1, c`, reached after
valid groups that hold fewer than `count` data bytes (none of them a zero pair in
`chk_zero` mode, all of them fitting `_Receive_BUF`), has a CRC byte `c` different from
`I2C_calc_CRC(d0, d1)`, `I2C_ReadFromSVM` returns `ERR_PROTOCOL` at that group: the
bytes behind the group stay queued on the bus, `_Receive_BUF` holds the data of the
groups before it and nothing of this group (the cells from `_Receive_BUF_Length` on are
as they were). -/
theorem I2C_ReadFromSVM_crc_mismatch (s : State) (count : Nat) (chk_zero : Bool)
    (gs : List (Nat × Nat)) (d0 d1 c : Nat) (rest : List Nat)
    (hbuf : s._Receive_BUF.length = MAXRECVBUFLENGTH)
    (hfit : 2 * gs.length ≤ MAXRECVBUFLENGTH)
    (hbefore : 2 * gs.length < count)
    (hzero : chk_zero = true → ∀ g ∈ gs, ¬ (g.1 = 0 ∧ g.2 = 0))
    (hbytes : ∀ g ∈ gs, g.1 < 256 ∧ g.2 < 256)
    (h0 : d0 < 256) (h1 : d1 < 256) (h2 : c < 256) (hbad : c ≠ I2C_calc_CRC d0 d1) :
    ∃ s1 : State,
      I2C_ReadFromSVM s count chk_zero (wireGroups gs ++ d0 :: d1 :: c :: rest)
        = .returned ERR_PROTOCOL s1 (count / 2 * 3 % 256) rest ∧
      s1._Receive_BUF_Length = 2 * gs.length ∧
      s1._Receive_BUF.take (2 * gs.length) = pairBytes gs ∧
      s1._Receive_BUF.drop (2 * gs.length) = s._Receive_BUF.drop (2 * gs.length) := by
  obtain ⟨s1, e1, _, e3, e4, e5⟩ :=
    readLoop_groups count (count / 2 * 3 % 256) chk_zero gs
      { s with _Receive_BUF_Length := 0 } (d0 :: d1 :: c :: rest) hbytes
      (by simp only [hbuf]; omega) (by simp only []; omega) hzero
  simp only [Nat.zero_add, List.take_zero, List.nil_append] at e3 e4 e5
  refine ⟨s1, ?_, e3, ?_, ?_⟩
  · unfold I2C_ReadFromSVM
    rw [e1, readLoop_bad_group count _ chk_zero d0 d1 c rest s1 h0 h1 h2 hbad]
  · rw [← e3]; exact e4
  · rw [← e3]; exact e5

theorem I2C_ReadFromSVM_crc_mismatch_witness :
    (State.init._Receive_BUF.length = MAXRECVBUFLENGTH ∧
      2 * [((0x12 : Nat), (0x34 : Nat))].length < 8 ∧ (0x93 : Nat) ≠ I2C_calc_CRC 0xBE 0xEF) ∧
    ∃ s1 : State,
      I2C_ReadFromSVM State.init 8 true
          ([0x12, 0x34, 0x37] ++ 0xBE :: 0xEF :: 0x93 :: [0x01, 0x02, 0x17])
        = .returned ERR_PROTOCOL s1 (8 / 2 * 3 % 256) [0x01, 0x02, 0x17] ∧
      s1._Receive_BUF_Length = 2 ∧
      s1._Receive_BUF.take 2 = [0x12, 0x34] ∧
      s1._Receive_BUF.drop 2 = State.init._Receive_BUF.drop 2 :=
  ⟨by decide,
    I2C_ReadFromSVM_crc_mismatch State.init 8 true [(0x12, 0x34)] 0xBE 0xEF 0x93
      [0x01, 0x02, 0x17] (by decide) (by decide) (by decide) (by decide) (by decide)
      (by decide) (by decide) (by decide) (by decide)⟩

/-- C18: an under-filled read is a data-length error. For every even `count` (then
`count >= 4`) with `chk_zero = false`, if the bus delivers `k` valid groups with
`1 <= k < count/2` (their data fitting `_Receive_BUF`) and nothing else,
`I2C_ReadFromSVM` returns `ERR_DATALENGTH`, which is not `ERR_PROTOCOL`, with the `2k`
data bytes received. -/
theorem I2C_ReadFromSVM_underfilled (s : State) (count : Nat) (gs : List (Nat × Nat))
    (hbuf : s._Receive_BUF.length = MAXRECVBUFLENGTH)
    (heven : count % 2 = 0) (hk1 : 1 ≤ gs.length) (hk : gs.length < count / 2)
    (hfit : 2 * gs.length ≤ MAXRECVBUFLENGTH)
    (hbytes : ∀ g ∈ gs, g.1 < 256 ∧ g.2 < 256) :
    ∃ s1 : State,
      I2C_ReadFromSVM s count false (wireGroups gs)
        = .returned ERR_DATALENGTH s1 (count / 2 * 3 % 256) [] ∧
      ERR_DATALENGTH ≠ ERR_PROTOCOL ∧
      s1._Receive_BUF_Length = 2 * gs.length ∧
      s1._Receive_BUF.take (2 * gs.length) = pairBytes gs := by
  obtain ⟨s1, e1, _, e3, e4, _⟩ :=
    readLoop_groups count (count / 2 * 3 % 256) false gs
      { s with _Receive_BUF_Length := 0 } [] hbytes
      (by simp only [hbuf]; omega) (by simp only []; omega) (by simp)
  simp only [Nat.zero_add, List.take_zero, List.nil_append, List.append_nil] at e1 e3 e4
  refine ⟨s1, ?_, by decide, e3, ?_⟩
  · unfold I2C_ReadFromSVM
    rw [e1]
    simp only [readLoop]
    rw [readFinish_nil, if_neg (by omega), if_neg (by omega)]
  · rw [← e3]; exact e4

theorem I2C_ReadFromSVM_underfilled_witness :
    (State.init._Receive_BUF.length = MAXRECVBUFLENGTH ∧ 4 % 2 = 0 ∧
      [((0x12 : Nat), (0x34 : Nat))].length < 4 / 2) ∧
    ∃ s1 : State,
      I2C_ReadFromSVM State.init 4 false [0x12, 0x34, 0x37]
        = .returned ERR_DATALENGTH s1 (4 / 2 * 3 % 256) [] ∧
      ERR_DATALENGTH ≠ ERR_PROTOCOL ∧
      s1._Receive_BUF_Length = 2 ∧
      s1._Receive_BUF.take 2 = [0x12, 0x34] :=
  ⟨by decide,
    I2C_ReadFromSVM_underfilled State.init 4 [(0x12, 0x34)]
      (by decide) (by decide) (by decide) (by decide) (by decide) (by decide)⟩

/-- C19: for every `count` and both values of `chk_zero`, if the bus delivers no byte
at all, `I2C_ReadFromSVM` returns `ERR_PROTOCOL` with `_Receive_BUF_Length = 0` (and
`_Receive_BUF` untouched). -/
theorem I2C_ReadFromSVM_nothing_received (s : State) (count : Nat) (chk_zero : Bool) :
    I2C_ReadFromSVM s count chk_zero []
      = .returned ERR_PROTOCOL { s with _Receive_BUF_Length := 0 } (count / 2 * 3 % 256) [] := by
  simp [I2C_ReadFromSVM, readLoop, readFinish, copyLeft]

/-- C20, as stated, fails: with `chk_zero = true` and `count = 24`, on three valid
groups `41 42`, `43 44`, `45 46`, a valid group `00 00` and three further bytes,
`I2C_ReadFromSVM` returns `ERR_OK` and leaves the bus empty, but the zero pair is stored
too: `_Receive_BUF_Length` is 8, not 6. -/
theorem I2C_ReadFromSVM_zero_pair_counted :
    (I2C_ReadFromSVM State.init 24 true
      (wireGroups [(0x41, 0x42), (0x43, 0x44), (0x45, 0x46), (0x00, 0x00)]
        ++ [0x01, 0x02, 0x03])).code = some ERR_OK ∧
    (I2C_ReadFromSVM State.init 24 true
      (wireGroups [(0x41, 0x42), (0x43, 0x44), (0x45, 0x46), (0x00, 0x00)]
        ++ [0x01, 0x02, 0x03])).state._Receive_BUF_Length = 8 ∧
    (I2C_ReadFromSVM State.init 24 true
      (wireGroups [(0x41, 0x42), (0x43, 0x44), (0x45, 0x46), (0x00, 0x00)]
        ++ [0x01, 0x02, 0x03])).state._Receive_BUF_Length ≠ 6 := by
  decide

/-- C20, amended: with `chk_zero = true` and `count = 24`, if the bus delivers three
valid groups whose data pairs are not `00 00`, then a valid group whose data pair is
`00 00`, then any further bytes, `I2C_ReadFromSVM` returns `ERR_OK`, the inbound payload
is the 6 bytes collected before the zero pair followed by the zero pair itself
(`_Receive_BUF_Length = 8`), and no byte remains queued on the bus afterwards. -/
theorem I2C_ReadFromSVM_zero_terminated (s : State) (gs : List (Nat × Nat))
    (rest : List Nat)
    (hbuf : s._Receive_BUF.length = MAXRECVBUFLENGTH)
    (h3 : gs.length = 3)
    (hnz : ∀ g ∈ gs, ¬ (g.1 = 0 ∧ g.2 = 0))
    (hbytes : ∀ g ∈ gs, g.1 < 256 ∧ g.2 < 256) :
    ∃ s1 : State,
      I2C_ReadFromSVM s 24 true (wireGroups gs ++ wireGroups [(0x00, 0x00)] ++ rest)
        = .returned ERR_OK s1 (24 / 2 * 3) [] ∧
      s1._Receive_BUF_Length = 8 ∧
      s1._Receive_BUF.take 8 = pairBytes gs ++ [0x00, 0x00] := by
  simp only [MAXRECVBUFLENGTH] at hbuf
  obtain ⟨s1, e1, e2, e3, e4, _⟩ :=
    readLoop_groups 24 (24 / 2 * 3) true gs { s with _Receive_BUF_Length := 0 }
      (wireGroups [(0x00, 0x00)] ++ rest) hbytes
      (by simp only [hbuf]; omega) (by simp only []; omega) (fun _ => hnz)
  simp only [Nat.zero_add, List.take_zero, List.nil_append] at e2 e3 e4
  have step := readLoop_group 24 (24 / 2 * 3) true 0 0 rest s1 (by decide) (by decide)
    (by rw [e2, e3, hbuf]; omega)
  rw [if_pos ⟨rfl, rfl, rfl⟩] at step
  obtain ⟨_, p2, _⟩ := set_pair s1._Receive_BUF s1._Receive_BUF_Length 0 0
    (by rw [e2, e3, hbuf]; omega)
  refine ⟨{ s1 with
            _Receive_BUF := (s1._Receive_BUF.set s1._Receive_BUF_Length 0).set
              (s1._Receive_BUF_Length + 1) 0
            _Receive_BUF_Length := s1._Receive_BUF_Length + 2 }, ?_, ?_, ?_⟩
  · unfold I2C_ReadFromSVM
    rw [List.append_assoc, e1]
    exact step
  · simp only []; omega
  · simp only []
    have : 8 = s1._Receive_BUF_Length + 2 := by omega
    rw [this, p2, e4]

theorem I2C_ReadFromSVM_zero_terminated_witness :
    (State.init._Receive_BUF.length = MAXRECVBUFLENGTH ∧
      [((0x41 : Nat), (0x42 : Nat)), (0x43, 0x44), (0x00, 0x46)].length = 3) ∧
    ∃ s1 : State,
      I2C_ReadFromSVM State.init 24 true
          (wireGroups [(0x41, 0x42), (0x43, 0x44), (0x00, 0x46)] ++ wireGroups [(0x00, 0x00)]
            ++ [0x47, 0x48, 0x49, 0x00])
        = .returned ERR_OK s1 (24 / 2 * 3) [] ∧
      s1._Receive_BUF_Length = 8 ∧
      s1._Receive_BUF.take 8 = [0x41, 0x42, 0x43, 0x44, 0x00, 0x46, 0x00, 0x00] :=
  ⟨by decide,
    I2C_ReadFromSVM_zero_terminated State.init [(0x41, 0x42), (0x43, 0x44), (0x00, 0x46)]
      [0x47, 0x48, 0x49, 0x00] (by decide) (by decide) (by decide) (by decide)⟩

/-- C21. `I2C_calc_CRC` is the CRC-8 with polynomial 0x31 and initial value 0xFF: for
every two-byte group it equals the value obtained by XORing each byte into the running
value and then, eight times, shifting left within 8 bits and XORing 0x31 when the bit
shifted out was set (`crc8`, written after the specification); the golden vector
`I2C_calc_CRC([0xBE, 0xEF])` is `0x92`. -/
theorem I2C_calc_CRC_is_crc8 :
    (∀ d0 d1 : Nat, I2C_calc_CRC d0 d1 = crc8 0x31 0xFF [d0, d1]) ∧
    I2C_calc_CRC 0xBE 0xEF = 0x92 :=
  ⟨I2C_calc_CRC_eq_crc8, by decide⟩

/-- C22. `I2C_calc_CRC` is order-sensitive: for all bytes `a`, `b` the CRC of `[a, b]`
equals the CRC of `[b, a]` exactly when `a = b` or `a XOR b = 0xEF` (so it differs
whenever `a ≠ b` and `a XOR b ≠ 0xEF`); of the 65280 ordered pairs of distinct bytes
exactly 256 keep their CRC under the swap. -/
theorem I2C_calc_CRC_order_sensitive :
    (∀ a b : Nat, a < 256 → b < 256 →
      (I2C_calc_CRC a b = I2C_calc_CRC b a ↔ (a = b ∨ a ^^^ b = 0xEF))) ∧
    (Finset.range 256).offDiag.card = 65280 ∧
    ((Finset.range 256).offDiag.filter
      (fun p => I2C_calc_CRC p.1 p.2 = I2C_calc_CRC p.2 p.1)).card = 256 := by
  refine ⟨calc_CRC_swap, ?_, ?_⟩
  · rw [Finset.offDiag_card, Finset.card_range]
  · have e : (Finset.range 256).offDiag.filter
        (fun p => I2C_calc_CRC p.1 p.2 = I2C_calc_CRC p.2 p.1)
        = (Finset.range 256).image (fun a => (a, a ^^^ 0xEF)) := by
      ext ⟨a, b⟩
      simp only [Finset.mem_filter, Finset.mem_offDiag, Finset.mem_range, Finset.mem_image,
        Prod.mk.injEq]
      constructor
      · rintro ⟨⟨ha, hb, hne⟩, h⟩
        rcases (calc_CRC_swap a b ha hb).1 h with h2 | h2
        · exact absurd h2 hne
        · refine ⟨a, ha, rfl, ?_⟩
          rw [← h2, ← Nat.xor_assoc, Nat.xor_self, Nat.zero_xor]
      · rintro ⟨x, hx, rfl, rfl⟩
        have hb : x ^^^ 0xEF < 256 := @Nat.xor_lt_two_pow x 0xEF 8 hx (by decide)
        have hxx : x ^^^ (x ^^^ 0xEF) = 0xEF := by
          rw [← Nat.xor_assoc, Nat.xor_self, Nat.zero_xor]
        refine ⟨⟨hx, hb, ?_⟩, (calc_CRC_swap x _ hx hb).2 (Or.inr hxx)⟩
        intro h
        rw [← Nat.xor_eq_zero, hxx] at h
        exact absurd h (by decide)
    rw [e, Finset.card_image_of_injective, Finset.card_range]
    intro x y h
    exact (Prod.mk.inj h).1

/-- Witness for C22: `0x12` and `0xFD` differ by `0xEF` and their two orders have the same
CRC, while `0x12`, `0x34` do not. -/
theorem I2C_calc_CRC_order_sensitive_witness :
    ((0x12 : Nat) < 256 ∧ (0xFD : Nat) < 256) ∧
    I2C_calc_CRC 0x12 0xFD = I2C_calc_CRC 0xFD 0x12 ∧
    I2C_calc_CRC 0x12 0x34 ≠ I2C_calc_CRC 0x34 0x12 :=
  ⟨by decide,
   (I2C_calc_CRC_order_sensitive.1 0x12 0xFD (by decide) (by decide)).2 (Or.inr (by decide)),
   fun h => absurd ((I2C_calc_CRC_order_sensitive.1 0x12 0x34 (by decide) (by decide)).1 h)
     (by decide)⟩

/-- C23. Save and restore around a tuning set: when `SetVocTuningParameters` is called
while the measurement flag is true and the stop succeeds, the set command is always left
with a value `ret` of the transaction; if the restart succeeds the call returns that value
(so `ERR_OK` when the set transaction returned `ERR_OK`) and the measurement flag is true
on return; if the restart fails the call returns `ERR_CMDSTATE`, whatever `ret` is. -/
theorem SetVocTuningParameters_restart (p : svm_algopar) (s s1 s2 s3 : State)
    (env env1 env2 env3 : List Exchange) (f : Flow) (ok : Bool)
    (h0 : s._started = true)
    (h1 : stop s env = some (true, s1, env1))
    (h2 : setVocTuningCommand p s1 env1 = some (f, s2, env2))
    (h3 : start s2 env2 = some (ok, s3, env3)) :
    ∃ ret, f = .next ret ∧
      (ok = true →
        SetVocTuningParameters p s env = some (ret, s3, env3) ∧ s3._started = true) ∧
      (ok = false → SetVocTuningParameters p s env = some (ERR_CMDSTATE, s3, env3)) := by
  obtain ⟨⟨ret, hret⟩, _⟩ := setVocTuningCommand_some h2
  simp only [] at hret
  rw [hret] at h2
  refine ⟨ret, hret, ?_, ?_⟩
  · intro hok
    rw [hok] at h3
    refine ⟨?_, (start_true h3).1⟩
    unfold SetVocTuningParameters
    rw [gated_next _ s s1 s2 env env1 env2 ret h0 h1 h2, h3]
    rfl
  · intro hok
    rw [hok] at h3
    unfold SetVocTuningParameters
    rw [gated_next _ s s1 s2 env env1 env2 ret h0 h1 h2, h3]
    rfl

/-- Witness for C23 on the stream transport: the device acknowledges the stop, the set
and the start, and the call returns `ERR_OK` with the measurement flag true. -/
theorem SetVocTuningParameters_restart_witness :
    (SetVocTuningParameters ⟨100, 12, 180, 50⟩ State.measuring
        [okAnswer 0x01, okAnswer 0x60, okAnswer 0x00]).map (fun r => (r.1, r.2.1._started))
      = some (ERR_OK, true) := by
  obtain ⟨ret, hf, hok, _⟩ :=
    SetVocTuningParameters_restart ⟨100, 12, 180, 50⟩ State.measuring
      (Outcome.state (stop State.measuring [okAnswer 0x01, okAnswer 0x60, okAnswer 0x00]))
      (Outcome.state (setVocTuningCommand ⟨100, 12, 180, 50⟩
        (Outcome.state (stop State.measuring [okAnswer 0x01, okAnswer 0x60, okAnswer 0x00]))
        [okAnswer 0x60, okAnswer 0x00]))
      (Outcome.state (SetVocTuningParameters ⟨100, 12, 180, 50⟩ State.measuring
        [okAnswer 0x01, okAnswer 0x60, okAnswer 0x00]))
      [okAnswer 0x01, okAnswer 0x60, okAnswer 0x00] [okAnswer 0x60, okAnswer 0x00]
      [okAnswer 0x00] [] (.next ERR_OK) true (by decide) (by decide) (by decide) (by decide)
  cases hf
  rw [(hok rfl).1]
  rfl

/-- C24: with the measurement flag true, `_FW_major = 0` and a version probe that fails,
`SetTemperatureOffset` returns `ERR_PARAMETER` with the measurement flag false and without
attempting a start. On the stream transport the stop is acknowledged and the version
request times out: only the stop and the version frames are written and the third
exchange is left unused. On the register bus the stop is acknowledged and the version
request is not: only these two transmissions are made. -/
theorem SetTemperatureOffset_failed_probe_no_restart :
    (stop State.measuring [okAnswer 0x01, silence, okAnswer 0x00]).map (fun r => r.1)
      = some true ∧
    (SetTemperatureOffset 1 [] State.measuring [okAnswer 0x01, silence, okAnswer 0x00]).map
        (fun r => (r.1, r.2.1._started, r.2.1.serialOut, r.2.2))
      = some (ERR_PARAMETER, false,
          [0x7E, 0x00, 0x01, 0x00, 0xFE, 0x7E, 0x7E, 0x00, 0xD1, 0x00, 0x2E, 0x7E],
          [okAnswer 0x00]) ∧
    (stop State.measuringOnBus [acked, refused, acked]).map (fun r => r.1) = some true ∧
    (SetTemperatureOffset 1 [] State.measuringOnBus [acked, refused, acked]).map
        (fun r => (r.1, r.2.1._started, r.2.1.wireOut, r.2.2))
      = some (ERR_PARAMETER, false, [[0x01, 0x04], [0xD1, 0x00]], [acked]) := by
  refine ⟨?_, ?_, ?_, ?_⟩ <;> decide


/-- Counterexample for C25: called while the measurement flag is true, `StoreNvData` and
`GetVocTuningParameters` write only their own frame (no stop frame `7E 00 01 00 FE 7E`
before it, no start frame after it), use one exchange, and the measurement flag is true
throughout. -/
theorem StoreNvData_not_wrapped :
    (StoreNvData State.measuring [okAnswer 0x60, silence]).map
        (fun r => (r.1, r.2.1._started, r.2.1.serialOut, r.2.2))
      = some (ERR_OK, true, [0x7E, 0x00, 0x60, 0x01, 0x80, 0x1E, 0x7E], [silence]) ∧
    (GetVocTuningParameters State.measuring [silence, silence]).map
        (fun r => (r.1, r.2.1._started, r.2.1.serialOut, r.2.2))
      = some (ERR_TIMEOUT, true, [0x7E, 0x00, 0x60, 0x01, 0x08, 0x96, 0x7E], [silence]) := by
  constructor <;> decide

/-- C25, amended. Called while the measurement flag is true, each of
`SetVocTuningParameters`, `SetVocState` and `SetTemperatureOffset` first issues a stop;
when that stop succeeds it has written the stop command, the measurement flag is false,
and the setter's own command runs from there and leaves the flag false; when the own
command is left by its end with value `ret` (always so for `SetVocTuningParameters` and
`SetVocState`), what follows is a start, which writes the start command, and the call
returns `ERR_CMDSTATE` if the start fails and `ret` otherwise. `GetVocTuningParameters`
and `StoreNvData`, called while the flag is true, run only their own command: one
exchange is used and the flag stays true. -/
theorem setters_wrapped (s : State) (env : List Exchange) (h0 : s._started = true) :
    (∀ s1 env1, stop s env = some (true, s1, env1) →
      (s1._started = false ∧
        s1.wrote s [0x01, 0x04] [0x7E, 0x00, 0x01, 0x00, 0xFE, 0x7E]) ∧
      (∀ p x, setVocTuningCommand p s1 env1 = some x →
        x.2.1._started = false ∧ ∃ ret, x.1 = .next ret ∧
          SetVocTuningParameters p s env = (start x.2.1 x.2.2).bind fun r =>
            if r.1 = false then some (ERR_CMDSTATE, r.2) else some (ret, r.2)) ∧
      (∀ p plen pmem x, setVocStateCommand p plen pmem s1 env1 = some x →
        x.2.1._started = false ∧ ∃ ret, x.1 = .next ret ∧
          SetVocState p plen pmem s env = (start x.2.1 x.2.2).bind fun r =>
            if r.1 = false then some (ERR_CMDSTATE, r.2) else some (ret, r.2)) ∧
      (∀ val floatData x, setTemperatureOffsetCommand val floatData s1 env1 = some x →
        x.2.1._started = false ∧ ∀ ret, x.1 = .next ret →
          SetTemperatureOffset val floatData s env = (start x.2.1 x.2.2).bind fun r =>
            if r.1 = false then some (ERR_CMDSTATE, r.2) else some (ret, r.2))) ∧
    (∀ sa enva r, start sa enva = some r →
      r.2.1.wrote sa [0x00, 0x10] [0x7E, 0x00, 0x00, 0x01, 0x00, 0xFE, 0x7E]) ∧
    (GetVocTuningParameters s env = getVocTuningCommand s env ∧
      ∀ x, GetVocTuningParameters s env = some x →
        x.2.1._started = true ∧ ∃ e, env = e :: x.2.2) ∧
    (∀ x, StoreNvData s env = some x → x.2.1._started = true ∧ ∃ e, env = e :: x.2.2) := by
  refine ⟨?_, ?_, ?_, ?_⟩
  · intro s1 env1 h1
    have hs1 := (stop_true h0 h1).1
    refine ⟨⟨hs1, (stop_wrote h0 h1).1⟩, ?_, ?_, ?_⟩
    · intro p x hx
      obtain ⟨⟨ret, hret⟩, hses⟩ := setVocTuningCommand_some hx
      refine ⟨hses.1.trans hs1, ret, hret, ?_⟩
      obtain ⟨f, s2, env2⟩ := x
      simp only [] at hret
      rw [hret] at hx
      exact gated_next _ s s1 s2 env env1 env2 ret h0 h1 hx
    · intro p plen pmem x hx
      obtain ⟨⟨ret, hret⟩, hses⟩ := setVocStateCommand_some hx
      refine ⟨hses.1.trans hs1, ret, hret, ?_⟩
      obtain ⟨f, s2, env2⟩ := x
      simp only [] at hret
      rw [hret] at hx
      exact gated_next _ s s1 s2 env env1 env2 ret h0 h1 hx
    · intro val floatData x hx
      refine ⟨(setTemperatureOffsetCommand_session hx).1.trans hs1, ?_⟩
      intro ret hret
      obtain ⟨f, s2, env2⟩ := x
      simp only [] at hret
      rw [hret] at hx
      exact gated_next _ s s1 s2 env env1 env2 ret h0 h1 hx
  · intro sa enva r hr
    exact (start_wrote hr).1
  · have e : GetVocTuningParameters s env = getVocTuningCommand s env := by
      unfold GetVocTuningParameters autoStarted
      simp [h0]
    refine ⟨e, ?_⟩
    intro x hx
    rw [e] at hx
    exact ⟨(getVocTuningCommand_session hx).1.trans h0, getVocTuningCommand_one hx⟩
  · intro x hx
    exact ⟨(StoreNvData_session hx).1.trans h0, StoreNvData_one hx⟩

/-- Witness for C25: on the stream transport, measuring, with an acknowledged stop; and
`StoreNvData` called while measuring, which keeps the flag true. -/
theorem setters_wrapped_witness :
    State.measuring._started = true ∧
    (Outcome.state
      (stop State.measuring [okAnswer 0x01, okAnswer 0x60, okAnswer 0x00]))._started = false ∧
    (Outcome.state
      (StoreNvData State.measuring
        [okAnswer 0x01, okAnswer 0x60, okAnswer 0x00]))._started = true :=
  ⟨rfl,
   ((setters_wrapped State.measuring [okAnswer 0x01, okAnswer 0x60, okAnswer 0x00] rfl).1
      (Outcome.state (stop State.measuring [okAnswer 0x01, okAnswer 0x60, okAnswer 0x00]))
      [okAnswer 0x60, okAnswer 0x00] (by decide)).1.1,
   ((setters_wrapped State.measuring [okAnswer 0x01, okAnswer 0x60, okAnswer 0x00] rfl).2.2.2
      (ERR_OK,
        Outcome.state
          (StoreNvData State.measuring [okAnswer 0x01, okAnswer 0x60, okAnswer 0x00]),
        [okAnswer 0x60, okAnswer 0x00]) (by decide)).1⟩

/-- C26. Auto-start: when `GetValues` or `GetVocTuningParameters` is called while the
measurement flag is false, a start is issued first (it writes the start command and uses
one exchange); if the start fails the call returns `ERR_CMDSTATE` with the driver object
and the exchanges as the start left them, so the read command is not issued; if it
succeeds the call goes on with its read command and the measurement flag is true when the
call returns. -/
theorem auto_start (s s1 : State) (env env1 : List Exchange) (b : Bool)
    (h0 : s._started = false) (h1 : start s env = some (b, s1, env1)) :
    (s1.wrote s [0x00, 0x10] [0x7E, 0x00, 0x00, 0x01, 0x00, 0xFE, 0x7E]
      ∧ ∃ e, env = e :: env1) ∧
    (b = false →
      GetValues s env = some (ERR_CMDSTATE, s1, env1) ∧
      GetVocTuningParameters s env = some (ERR_CMDSTATE, s1, env1)) ∧
    (b = true →
      (GetValues s env = getValuesCommand s1 env1 ∧
        ∀ x, GetValues s env = some x → x.2.1._started = true) ∧
      (GetVocTuningParameters s env = getVocTuningCommand s1 env1 ∧
        ∀ x, GetVocTuningParameters s env = some x → x.2.1._started = true)) := by
  refine ⟨start_wrote h1, ?_, ?_⟩
  · intro hb
    rw [hb] at h1
    constructor
    · unfold GetValues autoStarted
      simp [h0, h1]
    · unfold GetVocTuningParameters autoStarted
      simp [h0, h1]
  · intro hb
    rw [hb] at h1
    have hs1 := (start_true h1).1
    have e1 : GetValues s env = getValuesCommand s1 env1 := by
      unfold GetValues autoStarted
      simp [h0, h1]
    have e2 : GetVocTuningParameters s env = getVocTuningCommand s1 env1 := by
      unfold GetVocTuningParameters autoStarted
      simp [h0, h1]
    refine ⟨⟨e1, ?_⟩, e2, ?_⟩
    · intro x hx
      rw [e1] at hx
      exact (getValuesCommand_session hx).1.trans hs1
    · intro x hx
      rw [e2] at hx
      exact (getVocTuningCommand_session hx).1.trans hs1

/-- Witness for C26 on the stream transport: the start is acknowledged (and the read then
times out), so the measurement flag is true on return; with a start that times out the
call returns `ERR_CMDSTATE`. -/
theorem auto_start_witness :
    ((GetValues State.init [okAnswer 0x00, silence]).map (fun r => r.2.1._started)
      = some true) ∧
    (GetValues State.init [silence, silence]).map (fun r => (r.1, r.2.2))
      = some (ERR_CMDSTATE, [silence]) := by
  constructor
  · have h := ((auto_start State.init
      (Outcome.state (start State.init [okAnswer 0x00, silence]))
      [okAnswer 0x00, silence] [silence] true rfl (by decide)).2.2 rfl).1
    have hx : GetValues State.init [okAnswer 0x00, silence]
        = some (ERR_TIMEOUT,
            Outcome.state (GetValues State.init [okAnswer 0x00, silence]), []) := by decide
    rw [hx]
    exact congrArg some (h.2 _ hx)
  · rw [((auto_start State.init (Outcome.state (start State.init [silence, silence]))
      [silence, silence] [silence] false rfl (by decide)).2.1 rfl).1]
    rfl

/-- C27. Session state machine, for every prior value of the measurement flag and on
both transports: a `start()` whose transaction returns `ERR_OK` returns true and sets the
flag (after a delay of 1000 ms); a `stop()` issued while the flag is true whose
transaction returns `ERR_OK` returns true and clears the flag; a `reset()` whose
transaction returns `ERR_OK` returns true, clears the flag and, exactly when the register
bus is the active transport, calls `_i2cPort->begin()` once (then a delay of 2000 ms). -/
theorem session_state_machine (s s1 : State) (env env1 : List Exchange) :
    (instructCommand SVM40_SHDLC_START_MEASURE s env = some (some ERR_OK, s1, env1) →
      start s env
        = some (true, { s1 with _started := true, waited := s1.waited + 1000 }, env1)) ∧
    (s._started = true →
      instructCommand SVM40_SHDLC_STOP_MEASURE s env = some (some ERR_OK, s1, env1) →
      stop s env = some (true, { s1 with _started := false }, env1)) ∧
    (instructCommand SVM40_SHDLC_RESET s env = some (some ERR_OK, s1, env1) →
      reset s env
        = some (true,
            { s1 with
              _started := false
              wireBegins :=
                if s._Sensor_Comms = .I2C_COMMS then s1.wireBegins + 1 else s1.wireBegins
              waited := s1.waited + 2000 }, env1)) := by
  refine ⟨?_, ?_, ?_⟩
  · intro h
    rw [start_eq, h]
    rfl
  · intro h0 h
    rw [stop_eq s env h0, h]
    rfl
  · intro h
    rw [reset_eq, h, ← (instructCommand_session h).2]
    rfl

/-- Witness for C27: an acknowledged start on the stream transport and an acknowledged
reset on the register bus. -/
theorem session_state_machine_witness :
    (start State.init [okAnswer 0x00]).map (fun r => (r.1, r.2.1._started))
      = some (true, true) ∧
    (stop State.measuring [okAnswer 0x01]).map (fun r => (r.1, r.2.1._started))
      = some (true, false) ∧
    (reset State.measuringOnBus [acked]).map
        (fun r => (r.1, r.2.1._started, r.2.1.wireBegins))
      = some (true, false, 1) := by
  refine ⟨?_, ?_, ?_⟩
  · rw [(session_state_machine State.init
      (Outcome.state (instructCommand SVM40_SHDLC_START_MEASURE State.init [okAnswer 0x00]))
      [okAnswer 0x00] []).1 (by decide)]
    rfl
  · rw [(session_state_machine State.measuring
      (Outcome.state (instructCommand SVM40_SHDLC_STOP_MEASURE State.measuring
        [okAnswer 0x01]))
      [okAnswer 0x01] []).2.1 rfl (by decide)]
    rfl
  · rw [(session_state_machine State.measuringOnBus
      (Outcome.state (instructCommand SVM40_SHDLC_RESET State.measuringOnBus [acked]))
      [acked] []).2.2 (by decide)]
    rfl

/-- C28: on the register bus `GetValues` and `GetTemperatureOffset` do not look at the
result of `I2C_RequestFromSVM`. With a request that the bus does not acknowledge, and
with one that is answered by a group whose CRC is wrong (`12 34 00`, the CRC being
`0x37`), the transaction returns `ERR_PROTOCOL` and the operation returns `ERR_OK`. -/
theorem GetValues_bus_error_not_propagated :
    ((I2C_fill_buffer State.measuringOnBus SVM40_I2C_READ_RESULTS_INT_R 0 []).bind
        (fun s1 => requestFromSVM s1 12 false [refused])).map (fun r => r.1)
      = some ERR_PROTOCOL ∧
    (GetValues State.measuringOnBus [refused]).map (fun r => r.1) = some ERR_OK ∧
    ((I2C_fill_buffer State.measuringOnBus SVM40_I2C_READ_RESULTS_INT_R 0 []).bind
        (fun s1 => requestFromSVM s1 12 false [{ bus := [0x12, 0x34, 0x00] }])).map
        (fun r => r.1)
      = some ERR_PROTOCOL ∧
    (GetValues State.measuringOnBus [{ bus := [0x12, 0x34, 0x00] }]).map (fun r => r.1)
      = some ERR_OK ∧
    ((I2C_fill_buffer { State.onBus with _FW_major := 2 } SVM40_I2C_GET_TEMP_OFFSET 0 []).bind
        (fun s1 => requestFromSVM s1 2 false [refused])).map (fun r => r.1)
      = some ERR_PROTOCOL ∧
    (GetTemperatureOffset { State.onBus with _FW_major := 2 } [refused]).map (fun r => r.1)
      = some ERR_OK := by
  refine ⟨?_, ?_, ?_, ?_, ?_, ?_⟩ <;> decide

/-- C29: on the stream transport the frame `SetVocTuningParameters` hands to the codec
carries no payload. For every parameter set and every driver object,
`SHDLC_fill_buffer(SVM40_SHDLC_BASELINE_ALG, SVM40_SHDLC_SET_VOC_TUNING, 8, data)` builds
the seven bytes `7E 00 60 01 88 16 7E`: the length byte is 1, not 9, and none of the 8
bytes of `data` is in the frame. For the parameters 100, 12, 180, 50 (`data` being
`00 64 00 0C 00 B4 00 32`) these seven bytes are all that `SetVocTuningParameters`
writes. -/
theorem SetVocTuningParameters_frame_without_payload :
    (∀ (p : svm_algopar) (s : State),
      (SHDLC_fill_buffer s SVM40_SHDLC_BASELINE_ALG SVM40_SHDLC_SET_VOC_TUNING 8
          (algoparData p)).map (fun f => f.2._Send_BUF.take f.2._Send_BUF_Length)
        = some [0x7E, 0x00, 0x60, 0x01, 0x88, 0x16, 0x7E]) ∧
    algoparData ⟨100, 12, 180, 50⟩ = [0x00, 0x64, 0x00, 0x0C, 0x00, 0xB4, 0x00, 0x32] ∧
    (SetVocTuningParameters ⟨100, 12, 180, 50⟩ State.init [okAnswer 0x60]).map
        (fun r => (r.1, r.2.1.serialOut))
      = some (ERR_OK, [0x7E, 0x00, 0x60, 0x01, 0x88, 0x16, 0x7E]) := by
  refine ⟨?_, by decide, by decide⟩
  intro p s
  rw [SHDLC_fill_buffer_eq s SVM40_SHDLC_BASELINE_ALG SVM40_SHDLC_SET_VOC_TUNING 8
    (algoparData p) (by decide) (by decide) (by decide)]
  have e : frameStart SVM40_SHDLC_BASELINE_ALG SVM40_SHDLC_SET_VOC_TUNING 8 (algoparData p)
      = [0x7E, 0x00, 0x60, 0x01, 0x88] := rfl
  rw [e]
  rfl

/-- C30: on the stream transport `SetVocState` sends the get command and reads no
response. For every eight state bytes `p` (and whatever exchanges are at hand) it writes
the seven bytes `7E 00 61 01 08 95 7E`, with length byte 1, sub-command
`SVM40_SHDLC_GET_VOC_STATE` (0x08) and none of the state bytes, uses no exchange, and
returns the `ERR_OK` of `SHDLC_SendToSerial`. On the register bus the state bytes `p` are
passed in the place of `len`: with a pointer whose low byte is 0 the transmission is
`61 81` alone. -/
theorem SetVocState_sends_get_without_payload :
    (∀ (p : List Nat) (plen : Nat) (pmem : List Nat) (env : List Exchange),
      (SetVocState p plen pmem State.init env).map (fun r => (r.1, r.2.1.serialOut, r.2.2))
        = some (ERR_OK, [0x7E, 0x00, 0x61, 0x01, 0x08, 0x95, 0x7E], env)) ∧
    (SetVocState [1, 2, 3, 4, 5, 6, 7, 8] 0 [] State.onBus [acked]).map
        (fun r => (r.1, r.2.1.wireOut))
      = some (ERR_OK, [[0x61, 0x81]]) := by
  refine ⟨?_, by decide⟩
  intro p plen pmem env
  have e : frameStart SVM40_SHDLC_BASELINE_STATE SVM40_SHDLC_GET_VOC_STATE 8 p
      = [0x7E, 0x00, 0x61, 0x01, 0x08] := rfl
  have hfill := SHDLC_fill_buffer_eq State.init SVM40_SHDLC_BASELINE_STATE
    SVM40_SHDLC_GET_VOC_STATE 8 p (by decide) (by decide) (by decide)
  rw [e] at hfill
  have hs : State.init._started = false := rfl
  have hc : State.init._Sensor_Comms ≠ .I2C_COMMS := by decide
  unfold SetVocState gated setVocStateCommand
  simp only [hs, Bool.false_eq_true, ite_false, if_neg hc, Option.some_bind, hfill]
  rfl

/-- C31. The outbound buffer is consumed by a send: when `SHDLC_SendToSerial` or
`I2C_SendToSVM` returns `ERR_OK`, `_Send_BUF_Length` is 0 afterwards; a send issued while
`_Send_BUF_Length` is 0 returns `ERR_DATALENGTH` and leaves the driver object, with what
was written to either transport, as it is; so after a non-empty buffer has been sent with
`SHDLC_SendToSerial` (which returns `ERR_OK` and writes its bytes once), a following
`SHDLC_ReadFromSerial` writes nothing more, however its read ends. -/
theorem send_consumes_outbound_buffer :
    (∀ s : State, (SHDLC_SendToSerial s).1 = ERR_OK →
      (SHDLC_SendToSerial s).2._Send_BUF_Length = 0) ∧
    (∀ (s : State) (ack : Nat), (I2C_SendToSVM s ack).1 = ERR_OK →
      (I2C_SendToSVM s ack).2._Send_BUF_Length = 0) ∧
    (∀ s : State, s._Send_BUF_Length = 0 → SHDLC_SendToSerial s = (ERR_DATALENGTH, s)) ∧
    (∀ (s : State) (ack : Nat), s._Send_BUF_Length = 0 →
      I2C_SendToSVM s ack = (ERR_DATALENGTH, s)) ∧
    (∀ (s : State) (startTime : Nat) (polls : List Poll), s._Send_BUF_Length ≠ 0 →
      (SHDLC_SendToSerial s).1 = ERR_OK ∧
      (SHDLC_SendToSerial s).2.serialOut
        = s.serialOut ++ s._Send_BUF.take s._Send_BUF_Length ∧
      (SHDLC_ReadFromSerial (SHDLC_SendToSerial s).2 startTime polls).state.serialOut
        = s.serialOut ++ s._Send_BUF.take s._Send_BUF_Length) := by
  refine ⟨?_, ?_, ?_, ?_, ?_⟩
  · intro s h
    by_cases h0 : s._Send_BUF_Length = 0
    · have e : SHDLC_SendToSerial s = (ERR_DATALENGTH, s) := by
        unfold SHDLC_SendToSerial
        rw [if_pos h0]
      rw [e] at h
      exact absurd (show ERR_DATALENGTH = ERR_OK from h) (by decide)
    · unfold SHDLC_SendToSerial
      rw [if_neg h0]
  · intro s ack h
    by_cases h0 : s._Send_BUF_Length = 0
    · have e : I2C_SendToSVM s ack = (ERR_DATALENGTH, s) := by
        unfold I2C_SendToSVM
        rw [if_pos h0]
      rw [e] at h
      exact absurd (show ERR_DATALENGTH = ERR_OK from h) (by decide)
    · by_cases h1 : ack ≠ 0
      · have e : (I2C_SendToSVM s ack).1 = ERR_PROTOCOL := by
          unfold I2C_SendToSVM
          rw [if_neg h0]
          simp only []
          rw [if_pos h1]
        rw [e] at h
        exact absurd h (by decide)
      · unfold I2C_SendToSVM
        rw [if_neg h0]
        simp only []
        rw [if_neg h1]
  · intro s h
    unfold SHDLC_SendToSerial
    rw [if_pos h]
  · intro s ack h
    unfold I2C_SendToSVM
    rw [if_pos h]
  · intro s startTime polls h
    have h1 : (SHDLC_SendToSerial s).2._Send_BUF_Length = 0 := by
      unfold SHDLC_SendToSerial
      rw [if_neg h]
    have h2 : SHDLC_SendToSerial (SHDLC_SendToSerial s).2 = (ERR_DATALENGTH, (SHDLC_SendToSerial s).2) := by
      generalize SHDLC_SendToSerial s = r at h1 ⊢
      unfold SHDLC_SendToSerial
      rw [if_pos h1]
    have hr := ReadFromSerial_received (SHDLC_SendToSerial s).2 startTime polls
    rw [h2] at hr
    refine ⟨?_, (SendToSerial_logs s h).1, ?_⟩
    · unfold SHDLC_SendToSerial
      rw [if_neg h]
    · rw [(receivedFrom_logs hr).1, (SendToSerial_logs s h).1]

/-- Witness for C31: the stop frame, sent with `SHDLC_SendToSerial` and followed by
`SHDLC_ReadFromSerial`, is on the stream once. -/
theorem send_consumes_outbound_buffer_witness :
    (SHDLC_ReadFromSerial
        (SHDLC_SendToSerial
          { State.init with
            _Send_BUF := [0x7E, 0x00, 0x01, 0x00, 0xFE, 0x7E] ++ List.replicate 14 0
            _Send_BUF_Length := 6 }).2 0
        (pollsOf 0 [0x7E, 0x00, 0x01, 0x00, 0x00, 0xFE, 0x7E])).state.serialOut
      = [0x7E, 0x00, 0x01, 0x00, 0xFE, 0x7E] :=
  (send_consumes_outbound_buffer.2.2.2.2
    { State.init with
      _Send_BUF := [0x7E, 0x00, 0x01, 0x00, 0xFE, 0x7E] ++ List.replicate 14 0
      _Send_BUF_Length := 6 } 0
    (pollsOf 0 [0x7E, 0x00, 0x01, 0x00, 0x00, 0xFE, 0x7E]) (by decide)).2.2

/-- C32. For every non-empty outbound buffer, when `endTransmission()` gives a non-zero
status, `I2C_SendToSVM` returns `ERR_PROTOCOL`, and `I2C_RequestFromSVM` returns
`ERR_PROTOCOL` before `I2C_ReadFromSVM` is called (nothing is requested or read from the
bus), with `_Receive_BUF` and `_Receive_BUF_Length` as they were. -/
theorem I2C_send_not_acknowledged (s : State) (cnt : Nat) (chk_zero : Bool) (ack : Nat)
    (bus : List Nat) (h1 : s._Send_BUF_Length ≠ 0) (h2 : ack ≠ 0) :
    (I2C_SendToSVM s ack).1 = ERR_PROTOCOL ∧
    I2C_RequestFromSVM s cnt chk_zero ack bus
      = .notSent ERR_PROTOCOL (I2C_SendToSVM s ack).2 ∧
    (I2C_SendToSVM s ack).2._Receive_BUF = s._Receive_BUF ∧
    (I2C_SendToSVM s ack).2._Receive_BUF_Length = s._Receive_BUF_Length := by
  have e : I2C_SendToSVM s ack
      = (ERR_PROTOCOL,
          { s with wireOut := s.wireOut ++ [s._Send_BUF.take s._Send_BUF_Length] }) := by
    unfold I2C_SendToSVM
    rw [if_neg h1]
    simp only []
    rw [if_pos h2]
  refine ⟨?_, ?_, ?_, ?_⟩
  · rw [e]
  · unfold I2C_RequestFromSVM
    rw [e]
    rfl
  · rw [e]
  · rw [e]

/-- Witness for C32: a two-byte command on the register bus that is not acknowledged. -/
theorem I2C_send_not_acknowledged_witness :
    (I2C_RequestFromSVM { State.onBus with _Send_BUF_Length := 2 } 12 false 1
        [0x12, 0x34, 0x37])
      = .notSent ERR_PROTOCOL (I2C_SendToSVM { State.onBus with _Send_BUF_Length := 2 } 1).2 :=
  (I2C_send_not_acknowledged { State.onBus with _Send_BUF_Length := 2 } 12 false 1
    [0x12, 0x34, 0x37] (by decide) (by decide)).2.1

/-- C33. Settle-delay lookup: after `SHDLC_fill_buffer` the delay `_RespDelay` is 750 for
the command byte `0x80`, 200 for `0xD3` and `RX_DELAY_MS` (100) for every other command;
after `I2C_fill_buffer` it is 750 for the register `0x6002`, 200 for `0xD304` and
`RX_DELAY_MS` for every other register; and among the public operations the command of
the operation itself gets a delay longer than `RX_DELAY_MS` exactly for `StoreNvData` and
`reset`, on either transport. -/
theorem settle_delay_lookup :
    (∀ (s : State) (lead command len : Nat) (par : List Nat) (f : Bool × State),
      SHDLC_fill_buffer s lead command len par = some f →
      f.2._RespDelay
        = if command = 0x80 then 750 else if command = 0xD3 then 200 else RX_DELAY_MS) ∧
    (∀ (s : State) (cmd len : Nat) (param : List Nat) (s1 : State),
      I2C_fill_buffer s cmd len param = some s1 →
      s1._RespDelay
        = if cmd = 0x6002 then 750 else if cmd = 0xD304 then 200 else RX_DELAY_MS) ∧
    (∀ op : Operation,
      (SHDLC_fill_buffer State.init op.shdlc.1 op.shdlc.2 0 []).map
          (fun f => decide (RX_DELAY_MS < f.2._RespDelay))
        = some (decide (op = .StoreNvData ∨ op = .reset)) ∧
      ∀ cmd, op.i2c = some cmd →
        (I2C_fill_buffer State.init cmd 0 []).map
            (fun s1 => decide (RX_DELAY_MS < s1._RespDelay))
          = some (decide (op = .StoreNvData ∨ op = .reset))) := by
  refine ⟨?_, ?_, ?_⟩
  · intro s lead command len par f h
    exact SHDLC_fill_buffer_delay h
  · intro s cmd len param s1 h
    exact I2C_fill_buffer_delay h
  · intro op
    cases op <;> refine ⟨by decide, ?_⟩ <;> intro cmd h <;> cases h <;> decide

/-- Witness for C33: the store command on the stream transport and the reset command on
the register bus. -/
theorem settle_delay_lookup_witness :
    ((SHDLC_fill_buffer State.init SVM40_SHDLC_BASELINE_ALG SVM40_SHDLC_STORE_NVRAM 0
        []).getD (true, State.init)).2._RespDelay = 750 ∧
    ((I2C_fill_buffer State.init SVM40_I2C_RESET 0 []).getD State.init)._RespDelay = 200 :=
  ⟨settle_delay_lookup.1 State.init SVM40_SHDLC_BASELINE_ALG SVM40_SHDLC_STORE_NVRAM 0 [] _
      (by decide),
   settle_delay_lookup.2.1 State.init SVM40_I2C_RESET 0 [] _ (by decide)⟩

/-- C34: `GetTemperatureOffset` decodes the two bytes as an unsigned number before it
divides by 200. The bytes `FF 38` that `SetTemperatureOffset(-1)` puts on the wire
(the device value -200) are reported as 326, not as -1, at either offset; the bytes of
-163 are reported as 164; offsets that are not negative (1, 163) come back as they were
sent. -/
theorem GetTemperatureOffset_loses_sign :
    tempOffsetData (-1) = [0xFF, 0x38] ∧
    temperatureOffsetValue (State.received 0 [0xFF, 0x38]) 0 = 326 ∧
    temperatureOffsetValue (State.received 5 [0xFF, 0x38]) 5 = 326 ∧
    temperatureOffsetValue (State.received 0 (tempOffsetData (-163))) 0 = 164 ∧
    temperatureOffsetValue (State.received 0 (tempOffsetData 1)) 0 = 1 ∧
    temperatureOffsetValue (State.received 0 (tempOffsetData 163)) 0 = 163 := by
  refine ⟨?_, ?_, ?_, ?_, ?_, ?_⟩ <;> decide

/-- C35: `SHDLC_SerialToBuffer` stores outside `_Receive_BUF`. The buffer has 50 cells;
after `7E` and 49 further bytes the loop is still turning with `i = 50`, and the next
byte is stored at `_Receive_BUF[50]`; the test `i > MAXRECVBUFLENGTH` that returns
`ERR_PROTOCOL` comes behind that store (shown with a buffer of 51 cells). -/
theorem SHDLC_SerialToBuffer_store_outside_buffer :
    State.init._Receive_BUF.length = MAXRECVBUFLENGTH ∧
    (match SHDLC_SerialToBuffer State.init 0 (pollsOf 0 (0x7E :: List.replicate 49 0x00)) with
      | .running i _ _ => some i
      | _ => none) = some 50 ∧
    (match SHDLC_SerialToBuffer State.init 0 (pollsOf 0 (0x7E :: List.replicate 50 0x00)) with
      | .overrun i _ => some i
      | _ => none) = some 50 ∧
    (SHDLC_SerialToBuffer { State.init with _Receive_BUF := List.replicate 51 0 } 0
      (pollsOf 0 (0x7E :: List.replicate 50 0x00))).code = some ERR_PROTOCOL := by
  refine ⟨?_, ?_, ?_, ?_⟩ <;> decide

/-- C36. The register-bus CRC detects every single-bit error: for all bytes `a`, `b` and
each bit position `k`, the group obtained from `a, b, I2C_calc_CRC(a, b)` by flipping bit
`k` of the first byte, of the second byte, or of the CRC byte has a CRC byte different
from the CRC of its data bytes; and `I2C_ReadFromSVM` returns `ERR_PROTOCOL` when it
reaches such a group (behind valid groups that hold fewer than `count` data bytes and do
not end the read). -/
theorem I2C_calc_CRC_detects_single_bit_errors (a b k : Nat)
    (ha : a < 256) (hb : b < 256) (hk : k < 8) :
    (I2C_calc_CRC a b ≠ I2C_calc_CRC (a ^^^ 2 ^ k) b ∧
      I2C_calc_CRC a b ≠ I2C_calc_CRC a (b ^^^ 2 ^ k) ∧
      I2C_calc_CRC a b ^^^ 2 ^ k ≠ I2C_calc_CRC a b) ∧
    ∀ (s : State) (count : Nat) (chk_zero : Bool) (gs : List (Nat × Nat)) (rest : List Nat),
      s._Receive_BUF.length = MAXRECVBUFLENGTH →
      2 * gs.length ≤ MAXRECVBUFLENGTH →
      2 * gs.length < count →
      (chk_zero = true → ∀ g ∈ gs, ¬ (g.1 = 0 ∧ g.2 = 0)) →
      (∀ g ∈ gs, g.1 < 256 ∧ g.2 < 256) →
      (I2C_ReadFromSVM s count chk_zero
          (wireGroups gs ++ (a ^^^ 2 ^ k) :: b :: I2C_calc_CRC a b :: rest)).code
        = some ERR_PROTOCOL ∧
      (I2C_ReadFromSVM s count chk_zero
          (wireGroups gs ++ a :: (b ^^^ 2 ^ k) :: I2C_calc_CRC a b :: rest)).code
        = some ERR_PROTOCOL ∧
      (I2C_ReadFromSVM s count chk_zero
          (wireGroups gs ++ a :: b :: (I2C_calc_CRC a b ^^^ 2 ^ k) :: rest)).code
        = some ERR_PROTOCOL := by
  have hbit : 2 ^ k < 256 := by
    have : k ≤ 7 := by omega
    calc 2 ^ k ≤ 2 ^ 7 := Nat.pow_le_pow_right (by decide) this
      _ < 256 := by decide
  have hc := I2C_calc_CRC_lt a b
  have ha2 : a ^^^ 2 ^ k < 256 := @Nat.xor_lt_two_pow a (2 ^ k) 8 ha hbit
  have hb2 : b ^^^ 2 ^ k < 256 := @Nat.xor_lt_two_pow b (2 ^ k) 8 hb hbit
  have hc2 : I2C_calc_CRC a b ^^^ 2 ^ k < 256 := @Nat.xor_lt_two_pow _ (2 ^ k) 8 hc hbit
  have n1 : I2C_calc_CRC a b ≠ I2C_calc_CRC (a ^^^ 2 ^ k) b := by
    intro h
    rw [(calc_CRC_flip a b (2 ^ k)).1] at h
    exact (crcBits_bit k hk).2 ((xor_eq_self_iff _ _).1 h.symm)
  have n2 : I2C_calc_CRC a b ≠ I2C_calc_CRC a (b ^^^ 2 ^ k) := by
    intro h
    rw [(calc_CRC_flip a b (2 ^ k)).2] at h
    exact (crcBits_bit k hk).1 ((xor_eq_self_iff _ _).1 h.symm)
  have n3 : I2C_calc_CRC a b ^^^ 2 ^ k ≠ I2C_calc_CRC a b := xor_pow_ne _ k
  refine ⟨⟨n1, n2, n3⟩, ?_⟩
  intro s count chk_zero gs rest hbuf hfit hbefore hzero hbytes
  exact ⟨ReadFromSVM_bad_group s count chk_zero gs _ _ _ rest hbuf hfit hbefore hzero hbytes
      ha2 hb hc n1,
    ReadFromSVM_bad_group s count chk_zero gs _ _ _ rest hbuf hfit hbefore hzero hbytes
      ha hb2 hc n2,
    ReadFromSVM_bad_group s count chk_zero gs _ _ _ rest hbuf hfit hbefore hzero hbytes
      ha hb hc2 n3⟩

/-- Witness for C36: bit 3 of the first byte of `BE EF 92` flipped. -/
theorem I2C_calc_CRC_detects_single_bit_errors_witness :
    ((0xBE : Nat) < 256 ∧ (0xEF : Nat) < 256 ∧ 3 < 8) ∧
    (I2C_ReadFromSVM State.init 2 false [0xBE ^^^ 2 ^ 3, 0xEF, 0x92]).code
      = some ERR_PROTOCOL :=
  ⟨by decide,
   ((I2C_calc_CRC_detects_single_bit_errors 0xBE 0xEF 3 (by decide) (by decide)
      (by decide)).2 State.init 2 false [] [] (by decide) (by decide) (by decide)
      (by decide) (by decide)).1⟩

/-- Counterexample for C37: the frames `7E 00 00 51 00 AE 7E` and `7E 00 00 50 00 AF 7E`
pass the header, length and checksum tests (`SHDLC_SerialToBuffer` returns `ERR_OK`, the
checksum is right) and make `SHDLC_ReadFromSerial` return `ERR_PROTOCOL` (0x51) and
`ERR_TIMEOUT` (0x50): the status byte of the frame. -/
theorem SHDLC_ReadFromSerial_status_equal_to_codec_code :
    (SHDLC_SerialToBuffer State.init 0
        (pollsOf 0 [0x7E, 0x00, 0x00, 0x51, 0x00, 0xAE, 0x7E])).code = some ERR_OK ∧
    (SHDLC_ReadFromSerial State.init 0
        (pollsOf 0 [0x7E, 0x00, 0x00, 0x51, 0x00, 0xAE, 0x7E])).code = some ERR_PROTOCOL ∧
    (SHDLC_SerialToBuffer State.init 0
        (pollsOf 0 [0x7E, 0x00, 0x00, 0x50, 0x00, 0xAF, 0x7E])).code = some ERR_OK ∧
    (SHDLC_ReadFromSerial State.init 0
        (pollsOf 0 [0x7E, 0x00, 0x00, 0x50, 0x00, 0xAF, 0x7E])).code = some ERR_TIMEOUT := by
  refine ⟨?_, ?_, ?_, ?_⟩ <;> decide

/-- C37, amended. The codec's own failures give the two codes: a code other than `ERR_OK`
that the read loop returns (`ERR_TIMEOUT` on a time-out, `ERR_PROTOCOL` on a wrong first
byte, a short frame or a full receive buffer) is the result of `SHDLC_ReadFromSerial`,
and a completed frame whose checksum byte differs from the computed one gives
`ERR_PROTOCOL`. A frame that passes the header, length and checksum tests and whose
status byte has bit 7 clear makes `SHDLC_ReadFromSerial` return that status byte, so for
such a frame the result is `ERR_PROTOCOL` (0x51) exactly when the status byte is 0x51 and
`ERR_TIMEOUT` (0x50) exactly when it is 0x50. And whenever the result is `ERR_PROTOCOL`
or `ERR_TIMEOUT`, either the read loop returned that code, or the checksum differs, or the
frame passed the tests and the low 7 bits of its status byte are that code. -/
theorem SHDLC_ReadFromSerial_failure_codes (s : State) (startTime : Nat)
    (polls : List Poll) :
    (∀ c s2, SHDLC_SerialToBuffer (SHDLC_SendToSerial s).2 startTime polls = .returned c s2 →
      c ≠ ERR_OK →
      SHDLC_ReadFromSerial s startTime polls = .returned c s2 ∧
      (c = ERR_TIMEOUT ∨ c = ERR_PROTOCOL)) ∧
    (∀ s2, SHDLC_SerialToBuffer (SHDLC_SendToSerial s).2 startTime polls
        = .returned ERR_OK s2 →
      3 ≤ s2._Receive_BUF_Length ∧
      (s2._Receive_BUF.getD (s2._Receive_BUF_Length - 1) 0
          ≠ SHDLC_calc_CRC s2._Receive_BUF 1 (s2._Receive_BUF_Length - 2) →
        SHDLC_ReadFromSerial s startTime polls = .returned ERR_PROTOCOL s2) ∧
      (s2._Receive_BUF.getD (s2._Receive_BUF_Length - 1) 0
          = SHDLC_calc_CRC s2._Receive_BUF 1 (s2._Receive_BUF_Length - 2) →
        s2._Receive_BUF.getD 3 0 < 128 →
        SHDLC_ReadFromSerial s startTime polls = .returned (s2._Receive_BUF.getD 3 0) s2 ∧
        ((SHDLC_ReadFromSerial s startTime polls).code = some ERR_PROTOCOL
          ↔ s2._Receive_BUF.getD 3 0 = 0x51) ∧
        ((SHDLC_ReadFromSerial s startTime polls).code = some ERR_TIMEOUT
          ↔ s2._Receive_BUF.getD 3 0 = 0x50))) ∧
    (∀ c s2, SHDLC_ReadFromSerial s startTime polls = .returned c s2 →
      c = ERR_PROTOCOL ∨ c = ERR_TIMEOUT →
      SHDLC_SerialToBuffer (SHDLC_SendToSerial s).2 startTime polls = .returned c s2 ∨
      (SHDLC_SerialToBuffer (SHDLC_SendToSerial s).2 startTime polls = .returned ERR_OK s2 ∧
        s2._Receive_BUF.getD (s2._Receive_BUF_Length - 1) 0
          ≠ SHDLC_calc_CRC s2._Receive_BUF 1 (s2._Receive_BUF_Length - 2) ∧
        c = ERR_PROTOCOL) ∨
      (SHDLC_SerialToBuffer (SHDLC_SendToSerial s).2 startTime polls = .returned ERR_OK s2 ∧
        s2._Receive_BUF.getD (s2._Receive_BUF_Length - 1) 0
          = SHDLC_calc_CRC s2._Receive_BUF 1 (s2._Receive_BUF_Length - 2) ∧
        s2._Receive_BUF.getD 3 0 % 128 = c)) := by
  refine ⟨?_, ?_, ?_⟩
  · intro c s2 hr hc
    refine ⟨?_, ?_⟩
    · simp only [SHDLC_ReadFromSerial, hr, hc, ne_eq, not_false_eq_true, ite_true]
    · rcases serialLoop_returned startTime polls 0 false _ c s2 hr with hk | hk | hk
      · exact Or.inl hk
      · exact Or.inr hk
      · exact absurd hk.1 hc
  · intro s2 hr
    refine ⟨?_, ?_, ?_⟩
    · rcases serialLoop_returned startTime polls 0 false _ _ s2 hr with hk | hk | hk
      · cases hk
      · cases hk
      · exact hk.2.1
    · intro hbad
      simp only [SHDLC_ReadFromSerial, hr, hbad, ne_eq, not_true_eq_false, ite_false,
        not_false_eq_true, ite_true]
    · intro hgood _
      have e : SHDLC_ReadFromSerial s startTime polls
          = .returned (s2._Receive_BUF.getD 3 0) s2 := by
        simp only [SHDLC_ReadFromSerial, hr, hgood, ne_eq, not_true_eq_false, ite_false]
      refine ⟨e, ?_, ?_⟩
      · rw [e]
        simp only [RxResult.code, Option.some.injEq]
      · rw [e]
        simp only [RxResult.code, Option.some.injEq]
  · intro c s2 h hc
    unfold SHDLC_ReadFromSerial at h
    simp only [] at h
    cases hr : SHDLC_SerialToBuffer (SHDLC_SendToSerial s).2 startTime polls with
    | overrun i s1 => rw [hr] at h; cases h
    | running i b s1 => rw [hr] at h; cases h
    | returned ret s1 =>
      rw [hr] at h
      simp only [] at h
      by_cases hret : ret ≠ ERR_OK
      · rw [if_pos hret] at h
        cases h
        exact Or.inl rfl
      · rw [if_neg hret] at h
        have hok : ret = ERR_OK := by
          by_contra hne
          exact hret hne
        right
        by_cases hcrc : s1._Receive_BUF.getD (s1._Receive_BUF_Length - 1) 0
            ≠ SHDLC_calc_CRC s1._Receive_BUF 1 (s1._Receive_BUF_Length - 2)
        · rw [if_pos hcrc] at h
          cases h
          left
          rw [hok]
          exact ⟨rfl, hcrc, rfl⟩
        · rw [if_neg hcrc] at h
          cases h
          right
          rw [hok]
          refine ⟨rfl, ?_, ?_⟩
          · by_contra hne
            exact hcrc hne
          · rcases hc with hc | hc
            · rw [hc]
              decide
            · rw [hc]
              decide

/-- Witness for C37: the frame `7E 00 00 51 00 AE 7E` passes the tests with status byte
0x51 and gives `ERR_PROTOCOL`; a first byte `55` makes the read loop, and so
`SHDLC_ReadFromSerial`, return `ERR_PROTOCOL`. -/
theorem SHDLC_ReadFromSerial_failure_codes_witness :
    (SHDLC_ReadFromSerial State.init 0
        (pollsOf 0 [0x7E, 0x00, 0x00, 0x51, 0x00, 0xAE, 0x7E])).code = some ERR_PROTOCOL ∧
    (SHDLC_ReadFromSerial State.init 0
        (pollsOf 0 [0x55])).code = some ERR_PROTOCOL :=
  ⟨(((SHDLC_ReadFromSerial_failure_codes State.init 0
        (pollsOf 0 [0x7E, 0x00, 0x00, 0x51, 0x00, 0xAE, 0x7E])).2.1
      (SHDLC_SerialToBuffer State.init 0
        (pollsOf 0 [0x7E, 0x00, 0x00, 0x51, 0x00, 0xAE, 0x7E])).state (by decide)).2.2
      (by decide) (by decide)).2.1.2 (by decide),
   congrArg RxResult.code
    (((SHDLC_ReadFromSerial_failure_codes State.init 0 (pollsOf 0 [0x55])).1 ERR_PROTOCOL
      (SHDLC_SerialToBuffer State.init 0 (pollsOf 0 [0x55])).state (by decide)
      (by decide)).1)⟩

/-- C38. A failed instruction leaves the session state unchanged: for every instruction
type (start, stop and reset among them), on both transports and for both prior values of
the measurement flag, when the transaction of `Instruct` is run and returns a code other
than `ERR_OK`, `Instruct` returns false and the measurement flag has its prior value. -/
theorem Instruct_failed_keeps_flag (type : Nat) (s s1 : State) (env env1 : List Exchange)
    (ret : Nat) (hrun : ¬ (type = SVM40_SHDLC_STOP_MEASURE ∧ s._started = false))
    (h : instructCommand type s env = some (some ret, s1, env1)) (hret : ret ≠ ERR_OK) :
    Instruct type s env = some (false, s1, env1) ∧ s1._started = s._started := by
  refine ⟨?_, (instructCommand_session h).1⟩
  unfold Instruct
  rw [if_neg hrun, h]
  simp only [Option.some_bind]
  rw [if_neg hret]

/-- Witness for C38: a stop while measuring that the device does not answer. -/
theorem Instruct_failed_keeps_flag_witness :
    (Instruct SVM40_SHDLC_STOP_MEASURE State.measuring [silence]).map
        (fun r => (r.1, r.2.1._started))
      = some (false, true) := by
  rw [(Instruct_failed_keeps_flag SVM40_SHDLC_STOP_MEASURE State.measuring
    (Outcome.state (instructCommand SVM40_SHDLC_STOP_MEASURE State.measuring [silence]))
    [silence] [] ERR_TIMEOUT (by decide) (by decide) (by decide)).1]
  rfl

/-- C39. `stop()` while idle is a no-op: when the measurement flag is false, `stop()`
returns true with the driver object (outbound buffer, inbound buffer, settle delay,
measurement flag, and what was written to either transport) and the exchanges at hand
unchanged. -/
theorem stop_while_idle (s : State) (env : List Exchange) (h : s._started = false) :
    stop s env = some (true, s, env) := by
  unfold stop Instruct
  rw [if_pos ⟨rfl, h⟩]

/-- Witness for C39: an idle driver object on the stream transport. -/
theorem stop_while_idle_witness :
    stop State.init [silence] = some (true, State.init, [silence]) :=
  stop_while_idle State.init [silence] rfl

end SVM40
